import Mathlib

/-!
The evaluation engine of brainrot, `ast.c`

A shallow embedding of the expression evaluator, the symbol table and the statement
executor of `ast.c`, followed by the properties established about them.

Conventions of the embedding:
* a C `int` is an `Int`; arithmetic results are reduced by `wrap32`;
* a C `float` / `double` is its IEEE-754 bit pattern (`F32` / `F64`), with the
  operations computed by correct rounding of the exact result;
* an `ASTNode *` is an `ASTNode`, the null pointer being `ASTNode.null`;
* the globals of the file (`symbol_table`, `var_count`, `yylineno`, `break_env`) and the
  calls made to the external primitives are the fields of `State`;
* a function that can call `exit`, `longjmp` or run into behaviour that C leaves
  undefined returns a `Res`.
-/

set_option autoImplicit false

/-! ## Machine arithmetic -/


def INT_MAX : Int := 2147483647
def INT_MIN : Int := -2147483648

/-- Reduction of an integer into the range of a 32-bit signed `int`. -/
def wrap32 (z : Int) : Int := (z + 2147483648) % 4294967296 - 2147483648

/-- Layout of an IEEE-754 binary interchange format. -/
structure FloatFormat where
  ebits : Nat
  mbits : Nat
deriving DecidableEq, Repr

def binary32 : FloatFormat := ⟨8, 23⟩
def binary64 : FloatFormat := ⟨11, 52⟩

/-- The value denoted by a bit pattern: a finite value is `num / den` with its sign kept apart. -/
inductive FloatClass where
  | nan
  | inf (neg : Bool)
  | fin (neg : Bool) (num den : Nat)
deriving DecidableEq, Repr

namespace FloatFormat

def bias (f : FloatFormat) : Nat := 2 ^ (f.ebits - 1) - 1
def expMax (f : FloatFormat) : Nat := 2 ^ f.ebits - 1
def signBit (f : FloatFormat) : Nat := 2 ^ (f.ebits + f.mbits)
def infBits (f : FloatFormat) : Nat := f.expMax * 2 ^ f.mbits
def nanBits (f : FloatFormat) : Nat := f.infBits + 2 ^ (f.mbits - 1)

def decode (f : FloatFormat) (x : Nat) : FloatClass :=
  let m := x % 2 ^ f.mbits
  let e := (x / 2 ^ f.mbits) % 2 ^ f.ebits
  let s := (x / f.signBit) % 2 == 1
  if e = f.expMax then (if m = 0 then .inf s else .nan)
  else
    let sig := if e = 0 then m else 2 ^ f.mbits + m
    let e1 := if e = 0 then 1 else e
    -- value = sig * 2 ^ (e1 - bias - mbits)
    if f.bias + f.mbits ≤ e1 then .fin s (sig * 2 ^ (e1 - (f.bias + f.mbits))) 1
    else .fin s sig (2 ^ (f.bias + f.mbits - e1))

/-- Round `n / d` to the nearest natural number, ties to even. -/
def roundHalfEven (n d : Nat) : Nat :=
  let q := n / d
  let r := n % d
  if 2 * r < d then q else if d < 2 * r then q + 1 else if q % 2 = 0 then q else q + 1

/-- The number of halvings that bring `n` below 2, at most `fuel`. -/
def halvings : Nat → Nat → Nat
  | 0, _ => 0
  | fuel + 1, n => if n < 2 then 0 else halvings fuel (n / 2) + 1

/-- The floor of the binary logarithm of `n` (0 for `n = 0`). -/
def floorLog2 (n : Nat) : Nat := halvings n n

/-- Bit pattern (sign bit clear) of the magnitude `n / d` rounded to nearest, ties to even. -/
def roundMag (f : FloatFormat) (n d : Nat) : Nat :=
  if n = 0 then 0 else
  -- floor (log2 (n / d)) as an exponent biased by `bias`, at least 1
  let ln := floorLog2 n
  let ld := floorLog2 d
  -- n / d < 2 ^ (ln - ld)  iff  n * 2 ^ ld < d * 2 ^ ln
  let low : Bool := decide (n * 2 ^ ld < d * 2 ^ ln)
  -- biased exponent E = floor(log2 q) + bias, where floor(log2 q) = ln - ld - (1 if low)
  let up := ln + f.bias
  let dn := ld + (if low then 1 else 0)
  let E := if up ≤ dn then 1 else max 1 (up - dn)
  -- scaled = q / 2 ^ (E - bias - mbits) = n * 2 ^ (bias + mbits) / (d * 2 ^ E)
  let k := roundHalfEven (n * 2 ^ (f.bias + f.mbits)) (d * 2 ^ E)
  let bits := (E - 1) * 2 ^ f.mbits + k
  if f.infBits ≤ bits then f.infBits else bits

def encode (f : FloatFormat) : FloatClass → Nat
  | .nan => f.nanBits
  | .inf s => (if s then f.signBit else 0) + f.infBits
  | .fin s n d => (if s then f.signBit else 0) + f.roundMag n d

def neg (f : FloatFormat) (x : Nat) : Nat :=
  if (x / f.signBit) % 2 = 1 then x - f.signBit else x + f.signBit

def abs (f : FloatFormat) (x : Nat) : Nat :=
  if (x / f.signBit) % 2 = 1 then x - f.signBit else x

def addClass : FloatClass → FloatClass → FloatClass
  | .nan, _ => .nan
  | _, .nan => .nan
  | .inf a, .inf b => if a = b then .inf a else .nan
  | .inf a, .fin _ _ _ => .inf a
  | .fin _ _ _, .inf b => .inf b
  | .fin s1 n1 d1, .fin s2 n2 d2 =>
    let a := n1 * d2
    let b := n2 * d1
    if s1 = s2 then .fin s1 (a + b) (d1 * d2)
    else if a = b then .fin false 0 1
    else if b < a then .fin s1 (a - b) (d1 * d2)
    else .fin s2 (b - a) (d1 * d2)

def mulClass : FloatClass → FloatClass → FloatClass
  | .nan, _ => .nan
  | _, .nan => .nan
  | .inf a, .inf b => .inf (a != b)
  | .inf a, .fin s n _ => if n = 0 then .nan else .inf (a != s)
  | .fin s n _, .inf b => if n = 0 then .nan else .inf (s != b)
  | .fin s1 n1 d1, .fin s2 n2 d2 => .fin (s1 != s2) (n1 * n2) (d1 * d2)

def divClass : FloatClass → FloatClass → FloatClass
  | .nan, _ => .nan
  | _, .nan => .nan
  | .inf _, .inf _ => .nan
  | .inf a, .fin s _ _ => .inf (a != s)
  | .fin s _ _, .inf b => .fin (s != b) 0 1
  | .fin s1 n1 d1, .fin s2 n2 d2 =>
    if n2 = 0 then (if n1 = 0 then .nan else .inf (s1 != s2))
    else .fin (s1 != s2) (n1 * d2) (d1 * n2)

/-- Ordering `a < b` of two decoded values; false when either is a NaN. -/
def ltClass : FloatClass → FloatClass → Bool
  | .nan, _ => false
  | _, .nan => false
  | .inf a, .inf b => a && !b
  | .inf a, .fin _ _ _ => a
  | .fin _ _ _, .inf b => !b
  | .fin s1 n1 d1, .fin s2 n2 d2 =>
    let a := n1 * d2
    let b := n2 * d1
    match s1, s2 with
    | false, false => decide (a < b)
    | true, true => decide (b < a)
    | true, false => decide (0 < a ∨ 0 < b)
    | false, true => false

def isNaNClass : FloatClass → Bool
  | .nan => true
  | _ => false

def add (f : FloatFormat) (x y : Nat) : Nat := f.encode (addClass (f.decode x) (f.decode y))
def sub (f : FloatFormat) (x y : Nat) : Nat := f.add x (f.neg y)
def mul (f : FloatFormat) (x y : Nat) : Nat := f.encode (mulClass (f.decode x) (f.decode y))
def div (f : FloatFormat) (x y : Nat) : Nat := f.encode (divClass (f.decode x) (f.decode y))
def lt (f : FloatFormat) (x y : Nat) : Bool := ltClass (f.decode x) (f.decode y)
def gt (f : FloatFormat) (x y : Nat) : Bool := ltClass (f.decode y) (f.decode x)
def le (f : FloatFormat) (x y : Nat) : Bool :=
  !isNaNClass (f.decode x) && !isNaNClass (f.decode y) && !ltClass (f.decode y) (f.decode x)
def ge (f : FloatFormat) (x y : Nat) : Bool := f.le y x

/-- Conversion of an `int`. -/
def ofInt (f : FloatFormat) (i : Int) : Nat := f.encode (.fin (decide (i < 0)) i.natAbs 1)

/-- Conversion to `int`: truncation toward zero, defined only when the result fits in an `int`. -/
def toInt (f : FloatFormat) (x : Nat) : Option Int :=
  match f.decode x with
  | .fin s n d =>
    let q : Int := (n / d : Nat)
    let v := if s then -q else q
    if INT_MIN ≤ v ∧ v ≤ INT_MAX then some v else none
  | _ => none

/-- Conversion to `bool`: true exactly when the value compares unequal to zero. -/
def toBool (f : FloatFormat) (x : Nat) : Bool :=
  match f.decode x with
  | .fin _ n _ => n != 0
  | _ => true

/-- Conversion between formats. -/
def convert (f g : FloatFormat) (x : Nat) : Nat := g.encode (f.decode x)

end FloatFormat


/-- Bit pattern of a C `float`. -/
abbrev F32 := Nat
/-- Bit pattern of a C `double`. -/
abbrev F64 := Nat

def FLT_MIN : F32 := 0x00800000
def FLT_MAX : F32 := 0x7f7fffff
def FLT_EPSILON : F32 := 0x34000000
def DBL_MIN : F64 := 0x0010000000000000
def DBL_MAX : F64 := 0x7fefffffffffffff
def DBL_EPSILON : F64 := 0x3cb0000000000000

def f32_to_f64 (x : F32) : F64 := FloatFormat.convert binary32 binary64 x
def f64_to_f32 (x : F64) : F32 := FloatFormat.convert binary64 binary32 x

/-- The C conversion `(unsigned int)i`. -/
def to_unsigned (i : Int) : Nat := (i % 4294967296).toNat

/-- The C quotient `a / b` of two `int`s for `b` non-zero; `INT_MIN / -1` is not defined. -/
def int_div (a b : Int) : Option Int :=
  if a = INT_MIN ∧ b = -1 then none else some (Int.tdiv a b)

/-- The C remainder `a % b` of two `int`s for `b` non-zero; `INT_MIN % -1` is not defined. -/
def int_mod (a b : Int) : Option Int :=
  if a = INT_MIN ∧ b = -1 then none else some (Int.tmod a b)

/-- The C value of a truth value used as an `int`. -/
def bool_to_int (b : Bool) : Int := if b then 1 else 0

/-! ## Data model -/

inductive VarType where
  | NONE
  | VAR_INT
  | VAR_FLOAT
  | VAR_DOUBLE
  | VAR_BOOL
  | VAR_CHAR
  | VAR_SHORT
deriving DecidableEq, Repr

/-- Qualifier flags; the initialiser of `current_modifiers` has four fields, the fourth is
never read or reset in `ast.c`. -/
structure TypeModifiers where
  is_volatile : Bool
  is_signed : Bool
  is_unsigned : Bool
  reserved : Bool
deriving DecidableEq, Repr

/-- The value `{false, false, false, false}` of `current_modifiers`. -/
def no_modifiers : TypeModifiers := ⟨false, false, false, false⟩

inductive OperatorType where
  | OP_PLUS
  | OP_MINUS
  | OP_TIMES
  | OP_DIVIDE
  | OP_MOD
  | OP_LT
  | OP_GT
  | OP_LE
  | OP_GE
  | OP_EQ
  | OP_NE
  | OP_AND
  | OP_OR
  | OP_NEG
  | OP_POST_INC
  | OP_POST_DEC
  | OP_PRE_INC
  | OP_PRE_DEC
  | OP_ASSIGN
deriving DecidableEq, Repr

/-- The member of the union `value` of a table entry that was written last;
`indeterminate` stands for bytes the embedding does not track. -/
inductive Value where
  | ivalue (i : Int)
  | fvalue (f : F32)
  | dvalue (d : F64)
  | bvalue (b : Bool)
  | indeterminate
deriving DecidableEq, Repr

/-- The object a `void *value` argument of `set_variable` points to. -/
inductive CObject where
  | int (i : Int)
  | float (f : F32)
  | double (d : F64)
  | bool (b : Bool)
  | char (c : Int)
  | short (i : Int)
deriving DecidableEq, Repr

structure Variable where
  name : String
  var_type : VarType
  modifiers : TypeModifiers
  value : Value
deriving DecidableEq, Repr

mutual
/-- An `ASTNode *`. Only the fields that `ast.c` reads are kept. An identifier node carries
`id`, the identity of the node, under which its `alreadyChecked` / `isValidSymbol` fields are
kept in the state. Nodes built without `create_node` have no initialised `modifiers`. -/
inductive ASTNode where
  | null
  | NODE_INT (ivalue : Int) (modifiers : TypeModifiers)
  | NODE_FLOAT (fvalue : F32) (modifiers : TypeModifiers)
  | NODE_DOUBLE (dvalue : F64) (modifiers : TypeModifiers)
  | NODE_CHAR (ivalue : Int) (modifiers : TypeModifiers)
  | NODE_BOOLEAN (bvalue : Bool) (modifiers : TypeModifiers)
  | NODE_STRING_LITERAL (name : String)
  | NODE_IDENTIFIER (id : Nat) (name : String) (var_type : VarType) (modifiers : TypeModifiers)
  | NODE_SIZEOF (name : String) (modifiers : TypeModifiers)
  | NODE_ASSIGNMENT (left right : ASTNode) (modifiers : TypeModifiers)
  | NODE_OPERATION (op : OperatorType) (left right : ASTNode) (modifiers : TypeModifiers)
  | NODE_UNARY_OPERATION (op : OperatorType) (operand : ASTNode) (modifiers : TypeModifiers)
  | NODE_FUNC_CALL (function_name : String) (arguments : ArgumentList)
      (modifiers : TypeModifiers)
  | NODE_FOR_STATEMENT (init cond incr body : ASTNode) (modifiers : TypeModifiers)
  | NODE_WHILE_STATEMENT (cond body : ASTNode) (modifiers : TypeModifiers)
  | NODE_IF_STATEMENT (condition then_branch else_branch : ASTNode)
  | NODE_SWITCH_STATEMENT (expression : ASTNode) (cases : CaseNode)
  | NODE_BREAK_STATEMENT
  | NODE_STATEMENT_LIST (statements : StatementList)
  | NODE_PRINT_STATEMENT (expr : ASTNode)
  | NODE_ERROR_STATEMENT (expr : ASTNode)
/-- A `StatementList *`. -/
inductive StatementList where
  | nil
  | cons (statement : ASTNode) (next : StatementList)
/-- A `CaseNode *`; a null `value` marks the default case. -/
inductive CaseNode where
  | nil
  | cons (value statements : ASTNode) (next : CaseNode)
/-- An `ArgumentList *`. -/
inductive ArgumentList where
  | nil
  | cons (expr : ASTNode) (next : ArgumentList)
end

/-- An argument passed to a variadic output primitive, after the default promotions. -/
inductive Arg where
  | int (i : Int)
  | uint (u : Nat)
  | ulong (u : Nat)
  | double (d : F64)
  | str (s : String)
deriving DecidableEq, Repr

/-- A call of one of the external primitives. `yapping_bytes` is a call of `yapping` whose
format is a buffer of the caller, given by its bytes: such a buffer can end inside a
multi-byte character, so that it need not be the text of a string. -/
inductive Event where
  | yapping (format : String) (args : List Arg)
  | yapping_bytes (format : List Nat) (args : List Arg)
  | yappin (format : String) (args : List Arg)
  | baka (format : String) (args : List Arg)
  | ragequit (exit_code : Int)
  | chill (seconds : Nat)
deriving DecidableEq, Repr

/-- The globals of `ast.c` and the observable effects of a run.
* `symbol_table`: the entries `0 .. var_count - 1`, so `var_count` is its length;
* `checked`: for an identifier node that has `alreadyChecked` set, its `isValidSymbol`;
* `break_env`: the activation of `execute_switch_statement` whose `setjmp` filled the
  jump buffer last, activations being numbered by `setjmp_count`;
* `errors`: the messages passed to `yyerror`, each with the value of `yylineno` then;
* `output`: the calls of the output and process primitives. -/
structure State where
  symbol_table : List Variable
  checked : List (Nat × Bool)
  yylineno : Int
  break_env : Option Nat
  setjmp_count : Nat
  errors : List (String × Int)
  output : List Event
deriving DecidableEq, Repr

def var_count (s : State) : Nat := s.symbol_table.length

/-- The state in which a run starts. -/
def State.initial : State := ⟨[], [], 0, Option.none, 0, [], []⟩

/-- The way a call ends: by returning `val`, in the middle of a `longjmp(break_env, 1)`,
by `exit(code)`, in behaviour not defined by the C source, or (loops only) by using up
its iteration budget. -/
inductive Res (α : Type) where
  | ok (val : α) (st : State)
  | jump (st : State)
  | exit (code : Int) (st : State)
  | undefined
  | timeout
deriving DecidableEq, Repr

/-- Sequencing: continue with `k` after a call that returned. -/
def Res.bind {α β : Type} (r : Res α) (k : α → State → Res β) : Res β :=
  match r with
  | .ok v s => k v s
  | .jump s => .jump s
  | .exit c s => .exit c s
  | .undefined => .undefined
  | .timeout => .timeout

/-- Continue with the content of a union member or converted value, if it is defined. -/
def Res.ofOption {α : Type} (o : Option α) (s : State) : Res α :=
  match o with
  | some v => .ok v s
  | Option.none => .undefined

/-- Modelled from the spec: `yyerror` is external; it writes the message to the diagnostic
channel together with a line number derived from `yylineno`, and returns. -/
def yyerror (msg : String) (s : State) : State :=
  { s with errors := s.errors ++ [(msg, s.yylineno)] }

def emit (e : Event) (s : State) : State :=
  { s with output := s.output ++ [e] }

/-! ## Symbol table -/

/-- The value stored by `set_variable` for `type`: the object behind `value` read through a
pointer of the member type of `type`; `Option.none` when `type` selects no member. -/
def read_object (type : VarType) (value : CObject) : Option Value :=
  match type, value with
  | .VAR_INT, .int i => some (.ivalue i)
  | .VAR_FLOAT, .float f => some (.fvalue f)
  | .VAR_DOUBLE, .double d => some (.dvalue d)
  | .VAR_BOOL, .bool b => some (.bvalue b)
  | .VAR_CHAR, .char c => some (.ivalue c)
  | .VAR_SHORT, .short i => some (.ivalue i)
  | .NONE, _ => Option.none
  | _, _ => some .indeterminate

/-- The first loop of `set_variable`: update the first entry called `name`, if there is one. -/
def update_existing (name : String) (value : CObject) (type : VarType) (mods : TypeModifiers) :
    List Variable → Option (List Variable)
  | [] => Option.none
  | v :: rest =>
    if v.name = name then
      some ({ name := v.name, var_type := type, modifiers := mods,
              value := (read_object type value).getD v.value } :: rest)
    else
      (update_existing name value type mods rest).map (fun r => v :: r)

/-- `set_variable`, over the table; `MAX_VARS` is the capacity fixed in `ast.h`. -/
def set_variable (MAX_VARS : Nat) (name : String) (value : CObject) (type : VarType)
    (mods : TypeModifiers) (tbl : List Variable) : Bool × List Variable :=
  match update_existing name value type mods tbl with
  | some tbl1 => (true, tbl1)
  | Option.none =>
    if tbl.length < MAX_VARS then
      (true, tbl ++ [{ name := name, var_type := type, modifiers := mods,
                       value := (read_object type value).getD .indeterminate }])
    else (false, tbl)

def set_int_variable (MAX_VARS : Nat) (name : String) (value : Int) (mods : TypeModifiers)
    (tbl : List Variable) : Bool × List Variable :=
  set_variable MAX_VARS name (.int value) .VAR_INT mods tbl

def set_float_variable (MAX_VARS : Nat) (name : String) (value : F32) (mods : TypeModifiers)
    (tbl : List Variable) : Bool × List Variable :=
  set_variable MAX_VARS name (.float value) .VAR_FLOAT mods tbl

def set_double_variable (MAX_VARS : Nat) (name : String) (value : F64) (mods : TypeModifiers)
    (tbl : List Variable) : Bool × List Variable :=
  set_variable MAX_VARS name (.double value) .VAR_DOUBLE mods tbl

def set_bool_variable (MAX_VARS : Nat) (name : String) (value : Bool) (mods : TypeModifiers)
    (tbl : List Variable) : Bool × List Variable :=
  set_variable MAX_VARS name (.bool value) .VAR_BOOL mods tbl

/-- The scan `for (i = 0; i < var_count; i++) if (strcmp(symbol_table[i].name, name) == 0)`:
the first entry called `name`. -/
def find_variable (tbl : List Variable) (name : String) : Option Variable :=
  tbl.find? (fun v => decide (v.name = name))

/-- Modelled from the spec: `get_variable_modifiers` is external, the qualifier lookup for
already-declared variables; it returns the qualifiers recorded for `name`, and no qualifier
for a name that is not in the table. -/
def get_variable_modifiers (tbl : List Variable) (name : String) : TypeModifiers :=
  match find_variable tbl name with
  | some v => v.modifiers
  | Option.none => no_modifiers

/-- Modelled from the spec: the three-argument call `set_variable(name, value, mods)` of the
increment and decrement cases has no definition in `ast.c`; following "read the current value
and immediately write the incremented/decremented value back into the symbol table", it is
the upsert of `value` under the kind of the C type of `value`. Its result is ignored. -/
def set_variable_value (MAX_VARS : Nat) (name : String) (value : CObject) (mods : TypeModifiers)
    (s : State) : State :=
  let type : VarType :=
    match value with
    | .int _ => .VAR_INT
    | .float _ => .VAR_FLOAT
    | .double _ => .VAR_DOUBLE
    | .bool _ => .VAR_BOOL
    | .char _ => .VAR_CHAR
    | .short _ => .VAR_SHORT
  { s with symbol_table := (set_variable MAX_VARS name value type mods s.symbol_table).2 }

def Value.get_ivalue : Value → Option Int
  | .ivalue i => some i
  | _ => Option.none

def Value.get_fvalue : Value → Option F32
  | .fvalue f => some f
  | _ => Option.none

def Value.get_dvalue : Value → Option F64
  | .dvalue d => some d
  | _ => Option.none

def Value.get_bvalue : Value → Option Bool
  | .bvalue b => some b
  | _ => Option.none

/-- The field `data.name` of a node, for the node types whose `data` holds a name. -/
def ASTNode.data_name : ASTNode → Option String
  | .NODE_IDENTIFIER _ name _ _ => some name
  | .NODE_STRING_LITERAL name => some name
  | .NODE_SIZEOF name _ => some name
  | _ => Option.none

/-- The field `modifiers` of a node, for the nodes built by `create_node`. -/
def ASTNode.get_modifiers : ASTNode → Option TypeModifiers
  | .NODE_INT _ m => some m
  | .NODE_FLOAT _ m => some m
  | .NODE_DOUBLE _ m => some m
  | .NODE_CHAR _ m => some m
  | .NODE_BOOLEAN _ m => some m
  | .NODE_IDENTIFIER _ _ _ m => some m
  | .NODE_SIZEOF _ m => some m
  | .NODE_ASSIGNMENT _ _ m => some m
  | .NODE_OPERATION _ _ _ m => some m
  | .NODE_UNARY_OPERATION _ _ m => some m
  | .NODE_FUNC_CALL _ _ m => some m
  | .NODE_FOR_STATEMENT _ _ _ _ m => some m
  | .NODE_WHILE_STATEMENT _ _ m => some m
  | _ => Option.none

/-! ## Identifier resolution -/

def check_and_mark_identifier (id : Nat) (name : String) (contextErrorMessage : String)
    (s : State) : Bool × State :=
  match s.checked.lookup id with
  | some isValidSymbol => (isValidSymbol, s)
  | Option.none =>
    let isValidSymbol := (find_variable s.symbol_table name).isSome
    let s1 := { s with checked := (id, isValidSymbol) :: s.checked }
    if isValidSymbol then (true, s1)
    else (false, yyerror contextErrorMessage { s1 with yylineno := s1.yylineno - 2 })

/-! ## Expression evaluation -/

/-- The `switch (node->data.op.op)` of `evaluate_expression_float`. -/
def float_binary_op (op : OperatorType) (left right : F32) (s : State) : Res F32 :=
  match op with
  | .OP_PLUS => .ok (binary32.add left right) s
  | .OP_MINUS => .ok (binary32.sub left right) s
  | .OP_TIMES => .ok (binary32.mul left right) s
  | .OP_DIVIDE =>
    if binary32.lt (binary32.abs right) FLT_MIN then
      if binary32.lt (binary32.abs left) FLT_MIN then
        .ok (binary32.div (binary32.ofInt 0) (binary32.ofInt 0)) s
      else .ok (if binary32.gt left (binary32.ofInt 0) then FLT_MAX else binary32.neg FLT_MAX) s
    else .ok (binary32.div left right) s
  | .OP_LT =>
    .ok (binary32.ofInt
      (bool_to_int (binary32.lt (binary32.sub left right) (binary32.neg FLT_EPSILON)))) s
  | .OP_GT =>
    .ok (binary32.ofInt (bool_to_int (binary32.gt (binary32.sub left right) FLT_EPSILON))) s
  | .OP_LE =>
    .ok (binary32.ofInt (bool_to_int (binary32.le (binary32.sub left right) FLT_EPSILON))) s
  | .OP_GE =>
    .ok (binary32.ofInt
      (bool_to_int (binary32.ge (binary32.sub left right) (binary32.neg FLT_EPSILON)))) s
  | .OP_EQ =>
    .ok (binary32.ofInt
      (bool_to_int (binary32.le (binary32.abs (binary32.sub left right)) FLT_EPSILON))) s
  | .OP_NE =>
    .ok (binary32.ofInt
      (bool_to_int (binary32.gt (binary32.abs (binary32.sub left right)) FLT_EPSILON))) s
  | _ => .ok (binary32.ofInt 0) (yyerror "Invalid operator for float operation" s)

def evaluate_expression_float (MAX_VARS : Nat) : ASTNode → State → Res F32
  | .null, s => .ok (binary32.ofInt 0) s
  | .NODE_FLOAT fvalue _, s => .ok fvalue s
  | .NODE_DOUBLE dvalue _, s => .ok (f64_to_f32 dvalue) s
  | .NODE_INT ivalue _, s => .ok (binary32.ofInt ivalue) s
  | .NODE_IDENTIFIER _ name _ _, s =>
    match find_variable s.symbol_table name with
    | some v =>
      if v.var_type = .VAR_DOUBLE then
        Res.ofOption (v.value.get_dvalue.map f64_to_f32) s
      else if v.var_type = .VAR_FLOAT then
        Res.ofOption v.value.get_fvalue s
      else
        Res.ofOption (v.value.get_ivalue.map binary32.ofInt) s
    | Option.none => .ok (binary32.ofInt 0) (yyerror "Undefined variable" s)
  | .NODE_OPERATION op left right _, s =>
    (evaluate_expression_float MAX_VARS left s).bind fun l s1 =>
    (evaluate_expression_float MAX_VARS right s1).bind fun r s2 =>
    float_binary_op op l r s2
  | .NODE_UNARY_OPERATION op operand _, s =>
    (evaluate_expression_float MAX_VARS operand s).bind fun v s1 =>
    match op with
    | .OP_NEG => .ok (binary32.neg v) s1
    | .OP_POST_DEC =>
      (Res.ofOption operand.data_name s1).bind fun name s2 =>
      .ok v (set_variable_value MAX_VARS name (.float (binary32.sub v (binary32.ofInt 1)))
        (get_variable_modifiers s2.symbol_table name) s2)
    | .OP_POST_INC =>
      (Res.ofOption operand.data_name s1).bind fun name s2 =>
      .ok v (set_variable_value MAX_VARS name (.float (binary32.add v (binary32.ofInt 1)))
        (get_variable_modifiers s2.symbol_table name) s2)
    | .OP_PRE_DEC =>
      (Res.ofOption operand.data_name s1).bind fun name s2 =>
      .ok (binary32.sub v (binary32.ofInt 1))
        (set_variable_value MAX_VARS name (.float (binary32.sub v (binary32.ofInt 1)))
          (get_variable_modifiers s2.symbol_table name) s2)
    | .OP_PRE_INC =>
      (Res.ofOption operand.data_name s1).bind fun name s2 =>
      .ok (binary32.add v (binary32.ofInt 1))
        (set_variable_value MAX_VARS name (.float (binary32.add v (binary32.ofInt 1)))
          (get_variable_modifiers s2.symbol_table name) s2)
    | _ => .ok (binary32.ofInt 0) (yyerror "Unknown unary operator for float" s1)
  | _, s => .ok (binary32.ofInt 0) (yyerror "Invalid float expression" s)

/-- The `switch (node->data.op.op)` of `evaluate_expression_double`. -/
def double_binary_op (op : OperatorType) (left right : F64) (s : State) : Res F64 :=
  match op with
  | .OP_PLUS => .ok (binary64.add left right) s
  | .OP_MINUS => .ok (binary64.sub left right) s
  | .OP_TIMES => .ok (binary64.mul left right) s
  | .OP_DIVIDE =>
    if binary64.lt (binary64.abs right) DBL_MIN then
      if binary64.lt (binary64.abs left) DBL_MIN then
        .ok (binary64.div (binary64.ofInt 0) (binary64.ofInt 0)) s
      else .ok (if binary64.gt left (binary64.ofInt 0) then DBL_MAX else binary64.neg DBL_MAX) s
    else .ok (binary64.div left right) s
  | .OP_LT =>
    .ok (binary64.ofInt (bool_to_int
      (binary64.lt (binary64.sub left right) (f32_to_f64 (binary32.neg FLT_EPSILON))))) s
  | .OP_GT =>
    .ok (binary64.ofInt (bool_to_int (binary64.gt (binary64.sub left right) DBL_EPSILON))) s
  | .OP_LE =>
    .ok (binary64.ofInt (bool_to_int (binary64.le (binary64.sub left right) DBL_EPSILON))) s
  | .OP_GE =>
    .ok (binary64.ofInt
      (bool_to_int (binary64.ge (binary64.sub left right) (binary64.neg DBL_EPSILON)))) s
  | .OP_EQ =>
    .ok (binary64.ofInt
      (bool_to_int (binary64.le (binary64.abs (binary64.sub left right)) DBL_EPSILON))) s
  | .OP_NE =>
    .ok (binary64.ofInt
      (bool_to_int (binary64.gt (binary64.abs (binary64.sub left right)) DBL_EPSILON))) s
  | _ => .ok (binary64.ofInt 0) (yyerror "Invalid operator for double operation" s)

def evaluate_expression_double (MAX_VARS : Nat) : ASTNode → State → Res F64
  | .null, s => .ok (binary64.ofInt 0) s
  | .NODE_DOUBLE dvalue _, s => .ok dvalue s
  | .NODE_FLOAT fvalue _, s => .ok (f32_to_f64 fvalue) s
  | .NODE_INT ivalue _, s => .ok (binary64.ofInt ivalue) s
  | .NODE_IDENTIFIER _ name _ _, s =>
    match find_variable s.symbol_table name with
    | some v =>
      if v.var_type = .VAR_DOUBLE then
        Res.ofOption v.value.get_dvalue s
      else if v.var_type = .VAR_FLOAT then
        Res.ofOption (v.value.get_fvalue.map f32_to_f64) s
      else
        Res.ofOption (v.value.get_ivalue.map binary64.ofInt) s
    | Option.none => .ok (binary64.ofInt 0) (yyerror "Undefined variable" s)
  | .NODE_OPERATION op left right _, s =>
    (evaluate_expression_double MAX_VARS left s).bind fun l s1 =>
    (evaluate_expression_double MAX_VARS right s1).bind fun r s2 =>
    double_binary_op op l r s2
  | .NODE_UNARY_OPERATION op operand _, s =>
    (evaluate_expression_double MAX_VARS operand s).bind fun d s1 =>
    -- `float operand = evaluate_expression_double(...)`
    let v : F32 := f64_to_f32 d
    match op with
    | .OP_NEG => .ok (f32_to_f64 (binary32.neg v)) s1
    | .OP_POST_DEC =>
      (Res.ofOption operand.data_name s1).bind fun name s2 =>
      .ok (f32_to_f64 v)
        (set_variable_value MAX_VARS name (.float (binary32.sub v (binary32.ofInt 1)))
          (get_variable_modifiers s2.symbol_table name) s2)
    | .OP_POST_INC =>
      (Res.ofOption operand.data_name s1).bind fun name s2 =>
      .ok (f32_to_f64 v)
        (set_variable_value MAX_VARS name (.float (binary32.add v (binary32.ofInt 1)))
          (get_variable_modifiers s2.symbol_table name) s2)
    | .OP_PRE_DEC =>
      (Res.ofOption operand.data_name s1).bind fun name s2 =>
      .ok (f32_to_f64 (binary32.sub v (binary32.ofInt 1)))
        (set_variable_value MAX_VARS name (.float (binary32.sub v (binary32.ofInt 1)))
          (get_variable_modifiers s2.symbol_table name) s2)
    | .OP_PRE_INC =>
      (Res.ofOption operand.data_name s1).bind fun name s2 =>
      .ok (f32_to_f64 (binary32.add v (binary32.ofInt 1)))
        (set_variable_value MAX_VARS name (.float (binary32.add v (binary32.ofInt 1)))
          (get_variable_modifiers s2.symbol_table name) s2)
    | _ => .ok (binary64.ofInt 0) (yyerror "Unknown unary operator for double" s1)
  | _, s => .ok (binary64.ofInt 0) (yyerror "Invalid double expression" s)

/-- The scan of the `NODE_SIZEOF` case: an entry called `name` of a kind without a size
reports an error and the scan goes on. -/
def sizeof_scan (name : String) : List Variable → State → Int × State
  | [], s => (0, yyerror "Undefined variable in sizeof" s)
  | v :: rest, s =>
    if v.name = name then
      if v.var_type = .VAR_FLOAT then (4, s)
      else if v.var_type = .VAR_DOUBLE then (8, s)
      else if v.modifiers.is_unsigned ∧ v.var_type = .VAR_INT then (4, s)
      else if v.var_type = .VAR_BOOL then (1, s)
      else if v.var_type = .VAR_INT then (4, s)
      else sizeof_scan name rest (yyerror "Undefined variable in sizeof" s)
    else sizeof_scan name rest s

/-- The second `switch (node->data.op.op)` of `evaluate_expression_int` ("regular integer
operations"); `is_unsigned` is `node->modifiers.is_unsigned`. -/
def int_binary_op (op : OperatorType) (is_unsigned : Bool) (left right : Int) (s : State) :
    Res Int :=
  match op with
  | .OP_PLUS => .ok (wrap32 (left + right)) s
  | .OP_MINUS => .ok (wrap32 (left - right)) s
  | .OP_TIMES => .ok (wrap32 (left * right)) s
  | .OP_DIVIDE =>
    if right = 0 then .ok 0 (yyerror "Division by zero" s)
    else Res.ofOption (int_div left right) s
  | .OP_MOD =>
    if right = 0 then .ok 0 (yyerror "Division by zero" s)
    else if is_unsigned then
      .ok (wrap32 ((to_unsigned left % to_unsigned right : Nat) : Int)) s
    else Res.ofOption (int_mod left right) s
  | .OP_LT => .ok (bool_to_int (decide (left < right))) s
  | .OP_GT => .ok (bool_to_int (decide (left > right))) s
  | .OP_LE => .ok (bool_to_int (decide (left ≤ right))) s
  | .OP_GE => .ok (bool_to_int (decide (left ≥ right))) s
  | .OP_EQ => .ok (bool_to_int (decide (left = right))) s
  | .OP_NE => .ok (bool_to_int (decide (left ≠ right))) s
  | _ => .ok 0 (yyerror "Unknown operator" s)

def evaluate_expression_int (MAX_VARS : Nat) : ASTNode → State → Res Int
  | .null, s => .ok 0 s
  | .NODE_INT ivalue _, s => .ok ivalue s
  | .NODE_BOOLEAN bvalue _, s => .ok (bool_to_int bvalue) s
  | .NODE_CHAR ivalue _, s => .ok ivalue s
  | .NODE_FLOAT fvalue _, s =>
    Res.ofOption (binary32.toInt fvalue) (yyerror "Cannot use float in integer context" s)
  | .NODE_DOUBLE dvalue _, s =>
    Res.ofOption (binary64.toInt dvalue) (yyerror "Cannot use double in integer context" s)
  | .NODE_SIZEOF name _, s =>
    .ok (sizeof_scan name s.symbol_table s).1 (sizeof_scan name s.symbol_table s).2
  | .NODE_IDENTIFIER id name _ _, s =>
    match check_and_mark_identifier id name "Undefined variable" s with
    | (false, s1) => .exit 1 s1
    | (true, s1) =>
      match find_variable s1.symbol_table name with
      | some v =>
        if v.var_type = .VAR_FLOAT then
          Res.ofOption (v.value.get_fvalue.bind binary32.toInt)
            (yyerror "Cannot use float variable in integer context" s1)
        else if v.var_type = .VAR_DOUBLE then
          Res.ofOption (v.value.get_dvalue.bind binary64.toInt)
            (yyerror "Cannot use double variable in integer context" s1)
        else Res.ofOption v.value.get_ivalue s1
      | Option.none => .ok 0 (yyerror "Undefined variable" s1)
  | .NODE_OPERATION op left right modifiers, s =>
    if op = .OP_AND ∨ op = .OP_OR then
      -- special handling for logical operations
      (evaluate_expression_int MAX_VARS left s).bind fun l s1 =>
      (evaluate_expression_int MAX_VARS right s1).bind fun r s2 =>
      if op = .OP_AND then .ok (bool_to_int (decide (l ≠ 0) && decide (r ≠ 0))) s2
      else .ok (bool_to_int (decide (l ≠ 0) || decide (r ≠ 0))) s2
    else
      (evaluate_expression_int MAX_VARS left s).bind fun l s1 =>
      (evaluate_expression_int MAX_VARS right s1).bind fun r s2 =>
      int_binary_op op modifiers.is_unsigned l r s2
  | .NODE_UNARY_OPERATION op operand _, s =>
    (evaluate_expression_int MAX_VARS operand s).bind fun v s1 =>
    match op with
    | .OP_NEG => .ok (wrap32 (-v)) s1
    | .OP_POST_DEC =>
      (Res.ofOption operand.data_name s1).bind fun name s2 =>
      .ok v (set_variable_value MAX_VARS name (.int (wrap32 (v - 1)))
        (get_variable_modifiers s2.symbol_table name) s2)
    | .OP_POST_INC =>
      (Res.ofOption operand.data_name s1).bind fun name s2 =>
      .ok v (set_variable_value MAX_VARS name (.int (wrap32 (v + 1)))
        (get_variable_modifiers s2.symbol_table name) s2)
    | .OP_PRE_DEC =>
      (Res.ofOption operand.data_name s1).bind fun name s2 =>
      .ok (wrap32 (v - 1)) (set_variable_value MAX_VARS name (.int (wrap32 (v - 1)))
        (get_variable_modifiers s2.symbol_table name) s2)
    | .OP_PRE_INC =>
      (Res.ofOption operand.data_name s1).bind fun name s2 =>
      .ok (wrap32 (v + 1)) (set_variable_value MAX_VARS name (.int (wrap32 (v + 1)))
        (get_variable_modifiers s2.symbol_table name) s2)
    | _ => .ok 0 (yyerror "Unknown unary operator" s1)
  | _, s => .ok 0 (yyerror "Invalid integer expression" s)

/-- The second `switch (node->data.op.op)` of `evaluate_expression_bool`: the operands are
promoted to `int`, and the result is converted back to `bool`. -/
def bool_binary_op (op : OperatorType) (left right : Bool) (s : State) : Res Bool :=
  let l := bool_to_int left
  let r := bool_to_int right
  match op with
  | .OP_PLUS => .ok (decide (l + r ≠ 0)) s
  | .OP_MINUS => .ok (decide (l - r ≠ 0)) s
  | .OP_TIMES => .ok (decide (l * r ≠ 0)) s
  | .OP_DIVIDE =>
    if r = 0 then .ok false (yyerror "Division by zero" s)
    else .ok (decide (Int.tdiv l r ≠ 0)) s
  | .OP_MOD =>
    if r = 0 then .ok false (yyerror "Division by zero" s)
    else .ok (decide (Int.tmod l r ≠ 0)) s
  | .OP_LT => .ok (decide (l < r)) s
  | .OP_GT => .ok (decide (l > r)) s
  | .OP_LE => .ok (decide (l ≤ r)) s
  | .OP_GE => .ok (decide (l ≥ r)) s
  | .OP_EQ => .ok (decide (l = r)) s
  | .OP_NE => .ok (decide (l ≠ r)) s
  | _ => .ok false (yyerror "Unknown operator" s)

def evaluate_expression_bool : ASTNode → State → Res Bool
  | .null, s => .ok false s
  | .NODE_INT ivalue _, s => .ok (decide (ivalue ≠ 0)) s
  | .NODE_BOOLEAN bvalue _, s => .ok bvalue s
  | .NODE_CHAR ivalue _, s => .ok (decide (ivalue ≠ 0)) s
  | .NODE_FLOAT fvalue _, s => .ok (binary32.toBool fvalue) s
  | .NODE_DOUBLE dvalue _, s => .ok (binary64.toBool dvalue) s
  | .NODE_IDENTIFIER id name _ _, s =>
    match check_and_mark_identifier id name "Undefined variable" s with
    | (false, s1) => .exit 1 s1
    | (true, s1) =>
      match find_variable s1.symbol_table name with
      | some v =>
        if v.var_type = .VAR_INT then
          Res.ofOption (v.value.get_ivalue.map fun i => decide (i ≠ 0)) s1
        else if v.var_type = .VAR_FLOAT then
          Res.ofOption (v.value.get_fvalue.map binary32.toBool) s1
        else if v.var_type = .VAR_DOUBLE then
          Res.ofOption (v.value.get_dvalue.map binary64.toBool) s1
        else Res.ofOption v.value.get_bvalue s1
      | Option.none => .ok false (yyerror "Undefined variable" s1)
  | .NODE_OPERATION op left right _, s =>
    if op = .OP_AND ∨ op = .OP_OR then
      (evaluate_expression_bool left s).bind fun l s1 =>
      (evaluate_expression_bool right s1).bind fun r s2 =>
      if op = .OP_AND then .ok (l && r) s2 else .ok (l || r) s2
    else
      (evaluate_expression_bool left s).bind fun l s1 =>
      (evaluate_expression_bool right s1).bind fun r s2 =>
      bool_binary_op op l r s2
  | .NODE_UNARY_OPERATION op operand _, s =>
    (evaluate_expression_bool operand s).bind fun v s1 =>
    match op with
    | .OP_NEG => .ok (decide (-(bool_to_int v) ≠ 0)) s1
    | _ => .ok false (yyerror "Unknown unary operator" s1)
  | _, s => .ok false (yyerror "Invalid boolean expression" s)

/-! ## Type inference -/

def is_float_expression : ASTNode → State → Res Bool
  | .null, s => .ok false s
  | .NODE_FLOAT _ _, s => .ok true s
  | .NODE_INT _ _, s => .ok false s
  | .NODE_DOUBLE _ _, s => .ok false s
  | .NODE_IDENTIFIER id name _ _, s =>
    match check_and_mark_identifier id name "Undefined variable in type check" s with
    | (false, s1) => .exit 1 s1
    | (true, s1) =>
      match find_variable s1.symbol_table name with
      | some v => .ok (decide (v.var_type = .VAR_FLOAT)) s1
      | Option.none => .ok false (yyerror "Undefined variable in type check" s1)
  | .NODE_OPERATION _ left right _, s =>
    -- `is_float_expression(left) || is_float_expression(right)`
    (is_float_expression left s).bind fun l s1 =>
    if l then .ok true s1 else is_float_expression right s1
  | _, s => .ok false s

def is_double_expression : ASTNode → State → Res Bool
  | .null, s => .ok false s
  | .NODE_DOUBLE _ _, s => .ok true s
  | .NODE_FLOAT _ _, s => .ok false s
  | .NODE_INT _ _, s => .ok false s
  | .NODE_IDENTIFIER id name _ _, s =>
    match check_and_mark_identifier id name "Undefined variable in type check" s with
    | (false, s1) => .exit 1 s1
    | (true, s1) =>
      match find_variable s1.symbol_table name with
      | some v => .ok (decide (v.var_type = .VAR_DOUBLE)) s1
      | Option.none => .ok false (yyerror "Undefined variable in type check" s1)
  | .NODE_OPERATION _ left right _, s =>
    (is_double_expression left s).bind fun l s1 =>
    if l then .ok true s1 else is_double_expression right s1
  | _, s => .ok false s

def evaluate_expression (MAX_VARS : Nat) (node : ASTNode) (s : State) : Res Int :=
  (is_float_expression node s).bind fun is_float s1 =>
  if is_float then
    (evaluate_expression_float MAX_VARS node s1).bind fun v s2 =>
    Res.ofOption (binary32.toInt v) s2
  else
    (is_double_expression node s1).bind fun is_double s2 =>
    if is_double then
      (evaluate_expression_double MAX_VARS node s2).bind fun v s3 =>
      Res.ofOption (binary64.toInt v) s3
    else evaluate_expression_int MAX_VARS node s2

/-! ## Built-in calls -/

/-- `strstr(haystack, needle)`: the position of the first occurrence of `needle`. -/
def strstr {α : Type} [DecidableEq α] : List α → List α → Option Nat
  | [], needle => if needle = [] then some 0 else Option.none
  | c :: haystack, needle =>
    if needle.isPrefixOf (c :: haystack) then some 0
    else (strstr haystack needle).map (fun pos => pos + 1)

/-- The bytes that hold one character in a C string: its UTF-8 encoding. -/
def utf8_char_bytes (c : Char) : List Nat :=
  let n := c.toNat
  if n < 128 then [n]
  else if n < 2048 then [192 + n / 64, 128 + n % 64]
  else if n < 65536 then [224 + n / 4096, 128 + n / 64 % 64, 128 + n % 64]
  else [240 + n / 262144, 128 + n / 4096 % 64, 128 + n / 64 % 64, 128 + n % 64]

/-- The bytes of the C string `str`, without the terminating zero: `strlen(str)` is their
number. -/
def utf8_bytes (str : String) : List Nat := str.toList.flatMap utf8_char_bytes

/-- The local `is_unsigned` of `execute_yapping_call`: the recorded qualifier of the variable
for an identifier, the `modifiers` of the node itself otherwise. -/
def yapping_is_unsigned (expr : ASTNode) (s : State) : Option Bool :=
  match expr with
  | .NODE_IDENTIFIER _ name _ _ => some (get_variable_modifiers s.symbol_table name).is_unsigned
  | e => e.get_modifiers.map (fun m => m.is_unsigned)

/-- The buffer built in `char newFormat[256]`: `strncpy` copies at most 256 bytes of the
format and the last byte is set to zero, which leaves the first 255 bytes of the format; the
`b` of the first `%b` in the buffer is then overwritten by `s`. -/
def rewrite_format (format : String) : List Nat :=
  let newFormat := (utf8_bytes format).take 255
  match strstr newFormat [37, 98] with
  | some pos => newFormat.set (pos + 1) 115
  | Option.none => newFormat

def execute_yapping_call (MAX_VARS : Nat) (args : ArgumentList) (s : State) : Res Unit :=
  match args with
  | .nil => .exit 1 (yyerror "No arguments provided for yapping function call" s)
  | .cons formatNode cur =>
    match formatNode with
    | .null => .undefined
    | .NODE_STRING_LITERAL format =>
      match cur with
      | .nil => .ok () (emit (.yapping "%s" [.str format]) s)
      | .cons expr _ =>
        (is_float_expression expr s).bind fun is_float s1 =>
        if is_float then
          (evaluate_expression_float MAX_VARS expr s1).bind fun val s2 =>
          .ok () (emit (.yapping format [.double (f32_to_f64 val)]) s2)
        else
          (is_double_expression expr s1).bind fun is_double s2 =>
          if is_double then
            (evaluate_expression_double MAX_VARS expr s2).bind fun val s3 =>
            .ok () (emit (.yapping format [.double val]) s3)
          else
            (Res.ofOption (yapping_is_unsigned expr s2) s2).bind fun is_unsigned s3 =>
            -- the placeholders are ASCII: a search in the characters of the format
            -- succeeds exactly when the search in its bytes does
            if (strstr format.toList ['%', 'b']).isSome then
              (evaluate_expression_bool expr s3).bind fun val s4 =>
              .ok () (emit (.yapping_bytes (rewrite_format format)
                [.str (if val then "W" else "L")]) s4)
            else if is_unsigned then
              (evaluate_expression_int MAX_VARS expr s3).bind fun v s4 =>
              let val := to_unsigned v
              if (strstr format.toList ['%', 'l', 'u']).isSome then
                .ok () (emit (.yapping format [.ulong val]) s4)
              else if (strstr format.toList ['%', 'u']).isSome then
                .ok () (emit (.yapping format [.uint val]) s4)
              else .ok () (emit (.yapping "%u" [.uint val]) s4)
            else
              (evaluate_expression_int MAX_VARS expr s3).bind fun val s4 =>
              .ok () (emit (.yapping format [.int val]) s4)
    | _ => .ok () (yyerror "First argument to yapping must be a string literal" s)

/-- The test `expr->type == NODE_BOOLEAN || (expr->type == NODE_IDENTIFIER &&
expr->var_type == VAR_BOOL)` of `execute_yappin_call`; a null `expr` has no `type`. -/
def yappin_is_bool : ASTNode → Option Bool
  | .null => Option.none
  | .NODE_BOOLEAN _ _ => some true
  | .NODE_IDENTIFIER _ _ var_type _ => some (decide (var_type = .VAR_BOOL))
  | _ => some false

def execute_yappin_call (MAX_VARS : Nat) (args : ArgumentList) (s : State) : Res Unit :=
  match args with
  | .nil => .exit 1 (yyerror "No arguments provided for yappin function call" s)
  | .cons formatNode cur =>
    match formatNode with
    | .null => .undefined
    | .NODE_STRING_LITERAL format =>
      match cur with
      | .nil => .ok () (emit (.yappin "%s" [.str format]) s)
      | .cons expr _ =>
        (Res.ofOption (yappin_is_bool expr) s).bind fun is_bool s0 =>
        if is_bool then
          (evaluate_expression_int MAX_VARS expr s0).bind fun val s1 =>
          if (strstr format.toList ['%', 'd']).isSome then
            .ok () (emit (.yappin format [.int val]) s1)
          else .ok () (emit (.yappin (if val ≠ 0 then "W" else "L") []) s1)
        else
          (is_float_expression expr s0).bind fun is_float s1 =>
          if is_float then
            (evaluate_expression_float MAX_VARS expr s1).bind fun val s2 =>
            .ok () (emit (.yappin format [.double (f32_to_f64 val)]) s2)
          else
            (is_double_expression expr s1).bind fun is_double s2 =>
            if is_double then
              (evaluate_expression_double MAX_VARS expr s2).bind fun val s3 =>
              .ok () (emit (.yappin format [.double val]) s3)
            else
              (evaluate_expression_int MAX_VARS expr s2).bind fun val s3 =>
              .ok () (emit (.yappin format [.int val]) s3)
    | _ => .exit 1 (yyerror "First argument to yappin must be a string literal" s)

def execute_baka_call (args : ArgumentList) (s : State) : Res Unit :=
  match args with
  | .nil => .ok () (emit (.baka "\n" []) s)
  | .cons _ _ => .ok () s

/-- Modelled from the spec: `ragequit` is external; it "terminates the process with that exit
code". -/
def ragequit (exit_code : Int) (s : State) : Res Unit :=
  .exit exit_code (emit (.ragequit exit_code) s)

def execute_ragequit_call (args : ArgumentList) (s : State) : Res Unit :=
  match args with
  | .nil => .exit 1 (yyerror "No arguments provided for ragequit function call" s)
  | .cons formatNode _ =>
    match formatNode with
    | .null => .undefined
    | .NODE_INT ivalue _ => ragequit ivalue s
    | _ => .exit 1 (yyerror "First argument to ragequit must be a integer" s)

def execute_chill_call (args : ArgumentList) (s : State) : Res Unit :=
  match args with
  | .nil => .exit 1 (yyerror "No arguments provided for chill function call" s)
  | .cons formatNode _ =>
    match formatNode with
    | .null => .undefined
    | .NODE_INT ivalue _ => .ok () (emit (.chill (to_unsigned ivalue)) s)
    | node =>
      -- `formatNode->type != NODE_INT`: the outcome rests on `modifiers.is_unsigned`
      (Res.ofOption node.get_modifiers s).bind fun m s1 =>
      if !m.is_unsigned then
        .exit 1 (yyerror "First argument to chill must be a unsigned integer" s1)
      else
        match node with
        | .NODE_CHAR ivalue _ => .ok () (emit (.chill (to_unsigned ivalue)) s1)
        | _ => .undefined

/-! ## Statement execution -/

/-- The upsert that ends each branch of the `NODE_ASSIGNMENT` case: `name` is read from
`node->data.op.left->data.name`, and a full table is reported through `yyerror`. -/
def assign_variable (MAX_VARS : Nat) (left : ASTNode) (value : CObject) (type : VarType)
    (mods : TypeModifiers) (failure : String) (s : State) : Res Unit :=
  (Res.ofOption left.data_name s).bind fun name s1 =>
  let r := set_variable MAX_VARS name value type mods s1.symbol_table
  if r.1 then .ok () { s1 with symbol_table := r.2 }
  else .ok () (yyerror failure { s1 with symbol_table := r.2 })

/-- The loop of `execute_while_statement`, with a budget of iterations. -/
def while_loop (cond : State → Res Int) (body : State → Res Unit) : Nat → State → Res Unit
  | 0, _ => .timeout
  | fuel + 1, s =>
    (cond s).bind fun c s1 =>
    if c ≠ 0 then (body s1).bind fun _ s2 => while_loop cond body fuel s2
    else .ok () s1

/-- The `while (1)` loop of `execute_for_statement`, with a budget of iterations; `has_cond`
is `node->data.for_stmt.cond` being non-null. -/
def for_loop (has_cond : Bool) (cond : State → Res Int) (body incr : State → Res Unit) :
    Nat → State → Res Unit
  | 0, _ => .timeout
  | fuel + 1, s =>
    if has_cond then
      (cond s).bind fun cond_result s1 =>
      if cond_result = 0 then .ok () s1
      else
        (body s1).bind fun _ s2 =>
        (incr s2).bind fun _ s3 => for_loop has_cond cond body incr fuel s3
    else
      (body s).bind fun _ s2 =>
      (incr s2).bind fun _ s3 => for_loop has_cond cond body incr fuel s3

/-- The call `setjmp(break_env)` returning 0: the buffer now designates this activation of
`execute_switch_statement`. -/
def setjmp_break_env (s : State) : State :=
  { s with break_env := some s.setjmp_count, setjmp_count := s.setjmp_count + 1 }

/-- The end of the activation `activation` of `execute_switch_statement`: a `longjmp` whose
buffer was filled by this activation resumes in its empty `else` branch; a buffer filled by
another activation, which has returned since, designates no live `setjmp`. -/
def land_longjmp (activation : Nat) (r : Res Unit) : Res Unit :=
  match r with
  | .jump s => if s.break_env = some activation then .ok () s else .undefined
  | r => r

def ASTNode.is_null : ASTNode → Bool
  | .null => true
  | _ => false

mutual
/-- `execute_statement`. `fuel` bounds the number of iterations of every loop that is run.
The cases that call `execute_for_statement`, `execute_while_statement`,
`execute_switch_statement` and `execute_statements` on the node itself hold the bodies of
those functions. Where the source calls `execute_statements` on a child, the child is passed
to `execute_statement`, which does the same on every node (`execute_statements_eq`). -/
def execute_statement (MAX_VARS : Nat) : ASTNode → Nat → State → Res Unit
  | .null, _, s => .ok () s
  | .NODE_ASSIGNMENT left value_node mods, _, s =>
    match left with
    | .null => .undefined
    | _ =>
      match value_node with
      | .null => .undefined
      | .NODE_CHAR ivalue _ =>
        assign_variable MAX_VARS left (.int ivalue) .VAR_INT mods
          "Failed to set character variable" s
      | .NODE_BOOLEAN bvalue _ =>
        assign_variable MAX_VARS left (.bool bvalue) .VAR_BOOL mods
          "Failed to set boolean variable" s
      | _ =>
        (is_float_expression value_node s).bind fun is_float s1 =>
        if is_float then
          (evaluate_expression_float MAX_VARS value_node s1).bind fun value s2 =>
          assign_variable MAX_VARS left (.float value) .VAR_FLOAT mods
            "Failed to set float variable" s2
        else
          (is_double_expression value_node s1).bind fun is_double s2 =>
          if is_double then
            (evaluate_expression_double MAX_VARS value_node s2).bind fun value s3 =>
            assign_variable MAX_VARS left (.double value) .VAR_DOUBLE mods
              "Failed to set double variable" s3
          else
            (evaluate_expression_int MAX_VARS value_node s2).bind fun value s3 =>
            assign_variable MAX_VARS left (.int value) .VAR_INT mods
              "Failed to set integer variable" s3
  | .NODE_OPERATION op left right mods, _, s =>
    (evaluate_expression MAX_VARS (.NODE_OPERATION op left right mods) s).bind fun _ s1 =>
    .ok () s1
  | .NODE_UNARY_OPERATION op operand mods, _, s =>
    (evaluate_expression MAX_VARS (.NODE_UNARY_OPERATION op operand mods) s).bind fun _ s1 =>
    .ok () s1
  | .NODE_INT ivalue mods, _, s =>
    (evaluate_expression MAX_VARS (.NODE_INT ivalue mods) s).bind fun _ s1 => .ok () s1
  | .NODE_CHAR ivalue mods, _, s =>
    (evaluate_expression MAX_VARS (.NODE_CHAR ivalue mods) s).bind fun _ s1 => .ok () s1
  | .NODE_IDENTIFIER id name var_type mods, _, s =>
    (evaluate_expression MAX_VARS (.NODE_IDENTIFIER id name var_type mods) s).bind fun _ s1 =>
    .ok () s1
  | .NODE_FUNC_CALL function_name arguments _, _, s =>
    if function_name = "yapping" then execute_yapping_call MAX_VARS arguments s
    else if function_name = "yappin" then execute_yappin_call MAX_VARS arguments s
    else if function_name = "baka" then execute_baka_call arguments s
    else if function_name = "ragequit" then execute_ragequit_call arguments s
    else if function_name = "chill" then execute_chill_call arguments s
    else .ok () s
  | .NODE_FOR_STATEMENT init cond incr body _, fuel, s =>
    -- execute_for_statement
    (execute_statement MAX_VARS init fuel s).bind fun _ s1 =>
    for_loop (!cond.is_null) (evaluate_expression MAX_VARS cond)
      (execute_statement MAX_VARS body fuel) (execute_statement MAX_VARS incr fuel) fuel s1
  | .NODE_WHILE_STATEMENT cond body _, fuel, s =>
    -- execute_while_statement
    while_loop (evaluate_expression MAX_VARS cond) (execute_statement MAX_VARS body fuel) fuel s
  | .NODE_PRINT_STATEMENT expr, _, s =>
    match expr with
    | .null => .undefined
    | .NODE_STRING_LITERAL name => .ok () (emit (.yapping "%s\n" [.str name]) s)
    | _ =>
      (evaluate_expression MAX_VARS expr s).bind fun value s1 =>
      .ok () (emit (.yapping "%d\n" [.int value]) s1)
  | .NODE_ERROR_STATEMENT expr, _, s =>
    match expr with
    | .null => .undefined
    | .NODE_STRING_LITERAL name => .ok () (emit (.baka "%s\n" [.str name]) s)
    | _ =>
      (evaluate_expression MAX_VARS expr s).bind fun value s1 =>
      .ok () (emit (.baka "%d\n" [.int value]) s1)
  | .NODE_STATEMENT_LIST statements, fuel, s =>
    -- execute_statements
    execute_statement_list MAX_VARS statements fuel s
  | .NODE_IF_STATEMENT condition then_branch else_branch, fuel, s =>
    (evaluate_expression MAX_VARS condition s).bind fun c s1 =>
    if c ≠ 0 then execute_statement MAX_VARS then_branch fuel s1
    else if !else_branch.is_null then execute_statement MAX_VARS else_branch fuel s1
    else .ok () s1
  | .NODE_SWITCH_STATEMENT expression cases, fuel, s =>
    -- execute_switch_statement
    (evaluate_expression MAX_VARS expression s).bind fun switch_value s1 =>
    land_longjmp s1.setjmp_count
      (execute_cases MAX_VARS cases switch_value false fuel (setjmp_break_env s1))
  | .NODE_BREAK_STATEMENT, _, s =>
    -- `longjmp(break_env, 1)`; a buffer never filled by `setjmp` has no target
    match s.break_env with
    | some _ => .jump s
    | Option.none => .undefined
  | _, _, s => .ok () (yyerror "Unknown statement type" s)
/-- The loop `while (current)` of `execute_statements`. -/
def execute_statement_list (MAX_VARS : Nat) : StatementList → Nat → State → Res Unit
  | .nil, _, s => .ok () s
  | .cons statement next, fuel, s =>
    (execute_statement MAX_VARS statement fuel s).bind fun _ s1 =>
    execute_statement_list MAX_VARS next fuel s1
/-- The loop `while (current_case)` of `execute_switch_statement`, entered with the local
`matched`. -/
def execute_cases (MAX_VARS : Nat) : CaseNode → Int → Bool → Nat → State → Res Unit
  | .nil, _, _, _, s => .ok () s
  | .cons value statements next, switch_value, matched, fuel, s =>
    match value with
    | .null =>
      -- default case: `if (matched || !matched)`, then `break`
      if matched || !matched then execute_statement MAX_VARS statements fuel s
      else execute_cases MAX_VARS next switch_value matched fuel s
    | _ =>
      (evaluate_expression MAX_VARS value s).bind fun case_value s1 =>
      if case_value = switch_value ∨ matched then
        (execute_statement MAX_VARS statements fuel s1).bind fun _ s2 =>
        execute_cases MAX_VARS next switch_value true fuel s2
      else execute_cases MAX_VARS next switch_value matched fuel s1
end

def execute_statements (MAX_VARS : Nat) (node : ASTNode) (fuel : Nat) (s : State) : Res Unit :=
  match node with
  | .null => .ok () s
  | .NODE_STATEMENT_LIST statements => execute_statement_list MAX_VARS statements fuel s
  | _ => execute_statement MAX_VARS node fuel s

def execute_switch_statement (MAX_VARS : Nat) (node : ASTNode) (fuel : Nat) (s : State) :
    Res Unit :=
  match node with
  | .NODE_SWITCH_STATEMENT _ _ => execute_statement MAX_VARS node fuel s
  | _ => .undefined

def execute_for_statement (MAX_VARS : Nat) (node : ASTNode) (fuel : Nat) (s : State) :
    Res Unit :=
  match node with
  | .NODE_FOR_STATEMENT _ _ _ _ _ => execute_statement MAX_VARS node fuel s
  | _ => .undefined

def execute_while_statement (MAX_VARS : Nat) (node : ASTNode) (fuel : Nat) (s : State) :
    Res Unit :=
  match node with
  | .NODE_WHILE_STATEMENT _ _ _ => execute_statement MAX_VARS node fuel s
  | _ => .undefined

/-- `execute_assignment`. The narrowing to `int` is guarded by the left node being of type
`NODE_INT`. -/
def execute_assignment (MAX_VARS : Nat) (node : ASTNode) (s : State) : Res Unit :=
  match node with
  | .null => .undefined
  | .NODE_ASSIGNMENT left value_node mods =>
    match left, value_node with
    | .null, _ => .undefined
    | _, .null => .undefined
    | _, _ =>
      -- `value_node->type == NODE_FLOAT || is_float_expression(value_node)`
      ((match value_node with
        | .NODE_FLOAT _ _ => (.ok true s : Res Bool)
        | _ => is_float_expression value_node s).bind fun is_float s1 =>
        if is_float then
          (evaluate_expression_float MAX_VARS value_node s1).bind fun value s2 =>
          match left with
          | .NODE_INT _ _ =>
            -- check for overflow, then `set_int_variable(name, (int)value, mods)` and return
            let overflow := binary32.gt value (binary32.ofInt INT_MAX)
              || binary32.lt value (binary32.ofInt INT_MIN)
            let s3 := if overflow then yyerror "Float to int conversion overflow" s2 else s2
            let value1 := if overflow then binary32.ofInt INT_MAX else value
            (Res.ofOption (binary32.toInt value1) s3).bind fun i s4 =>
            (assign_variable MAX_VARS left (.int i) .VAR_INT mods
              "Failed to set integer variable" s4).bind fun _ s5 => .ok true s5
          | _ => .ok false s2
        else .ok false s1).bind fun returned s3 =>
      if returned then .ok () s3
      else
        (is_float_expression value_node s3).bind fun is_float s4 =>
        if is_float then
          (evaluate_expression_float MAX_VARS value_node s4).bind fun value s5 =>
          assign_variable MAX_VARS left (.float value) .VAR_FLOAT mods
            "Failed to set float variable" s5
        else
          (is_double_expression value_node s4).bind fun is_double s5 =>
          if is_double then
            (evaluate_expression_double MAX_VARS value_node s5).bind fun value s6 =>
            assign_variable MAX_VARS left (.double value) .VAR_DOUBLE mods
              "Failed to set double variable" s6
          else
            (evaluate_expression_int MAX_VARS value_node s5).bind fun value s6 =>
            assign_variable MAX_VARS left (.int value) .VAR_INT mods
              "Failed to set integer variable" s6
  | _ => .ok () (yyerror "Expected assignment node" s)

/-! ## Vocabulary of the statements -/

/-- The case list holding the (match value, body) pairs of `l` in declaration order. -/
def CaseNode.ofList : List (ASTNode × ASTNode) → CaseNode
  | [] => .nil
  | c :: rest => .cons c.1 c.2 (CaseNode.ofList rest)

/-- The statement list holding the statements of `l` in order. -/
def StatementList.ofList : List ASTNode → StatementList
  | [] => .nil
  | st :: rest => .cons st (StatementList.ofList rest)

/-- Execution of the bodies `bodies` one after the other by `execute_statements`, up to the
first one that does not return. -/
def run_bodies (MAX_VARS : Nat) : List ASTNode → Nat → State → Res Unit
  | [], _, s => .ok () s
  | body :: rest, fuel, s =>
    (execute_statements MAX_VARS body fuel s).bind fun _ s1 => run_bodies MAX_VARS rest fuel s1

/-- The expression `value` is the label of a valued case with match value `n`: it is not the
null of a default case, and `evaluate_expression` returns `n` for it in every state and
leaves the state as it is. -/
def is_label (MAX_VARS : Nat) (value : ASTNode) (n : Int) : Prop :=
  value.is_null = false ∧ ∀ s : State, evaluate_expression MAX_VARS value s = .ok n s

/-- The bodies of the cases of `l` up to and including its first default case. -/
def bodies_through_default : List (ASTNode × ASTNode) → List ASTNode
  | [] => []
  | c :: rest => if c.1.is_null then [c.2] else c.2 :: bodies_through_default rest

/-- The state `s` after the calls `events` of the primitives. -/
def emit_all (events : List Event) (s : State) : State :=
  { s with output := s.output ++ events }

/-- The statement `yapping(format);`. -/
def yapping_text (format : String) (m : TypeModifiers) : ASTNode :=
  .NODE_FUNC_CALL "yapping" (.cons (.NODE_STRING_LITERAL format) .nil) m

/-- The call of the stdout primitive made by `yapping(format);`. -/
def text_event (format : String) : Event := .yapping "%s" [.str format]

/-- The case body `yapping(format);`. -/
def print_body (format : String) (m : TypeModifiers) : ASTNode :=
  .NODE_STATEMENT_LIST (StatementList.ofList [yapping_text format m])

/-- The case body `yapping(format); break;`. -/
def print_break_body (format : String) (m : TypeModifiers) : ASTNode :=
  .NODE_STATEMENT_LIST (StatementList.ofList [yapping_text format m, .NODE_BREAK_STATEMENT])

/-- The cases `case v: yapping(f);` for the pairs `(v, f)` of `front`, then
`case v: yapping(f); break;` for `last`, then `default: default_body`. -/
def printing_cases (front : List (Int × String)) (last : Int × String) (default_body : ASTNode)
    (m : TypeModifiers) : CaseNode :=
  CaseNode.ofList
    (front.map (fun p => (ASTNode.NODE_INT p.1 m, print_body p.2 m)) ++
      [(ASTNode.NODE_INT last.1 m, print_break_body last.2 m), (ASTNode.null, default_body)])

/-! ## Programs used as inputs -/

/-- The dispatch `switch (1) { case 1: yapping("A"); default: yapping("B");
case 3: yapping("C"); }`. -/
def switch_default_in_the_middle : ASTNode :=
  .NODE_SWITCH_STATEMENT (.NODE_INT 1 no_modifiers)
    (CaseNode.ofList
      [(.NODE_INT 1 no_modifiers, yapping_text "A" no_modifiers),
       (.null, yapping_text "B" no_modifiers),
       (.NODE_INT 3 no_modifiers, yapping_text "C" no_modifiers)])

/-- The program `switch (1) { case 1: switch (2) { case 2: yapping("inner"); break; }
yapping("mid"); break; case 2: yapping("outer2"); }`. -/
def break_after_inner_switch : ASTNode :=
  .NODE_SWITCH_STATEMENT (.NODE_INT 1 no_modifiers)
    (CaseNode.ofList
      [(.NODE_INT 1 no_modifiers,
          .NODE_STATEMENT_LIST (StatementList.ofList
            [.NODE_SWITCH_STATEMENT (.NODE_INT 2 no_modifiers)
               (CaseNode.ofList [(.NODE_INT 2 no_modifiers, print_break_body "inner" no_modifiers)]),
             yapping_text "mid" no_modifiers,
             .NODE_BREAK_STATEMENT])),
       (.NODE_INT 2 no_modifiers, print_body "outer2" no_modifiers)])

/-! ## Vocabulary of the expressions -/

/-- The state after a successful resolution of the identifier node `id`: the node is marked
as checked and valid, unless it was marked before. -/
def mark_valid (id : Nat) (s : State) : State :=
  match s.checked.lookup id with
  | some _ => s
  | Option.none => { s with checked := (id, true) :: s.checked }

/-- The identifier node `id` is not marked as an invalid symbol: it is fresh from the parser
or was resolved with success. -/
def node_ok (id : Nat) (s : State) : Prop := s.checked.lookup id ≠ some false

/-- The variable `name` is in the table as an `int` holding `n`, with qualifiers `mods`. -/
def int_variable (s : State) (name : String) (mods : TypeModifiers) (n : Int) : Prop :=
  find_variable s.symbol_table name = some ⟨name, .VAR_INT, mods, .ivalue n⟩

/-- The statement `name = 0`. -/
def counting_init (name : String) (m : TypeModifiers) (id_init : Nat) : ASTNode :=
  .NODE_ASSIGNMENT (.NODE_IDENTIFIER id_init name .NONE m) (.NODE_INT 0 m) m

/-- The expression `name < n`. -/
def counting_cond (name : String) (n : Int) (m : TypeModifiers) (id_cond : Nat) : ASTNode :=
  .NODE_OPERATION .OP_LT (.NODE_IDENTIFIER id_cond name .NONE m) (.NODE_INT n m) m

/-- The statement `name = name + 1`. -/
def counting_incr (name : String) (m : TypeModifiers) (id_lhs id_rhs : Nat) : ASTNode :=
  .NODE_ASSIGNMENT (.NODE_IDENTIFIER id_lhs name .NONE m)
    (.NODE_OPERATION .OP_PLUS (.NODE_IDENTIFIER id_rhs name .NONE m) (.NODE_INT 1 m) m) m

/-- The statement `yapping("%d\n", name);`. -/
def counting_body (name : String) (m : TypeModifiers) (id_arg : Nat) : ASTNode :=
  .NODE_FUNC_CALL "yapping"
    (.cons (.NODE_STRING_LITERAL "%d\n") (.cons (.NODE_IDENTIFIER id_arg name .NONE m) .nil)) m

/-- The statement `for (name = 0; name < n; name = name + 1) yapping("%d\n", name);`, whose
five identifier nodes have the identities `id_init`, `id_cond`, `id_lhs`, `id_rhs`, `id_arg`. -/
def counting_for (name : String) (n : Int) (m : TypeModifiers)
    (id_init id_cond id_lhs id_rhs id_arg : Nat) : ASTNode :=
  .NODE_FOR_STATEMENT (counting_init name m id_init) (counting_cond name n m id_cond)
    (counting_incr name m id_lhs id_rhs) (counting_body name m id_arg) m

/-- The call `yapping("%d\n", i)` of the stdout primitive. -/
def number_event (i : Int) : Event := .yapping "%d\n" [.int i]

/-- The state in which the table holds the single variable `int x = n`. -/
def state_with_x (n : Int) : State :=
  { State.initial with symbol_table := [⟨"x", .VAR_INT, no_modifiers, .ivalue n⟩] }

/-- The expression `(x++) + x`, for the variable `name`. -/
def post_increment_plus (name : String) (vt : VarType) (m : TypeModifiers) (id1 id2 : Nat) :
    ASTNode :=
  .NODE_OPERATION .OP_PLUS
    (.NODE_UNARY_OPERATION .OP_POST_INC (.NODE_IDENTIFIER id1 name vt m) m)
    (.NODE_IDENTIFIER id2 name vt m) m

/-- The value computed for an `OP_AND` / `OP_OR` node or, for the other operators, by the
`switch` of the regular integer operations, from the values of the two operands. -/
def int_operation_result (op : OperatorType) (is_unsigned : Bool) (a b : Int) (s : State) :
    Res Int :=
  if op = .OP_AND then .ok (bool_to_int (decide (a ≠ 0) && decide (b ≠ 0))) s
  else if op = .OP_OR then .ok (bool_to_int (decide (a ≠ 0) || decide (b ≠ 0))) s
  else int_binary_op op is_unsigned a b s

/-! ## Vocabulary of type inference -/

/-- The sub-tree `node` is built by binary-operation nodes from integer, float and double
literals and from identifiers that resolve in `s`: the name is in the table and the node is
not marked invalid. -/
inductive LeafTree (s : State) : ASTNode → Prop where
  | int (n : Int) (m : TypeModifiers) : LeafTree s (.NODE_INT n m)
  | float (f : F32) (m : TypeModifiers) : LeafTree s (.NODE_FLOAT f m)
  | double (d : F64) (m : TypeModifiers) : LeafTree s (.NODE_DOUBLE d m)
  | identifier (id : Nat) (name : String) (vt : VarType) (m : TypeModifiers) (v : Variable) :
      find_variable s.symbol_table name = some v → node_ok id s →
      LeafTree s (.NODE_IDENTIFIER id name vt m)
  | operation (op : OperatorType) (left right : ASTNode) (m : TypeModifiers) :
      LeafTree s left → LeafTree s right → LeafTree s (.NODE_OPERATION op left right m)

/-- The sub-tree contains a float-kind leaf below binary-operation nodes: a float literal or
a variable recorded with kind float. -/
def has_float_leaf (tbl : List Variable) : ASTNode → Bool
  | .NODE_FLOAT _ _ => true
  | .NODE_IDENTIFIER _ name _ _ =>
    match find_variable tbl name with
    | some v => decide (v.var_type = .VAR_FLOAT)
    | Option.none => false
  | .NODE_OPERATION _ left right _ => has_float_leaf tbl left || has_float_leaf tbl right
  | _ => false

/-- The sub-tree contains a double-kind leaf below binary-operation nodes: a double literal or
a variable recorded with kind double. -/
def has_double_leaf (tbl : List Variable) : ASTNode → Bool
  | .NODE_DOUBLE _ _ => true
  | .NODE_IDENTIFIER _ name _ _ =>
    match find_variable tbl name with
    | some v => decide (v.var_type = .VAR_DOUBLE)
    | Option.none => false
  | .NODE_OPERATION _ left right _ => has_double_leaf tbl left || has_double_leaf tbl right
  | _ => false

/-- The state `t` differs from `s` at most by identifier nodes marked as resolved. -/
def resolves_like (s t : State) : Prop :=
  t.symbol_table = s.symbol_table ∧ ∀ id, node_ok id s → node_ok id t

/-- The expression `16777217.0 + 0.0f`: a double literal and a float literal. -/
def double_plus_float : ASTNode :=
  .NODE_OPERATION .OP_PLUS (.NODE_DOUBLE 0x4170000010000000 no_modifiers)
    (.NODE_FLOAT 0 no_modifiers) no_modifiers

/-- The statement `x = 16777217.0 + 0.0f`. -/
def assign_double_plus_float : ASTNode :=
  .NODE_ASSIGNMENT (.NODE_IDENTIFIER 0 "x" .NONE no_modifiers) double_plus_float no_modifiers

/-! ## Vocabulary of the symbol table -/

/-- The names of the entries `0 .. var_count - 1`, in table order. -/
def table_names (tbl : List Variable) : List String := tbl.map (fun v => v.name)

/-- The invariant of the symbol table: the names are pairwise distinct and `var_count` is at
most `MAX_VARS`. -/
def table_ok (MAX_VARS : Nat) (tbl : List Variable) : Prop :=
  (table_names tbl).Nodup ∧ tbl.length ≤ MAX_VARS

/-- The table `tbl1` comes from `tbl` by updates in place and by appending entries for names
that were not in the table: the names of `tbl` are still there, at the same indices, followed
by distinct new names; entries are appended only below the capacity. -/
def table_grows (MAX_VARS : Nat) (tbl tbl1 : List Variable) : Prop :=
  (∃ extra : List String, table_names tbl1 = table_names tbl ++ extra
      ∧ extra.Nodup ∧ ∀ n ∈ extra, n ∉ table_names tbl)
    ∧ (tbl.length ≤ MAX_VARS → tbl1.length ≤ MAX_VARS)

/-- A call `set_variable(name, value, type, mods)`. -/
structure UpsertCall where
  name : String
  value : CObject
  type : VarType
  mods : TypeModifiers

/-- The table after the calls `calls` of `set_variable`, made in order on `tbl`. -/
def run_upserts (MAX_VARS : Nat) : List UpsertCall → List Variable → List Variable
  | [], tbl => tbl
  | c :: rest, tbl =>
    run_upserts MAX_VARS rest (set_variable MAX_VARS c.name c.value c.type c.mods tbl).2

/-- The property `P` holds of the state in which the call ended, when it ended in one: by
returning, in a `longjmp` or by `exit`. -/
def Res.ends_in {α : Type} (P : State → Prop) : Res α → Prop
  | .ok _ s => P s
  | .jump s => P s
  | .exit _ s => P s
  | .undefined => True
  | .timeout => True

/-- The table of `s` comes from the table `base` by updates in place and appended new names. -/
def table_kept (MAX_VARS : Nat) (base : List Variable) (s : State) : Prop :=
  table_grows MAX_VARS base s.symbol_table

/-- The statements of a statement list, in order. -/
def StatementList.toList : StatementList → List ASTNode
  | .nil => []
  | .cons statement next => statement :: next.toList

/-- The (match value, body) pairs of a case list, in declaration order. -/
def CaseNode.toList : CaseNode → List (ASTNode × ASTNode)
  | .nil => []
  | .cons value statements next => (value, statements) :: next.toList

/-- The expressions of an argument list, in order. -/
def ArgumentList.toList : ArgumentList → List ASTNode
  | .nil => []
  | .cons expr next => expr :: next.toList

/-- The argument list holding the expressions of `l` in order. -/
def ArgumentList.ofList : List ASTNode → ArgumentList
  | [] => .nil
  | e :: rest => .cons e (ArgumentList.ofList rest)

/-- The nodes a node points to. -/
def ASTNode.children : ASTNode → List ASTNode
  | .NODE_ASSIGNMENT left right _ => [left, right]
  | .NODE_OPERATION _ left right _ => [left, right]
  | .NODE_UNARY_OPERATION _ operand _ => [operand]
  | .NODE_FUNC_CALL _ arguments _ => arguments.toList
  | .NODE_FOR_STATEMENT init cond incr body _ => [init, cond, incr, body]
  | .NODE_WHILE_STATEMENT cond body _ => [cond, body]
  | .NODE_IF_STATEMENT condition then_branch else_branch => [condition, then_branch, else_branch]
  | .NODE_SWITCH_STATEMENT expression cases =>
    expression :: (cases.toList.map Prod.fst ++ cases.toList.map Prod.snd)
  | .NODE_STATEMENT_LIST statements => statements.toList
  | .NODE_PRINT_STATEMENT expr => [expr]
  | .NODE_ERROR_STATEMENT expr => [expr]
  | _ => []

/-! ## Vocabulary of the unary operators and of the division -/

/-- The operator is one of the four increment and decrement operators. -/
def is_step_operator (op : OperatorType) : Prop :=
  op = .OP_PRE_INC ∨ op = .OP_POST_INC ∨ op = .OP_PRE_DEC ∨ op = .OP_POST_DEC

/-- The bit pattern is a NaN. -/
def FloatFormat.isNaN (f : FloatFormat) (x : Nat) : Bool := FloatFormat.isNaNClass (f.decode x)

/-- The bit pattern is an infinity. -/
def FloatFormat.isInf (f : FloatFormat) (x : Nat) : Bool :=
  match f.decode x with
  | .inf _ => true
  | _ => false

/-- The expression `-(1.5f)`: the negation of a float literal. -/
def negated_float : ASTNode :=
  .NODE_UNARY_OPERATION .OP_NEG (.NODE_FLOAT 0x3fc00000 no_modifiers) no_modifiers

/-- The expression `-(2.5)`: the negation of a double literal. -/
def negated_double : ASTNode :=
  .NODE_UNARY_OPERATION .OP_NEG (.NODE_DOUBLE 0x4004000000000000 no_modifiers) no_modifiers

/-- The statement `x = 3000000000.0f`. -/
def assign_big_float : ASTNode :=
  .NODE_ASSIGNMENT (.NODE_IDENTIFIER 0 "x" .NONE no_modifiers)
    (.NODE_FLOAT 0x4f32d05e no_modifiers) no_modifiers

/-! ## Vocabulary of the built-in calls and of the loops -/

/-- The node is of type `NODE_INT`. -/
def ASTNode.is_int_literal : ASTNode → Bool
  | .NODE_INT _ _ => true
  | _ => false

/-- The table in which `x` is a `float` holding `f`. -/
def state_with_float_x (f : F32) : State :=
  { State.initial with symbol_table := [⟨"x", .VAR_FLOAT, no_modifiers, .fvalue f⟩] }

/-- The expression statement `x++`, on a node declared `float`. -/
def x_post_increment : ASTNode :=
  .NODE_UNARY_OPERATION .OP_POST_INC (.NODE_IDENTIFIER 0 "x" .VAR_FLOAT no_modifiers)
    no_modifiers

/-- `ArithTree e z`: the tree `e` is built from integer literals, each holding an `int`, with
the operators `+`, `-` and `*`, and `z` is the value of that expression in the integers. -/
inductive ArithTree : ASTNode → Int → Prop
  | literal (v : Int) (m : TypeModifiers) : INT_MIN ≤ v → v ≤ INT_MAX →
      ArithTree (.NODE_INT v m) v
  | plus (l r : ASTNode) (a b : Int) (m : TypeModifiers) : ArithTree l a → ArithTree r b →
      ArithTree (.NODE_OPERATION .OP_PLUS l r m) (a + b)
  | minus (l r : ASTNode) (a b : Int) (m : TypeModifiers) : ArithTree l a → ArithTree r b →
      ArithTree (.NODE_OPERATION .OP_MINUS l r m) (a - b)
  | times (l r : ASTNode) (a b : Int) (m : TypeModifiers) : ArithTree l a → ArithTree r b →
      ArithTree (.NODE_OPERATION .OP_TIMES l r m) (a * b)

/-- `ExactTree e z`: an `ArithTree` of value `z` in which the value of every sub-expression,
`e` included, is in the range of an `int`. -/
inductive ExactTree : ASTNode → Int → Prop
  | literal (v : Int) (m : TypeModifiers) : INT_MIN ≤ v → v ≤ INT_MAX →
      ExactTree (.NODE_INT v m) v
  | plus (l r : ASTNode) (a b : Int) (m : TypeModifiers) : ExactTree l a → ExactTree r b →
      INT_MIN ≤ a + b → a + b ≤ INT_MAX → ExactTree (.NODE_OPERATION .OP_PLUS l r m) (a + b)
  | minus (l r : ASTNode) (a b : Int) (m : TypeModifiers) : ExactTree l a → ExactTree r b →
      INT_MIN ≤ a - b → a - b ≤ INT_MAX → ExactTree (.NODE_OPERATION .OP_MINUS l r m) (a - b)
  | times (l r : ASTNode) (a b : Int) (m : TypeModifiers) : ExactTree l a → ExactTree r b →
      INT_MIN ≤ a * b → a * b ≤ INT_MAX → ExactTree (.NODE_OPERATION .OP_TIMES l r m) (a * b)

/-- The statement list `body; incr`. -/
def body_then_incr (body incr : ASTNode) : ASTNode :=
  .NODE_STATEMENT_LIST (.cons body (.cons incr .nil))

/-- The state `s` has the symbol table and the calls of the primitives of `base`: the two
differ at most in the resolution cache, the line number and the reported errors. -/
def same_effects (base s : State) : Prop :=
  s.symbol_table = base.symbol_table ∧ s.output = base.output

/-- The text `needle` occurs in `haystack` at the position `k`. -/
def occurs_at {α : Type} [DecidableEq α] (needle haystack : List α) (k : Nat) : Prop :=
  needle.isPrefixOf (haystack.drop k) = true

/-! ## Vocabulary of the assignment and of the evaluation without side effect -/

/-- The table in which `x` is a `double` holding `d`. -/
def state_with_double_x (d : F64) : State :=
  { State.initial with symbol_table := [⟨"x", .VAR_DOUBLE, no_modifiers, .dvalue d⟩] }

/-- The node is of type `NODE_BOOLEAN`. -/
def ASTNode.is_boolean_literal : ASTNode → Bool
  | .NODE_BOOLEAN _ _ => true
  | _ => false

/-- The node is none of the three node types that the evaluators treat by looking at the
table or at sub-trees: it is not an identifier, a binary operation or a unary operation. -/
def ASTNode.is_leaf : ASTNode → Bool
  | .NODE_IDENTIFIER _ _ _ _ => false
  | .NODE_OPERATION _ _ _ _ => false
  | .NODE_UNARY_OPERATION _ _ _ => false
  | _ => true

/-- `StepFree s e`: the expression tree `e` contains no prefix or postfix increment or
decrement node, and each of its identifiers is defined in the table of `s`, its node not
being marked invalid. -/
inductive StepFree (s : State) : ASTNode → Prop where
  | leaf (e : ASTNode) : e.is_leaf = true → StepFree s e
  | identifier (id : Nat) (name : String) (vt : VarType) (m : TypeModifiers) (v : Variable) :
      find_variable s.symbol_table name = some v → node_ok id s →
      StepFree s (.NODE_IDENTIFIER id name vt m)
  | operation (op : OperatorType) (left right : ASTNode) (m : TypeModifiers) :
      StepFree s left → StepFree s right → StepFree s (.NODE_OPERATION op left right m)
  | unary (op : OperatorType) (operand : ASTNode) (m : TypeModifiers) :
      ¬ is_step_operator op → StepFree s operand →
      StepFree s (.NODE_UNARY_OPERATION op operand m)

/-- Two calls end in the same way, which is either a return or behaviour that C leaves
undefined: when they return, they return the same value, each in a state that has the table
of `s` and marks no node invalid that `s` does not. -/
def Res.agrees {α : Type} (s : State) : Res α → Res α → Prop
  | .ok v1 u1, .ok v2 u2 => v1 = v2 ∧ resolves_like s u1 ∧ resolves_like s u2
  | .undefined, .undefined => True
  | _, _ => False

/-- The expression `(x + 2) * 3 < 10`. -/
def x_plus_two_times_three_lt_ten : ASTNode :=
  .NODE_OPERATION .OP_LT
    (.NODE_OPERATION .OP_TIMES
      (.NODE_OPERATION .OP_PLUS (.NODE_IDENTIFIER 0 "x" .VAR_INT no_modifiers)
        (.NODE_INT 2 no_modifiers) no_modifiers)
      (.NODE_INT 3 no_modifiers) no_modifiers)
    (.NODE_INT 10 no_modifiers) no_modifiers

/-! ## Basic facts -/

@[simp] theorem Res.bind_ok {α β : Type} (v : α) (s : State) (k : α → State → Res β) :
    (Res.ok v s).bind k = k v s := rfl

@[simp] theorem Res.bind_jump {α β : Type} (s : State) (k : α → State → Res β) :
    (Res.jump s : Res α).bind k = .jump s := rfl

@[simp] theorem Res.bind_exit {α β : Type} (c : Int) (s : State) (k : α → State → Res β) :
    (Res.exit c s : Res α).bind k = .exit c s := rfl

@[simp] theorem Res.bind_undefined {α β : Type} (k : α → State → Res β) :
    (Res.undefined : Res α).bind k = .undefined := rfl

@[simp] theorem Res.bind_timeout {α β : Type} (k : α → State → Res β) :
    (Res.timeout : Res α).bind k = .timeout := rfl

theorem Res.bind_unit_ok (r : Res Unit) : (r.bind fun _ s => .ok () s) = r := by
  cases r <;> rfl

/-- On every node `execute_statements` does what `execute_statement` does. -/
theorem execute_statements_eq (MAX_VARS : Nat) (node : ASTNode) (fuel : Nat) (s : State) :
    execute_statements MAX_VARS node fuel s = execute_statement MAX_VARS node fuel s := by
  cases node <;> simp [execute_statements, execute_statement]

theorem evaluate_expression_int_literal (MAX_VARS : Nat) (n : Int) (m : TypeModifiers)
    (s : State) : evaluate_expression MAX_VARS (.NODE_INT n m) s = .ok n s := by
  simp [evaluate_expression, is_float_expression, is_double_expression, evaluate_expression_int]

theorem is_label_int_literal (MAX_VARS : Nat) (n : Int) (m : TypeModifiers) :
    is_label MAX_VARS (.NODE_INT n m) n :=
  ⟨rfl, evaluate_expression_int_literal MAX_VARS n m⟩

theorem execute_cases_default (MAX_VARS : Nat) (body : ASTNode) (next : CaseNode)
    (switch_value : Int) (matched : Bool) (fuel : Nat) (s : State) :
    execute_cases MAX_VARS (.cons .null body next) switch_value matched fuel s
      = execute_statements MAX_VARS body fuel s := by
  rw [execute_statements_eq]
  cases matched <;> simp [execute_cases]

theorem execute_cases_valued (MAX_VARS : Nat) (value body : ASTNode) (next : CaseNode)
    (switch_value : Int) (matched : Bool) (fuel : Nat) (s : State)
    (hv : value.is_null = false) :
    execute_cases MAX_VARS (.cons value body next) switch_value matched fuel s
      = (evaluate_expression MAX_VARS value s).bind fun case_value s1 =>
          if case_value = switch_value ∨ matched = true then
            (execute_statements MAX_VARS body fuel s1).bind fun _ s2 =>
              execute_cases MAX_VARS next switch_value true fuel s2
          else execute_cases MAX_VARS next switch_value matched fuel s1 := by
  simp only [execute_statements_eq]
  cases value <;> first | (simp [ASTNode.is_null] at hv; done) | (simp [execute_cases])

theorem ASTNode.eq_null_of_is_null {node : ASTNode} (h : node.is_null = true) :
    node = .null := by
  cases node <;> simp [ASTNode.is_null] at h ⊢

/-- Once a case has matched, the loop over the cases runs the remaining bodies in order, the
first default case included, and leaves the loop after that default. -/
theorem execute_cases_matched (MAX_VARS : Nat) (switch_value : Int) (fuel : Nat) :
    ∀ (rest : List (ASTNode × ASTNode)) (s : State),
      (∀ c ∈ rest, c.1.is_null = true ∨ ∃ n, is_label MAX_VARS c.1 n) →
      execute_cases MAX_VARS (CaseNode.ofList rest) switch_value true fuel s
        = run_bodies MAX_VARS (bodies_through_default rest) fuel s := by
  intro rest
  induction rest with
  | nil => intro s _; simp [CaseNode.ofList, execute_cases, bodies_through_default, run_bodies]
  | cons c rest ih =>
    intro s h
    rcases h c (List.mem_cons_self _ _) with hnull | ⟨n, hv, hn⟩
    · have hc : c.1 = .null := ASTNode.eq_null_of_is_null hnull
      simp [CaseNode.ofList, hc, execute_cases_default, bodies_through_default, run_bodies,
        ASTNode.is_null, Res.bind_unit_ok]
    · have hrest : ∀ c ∈ rest, c.1.is_null = true ∨ ∃ n, is_label MAX_VARS c.1 n :=
        fun c hc => h c (List.mem_cons_of_mem _ hc)
      simp [CaseNode.ofList, execute_cases_valued _ _ _ _ _ _ _ _ hv, hn, bodies_through_default,
        hv, run_bodies, ih _ hrest]

/-- Valued cases whose match value differs from the selector are passed over. -/
theorem execute_cases_skip (MAX_VARS : Nat) (switch_value : Int) (fuel : Nat)
    (tail : List (ASTNode × ASTNode)) :
    ∀ (pre : List (ASTNode × ASTNode)) (s : State),
      (∀ c ∈ pre, ∃ n, is_label MAX_VARS c.1 n ∧ n ≠ switch_value) →
      execute_cases MAX_VARS (CaseNode.ofList (pre ++ tail)) switch_value false fuel s
        = execute_cases MAX_VARS (CaseNode.ofList tail) switch_value false fuel s := by
  intro pre
  induction pre with
  | nil => intro s _; rfl
  | cons c pre ih =>
    intro s h
    obtain ⟨n, ⟨hv, hn⟩, hne⟩ := h c (List.mem_cons_self _ _)
    have hpre : ∀ c ∈ pre, ∃ n, is_label MAX_VARS c.1 n ∧ n ≠ switch_value :=
      fun c hc => h c (List.mem_cons_of_mem _ hc)
    simp [CaseNode.ofList, execute_cases_valued _ _ _ _ _ _ _ _ hv, hn, hne, ih _ hpre]

theorem execute_switch_statement_eq (MAX_VARS : Nat) (expression : ASTNode) (cases : CaseNode)
    (fuel : Nat) (s : State) :
    execute_switch_statement MAX_VARS (.NODE_SWITCH_STATEMENT expression cases) fuel s
      = (evaluate_expression MAX_VARS expression s).bind fun switch_value s1 =>
          land_longjmp s1.setjmp_count
            (execute_cases MAX_VARS cases switch_value false fuel (setjmp_break_env s1)) := by
  simp [execute_switch_statement, execute_statement]

/-! ## Multi-branch dispatch -/


/-- C1, as stated, fails: with a default case between the matching case and a later case, the
bodies of the matching case and of the default are executed and the dispatch ends there;
the body of the case declared after the default is not executed. -/
theorem C1_default_ends_fallthrough :
    execute_switch_statement 100 switch_default_in_the_middle 10 State.initial
        = .ok () (emit_all [text_event "A", text_event "B"] (setjmp_break_env State.initial))
      ∧ land_longjmp 0
          (run_bodies 100
            [yapping_text "A" no_modifiers, yapping_text "B" no_modifiers,
             yapping_text "C" no_modifiers] 10 (setjmp_break_env State.initial))
        = .ok () (emit_all [text_event "A", text_event "B", text_event "C"]
            (setjmp_break_env State.initial))
      ∧ execute_switch_statement 100 switch_default_in_the_middle 10 State.initial
        ≠ land_longjmp 0
          (run_bodies 100
            [yapping_text "A" no_modifiers, yapping_text "B" no_modifiers,
             yapping_text "C" no_modifiers] 10 (setjmp_break_env State.initial)) := by
  refine ⟨by decide, by decide, by decide⟩

/-- C1 (amended): when no default case precedes case k and case k is the first case whose
match value equals the selector, `execute_switch_statement` executes the bodies of the cases
k, k+1, ... in declaration order up to and including the first default case at or after k,
and stops only at a body that does not return (a Break among them), after that default body,
or at the end of the list. -/
theorem C1_fallthrough_from_first_match (MAX_VARS fuel : Nat) (expression : ASTNode)
    (switch_value : Int) (pre rest : List (ASTNode × ASTNode)) (value_k body_k : ASTNode)
    (s s1 : State)
    (hsel : evaluate_expression MAX_VARS expression s = .ok switch_value s1)
    (hpre : ∀ c ∈ pre, ∃ n, is_label MAX_VARS c.1 n ∧ n ≠ switch_value)
    (hk : is_label MAX_VARS value_k switch_value)
    (hrest : ∀ c ∈ rest, c.1.is_null = true ∨ ∃ n, is_label MAX_VARS c.1 n) :
    execute_switch_statement MAX_VARS
        (.NODE_SWITCH_STATEMENT expression (CaseNode.ofList (pre ++ (value_k, body_k) :: rest)))
        fuel s
      = land_longjmp s1.setjmp_count
          (run_bodies MAX_VARS (body_k :: bodies_through_default rest) fuel
            (setjmp_break_env s1)) := by
  rw [execute_switch_statement_eq, hsel, Res.bind_ok, execute_cases_skip _ _ _ _ _ _ hpre]
  simp [CaseNode.ofList, execute_cases_valued _ _ _ _ _ _ _ _ hk.1, hk.2, run_bodies,
    execute_cases_matched _ _ _ _ _ hrest]

theorem C1_fallthrough_from_first_match_witness :
    execute_switch_statement 100
        (.NODE_SWITCH_STATEMENT (.NODE_INT 3 no_modifiers)
          (CaseNode.ofList ([(.NODE_INT 1 no_modifiers, yapping_text "A" no_modifiers)] ++
            (.NODE_INT 3 no_modifiers, yapping_text "C" no_modifiers) ::
              [(.NODE_INT 4 no_modifiers, yapping_text "D" no_modifiers),
               (.null, yapping_text "B" no_modifiers),
               (.NODE_INT 5 no_modifiers, yapping_text "E" no_modifiers)])))
        10 State.initial
      = land_longjmp State.initial.setjmp_count
          (run_bodies 100
            (yapping_text "C" no_modifiers ::
              bodies_through_default
                [(.NODE_INT 4 no_modifiers, yapping_text "D" no_modifiers),
                 (.null, yapping_text "B" no_modifiers),
                 (.NODE_INT 5 no_modifiers, yapping_text "E" no_modifiers)])
            10 (setjmp_break_env State.initial)) :=
  C1_fallthrough_from_first_match 100 10 (.NODE_INT 3 no_modifiers) 3
    [(.NODE_INT 1 no_modifiers, yapping_text "A" no_modifiers)]
    [(.NODE_INT 4 no_modifiers, yapping_text "D" no_modifiers),
     (.null, yapping_text "B" no_modifiers),
     (.NODE_INT 5 no_modifiers, yapping_text "E" no_modifiers)]
    (.NODE_INT 3 no_modifiers) (yapping_text "C" no_modifiers) State.initial State.initial
    (evaluate_expression_int_literal 100 3 no_modifiers State.initial)
    (by
      intro c hc
      simp only [List.mem_singleton] at hc
      subst hc
      exact ⟨1, is_label_int_literal 100 1 no_modifiers, by decide⟩)
    (is_label_int_literal 100 3 no_modifiers)
    (by
      intro c hc
      simp only [List.mem_cons, List.mem_singleton, List.not_mem_nil, or_false] at hc
      rcases hc with rfl | rfl | rfl
      · exact Or.inr ⟨4, is_label_int_literal 100 4 no_modifiers⟩
      · exact Or.inl rfl
      · exact Or.inr ⟨5, is_label_int_literal 100 5 no_modifiers⟩)

/-- C2: a default case that the loop over the cases reaches has its body executed, whether
an earlier case matched (`matched` true) or not; in particular it is executed when it follows
valued cases none of which has the value of the selector. -/
theorem C2_default_runs_when_reached (MAX_VARS fuel : Nat) (switch_value : Int)
    (pre rest : List (ASTNode × ASTNode)) (body : ASTNode) (s : State)
    (hpre : ∀ c ∈ pre, ∃ n, is_label MAX_VARS c.1 n ∧ n ≠ switch_value) :
    (∀ matched : Bool,
        execute_cases MAX_VARS (CaseNode.ofList ((.null, body) :: rest)) switch_value matched
          fuel s = execute_statements MAX_VARS body fuel s)
      ∧ execute_cases MAX_VARS (CaseNode.ofList (pre ++ (.null, body) :: rest)) switch_value
          false fuel s = execute_statements MAX_VARS body fuel s := by
  refine ⟨fun matched => ?_, ?_⟩
  · simp [CaseNode.ofList, execute_cases_default]
  · rw [execute_cases_skip _ _ _ _ _ _ hpre]
    simp [CaseNode.ofList, execute_cases_default]

theorem C2_default_runs_when_reached_witness :
    (∀ matched : Bool,
        execute_cases 100
          (CaseNode.ofList ((.null, yapping_text "B" no_modifiers) ::
            [(.NODE_INT 3 no_modifiers, yapping_text "C" no_modifiers)])) 7 matched 10
          State.initial = execute_statements 100 (yapping_text "B" no_modifiers) 10 State.initial)
      ∧ execute_cases 100
          (CaseNode.ofList ([(.NODE_INT 1 no_modifiers, yapping_text "A" no_modifiers)] ++
            (.null, yapping_text "B" no_modifiers) ::
              [(.NODE_INT 3 no_modifiers, yapping_text "C" no_modifiers)])) 7 false 10
          State.initial = execute_statements 100 (yapping_text "B" no_modifiers) 10 State.initial :=
  C2_default_runs_when_reached 100 10 7
    [(.NODE_INT 1 no_modifiers, yapping_text "A" no_modifiers)]
    [(.NODE_INT 3 no_modifiers, yapping_text "C" no_modifiers)]
    (yapping_text "B" no_modifiers) State.initial
    (by
      intro c hc
      simp only [List.mem_singleton] at hc
      subst hc
      exact ⟨1, is_label_int_literal 100 1 no_modifiers, by decide⟩)


/-- C3, at the failing input: the Break that follows a completed inner dispatch is a
`longjmp` through the one global `break_env`, which the inner dispatch has overwritten; the
outer dispatch is not left in a defined way. -/
theorem C3_break_after_inner_switch_undefined :
    execute_statement 100 break_after_inner_switch 10 State.initial = .undefined := by
  decide

theorem emit_all_nil (s : State) : emit_all [] s = s := by
  simp [emit_all]

theorem emit_all_emit (e : Event) (events : List Event) (s : State) :
    emit_all events (emit e s) = emit_all (e :: events) s := by
  simp [emit_all, emit]

theorem execute_print_body (MAX_VARS : Nat) (format : String) (m : TypeModifiers) (fuel : Nat)
    (s : State) :
    execute_statement MAX_VARS (print_body format m) fuel s
      = .ok () (emit (text_event format) s) := by
  simp [print_body, StatementList.ofList, execute_statement, execute_statement_list,
    yapping_text, execute_yapping_call, text_event]

theorem execute_print_break_body (MAX_VARS : Nat) (format : String) (m : TypeModifiers)
    (fuel : Nat) (s : State) (activation : Nat) (hs : s.break_env = some activation) :
    execute_statement MAX_VARS (print_break_body format m) fuel s
      = .jump (emit (text_event format) s) := by
  simp [print_break_body, StatementList.ofList, execute_statement, execute_statement_list,
    yapping_text, execute_yapping_call, text_event, emit, hs]

theorem printing_cases_matched (MAX_VARS fuel : Nat) (switch_value : Int) (last : Int × String)
    (default_body : ASTNode) (m : TypeModifiers) (activation : Nat) :
    ∀ (front : List (Int × String)) (s : State), s.break_env = some activation →
      execute_cases MAX_VARS (printing_cases front last default_body m) switch_value true fuel s
        = .jump (emit_all ((front ++ [last]).map fun p => text_event p.2) s) := by
  intro front
  induction front with
  | nil =>
    intro s hs
    simp [printing_cases, CaseNode.ofList, execute_cases, evaluate_expression_int_literal,
      execute_print_break_body _ _ _ _ _ _ hs, emit_all, emit]
  | cons p front ih =>
    intro s hs
    have hs1 : (emit (text_event p.2) s).break_env = some activation := by simpa [emit] using hs
    have := ih _ hs1
    simp only [printing_cases] at this
    simp [printing_cases, CaseNode.ofList, execute_cases, evaluate_expression_int_literal,
      execute_print_body, this, emit_all_emit]

theorem printing_cases_from (MAX_VARS fuel : Nat) (last : Int × String)
    (default_body : ASTNode) (m : TypeModifiers) (activation : Nat) :
    ∀ (front : List (Int × String)) (k : Nat) (c : Int × String) (s : State),
      ((front ++ [last]).map Prod.fst).Nodup → (front ++ [last])[k]? = some c →
      s.break_env = some activation →
      execute_cases MAX_VARS (printing_cases front last default_body m) c.1 false fuel s
        = .jump (emit_all (((front ++ [last]).drop k).map fun p => text_event p.2) s) := by
  intro front
  induction front with
  | nil =>
    intro k c s _ hk hs
    cases k with
    | zero =>
      simp at hk
      subst hk
      simp [printing_cases, CaseNode.ofList, execute_cases, evaluate_expression_int_literal,
        execute_print_break_body _ _ _ _ _ _ hs, emit_all, emit]
    | succ k => simp at hk
  | cons p front ih =>
    intro k c s hnd hk hs
    cases k with
    | zero =>
      simp at hk
      subst hk
      have hs1 : (emit (text_event p.2) s).break_env = some activation := by
        simpa [emit] using hs
      have := printing_cases_matched MAX_VARS fuel p.1 last default_body m activation front _ hs1
      simp only [printing_cases] at this
      simp [printing_cases, CaseNode.ofList, execute_cases, evaluate_expression_int_literal,
        execute_print_body, this, emit_all_emit]
    | succ k =>
      simp only [List.cons_append, List.getElem?_cons_succ] at hk
      have hnd1 : ((front ++ [last]).map Prod.fst).Nodup := by
        simp only [List.cons_append, List.map_cons, List.nodup_cons] at hnd
        exact hnd.2
      have hne : p.1 ≠ c.1 := by
        simp only [List.cons_append, List.map_cons, List.nodup_cons] at hnd
        intro h
        apply hnd.1
        rw [h]
        exact List.mem_map_of_mem _ (List.mem_iff_getElem?.mpr ⟨k, hk⟩)
      have := ih k c s hnd1 hk hs
      simp only [printing_cases] at this
      simp [printing_cases, CaseNode.ofList, execute_cases, evaluate_expression_int_literal,
        hne, this]

/-- C4: in a dispatch whose valued cases carry distinct integer literals and each write one
text, whose last valued case ends with a Break and whose default is declared last, a selector
equal to the value of case `k` makes the stdout primitive be called once for each case from
`k` to the last valued case, in declaration order, and the default body is not executed. -/
theorem C4_dispatch_prints_until_break (MAX_VARS fuel : Nat) (expression default_body : ASTNode)
    (front : List (Int × String)) (last : Int × String) (m : TypeModifiers) (k : Nat)
    (c : Int × String) (s s1 : State)
    (hdistinct : ((front ++ [last]).map Prod.fst).Nodup)
    (hk : (front ++ [last])[k]? = some c)
    (hsel : evaluate_expression MAX_VARS expression s = .ok c.1 s1) :
    execute_switch_statement MAX_VARS
        (.NODE_SWITCH_STATEMENT expression (printing_cases front last default_body m)) fuel s
      = .ok () (emit_all (((front ++ [last]).drop k).map fun p => text_event p.2)
          (setjmp_break_env s1)) := by
  rw [execute_switch_statement_eq, hsel, Res.bind_ok,
    printing_cases_from MAX_VARS fuel last default_body m s1.setjmp_count front k c _ hdistinct hk
      (by simp [setjmp_break_env])]
  simp [land_longjmp, emit_all, setjmp_break_env]

theorem C4_dispatch_prints_until_break_witness :
    execute_switch_statement 100
        (.NODE_SWITCH_STATEMENT (.NODE_INT 2 no_modifiers)
          (printing_cases [(1, "one"), (2, "two")] (3, "three")
            (print_body "default" no_modifiers) no_modifiers)) 10 State.initial
      = .ok () (emit_all [text_event "two", text_event "three"]
          (setjmp_break_env State.initial)) :=
  C4_dispatch_prints_until_break 100 10 (.NODE_INT 2 no_modifiers)
    (print_body "default" no_modifiers) [(1, "one"), (2, "two")] (3, "three") no_modifiers 1
    (2, "two") State.initial State.initial (by decide) (by decide)
    (evaluate_expression_int_literal 100 2 no_modifiers State.initial)

/-! ## Facts about the symbol table -/

theorem find_variable_name {tbl : List Variable} {name : String} {v : Variable}
    (h : find_variable tbl name = some v) : v.name = name := by
  have := List.find?_some h
  simpa using this

theorem update_existing_of_find {name : String} (value : CObject) (type : VarType)
    (mods : TypeModifiers) :
    ∀ {tbl : List Variable} {v : Variable}, find_variable tbl name = some v →
      ∃ tbl1, update_existing name value type mods tbl = some tbl1
        ∧ find_variable tbl1 name
            = some ⟨name, type, mods, (read_object type value).getD v.value⟩
        ∧ tbl1.length = tbl.length := by
  intro tbl
  induction tbl with
  | nil => intro v h; simp [find_variable] at h
  | cons w rest ih =>
    intro v h
    by_cases hw : w.name = name
    · have hv : w = v := by simpa [find_variable, List.find?, hw] using h
      subst hv
      refine ⟨⟨name, type, mods, (read_object type value).getD w.value⟩ :: rest,
        by simp [update_existing, hw], ?_, by simp⟩
      simp [find_variable, List.find?]
    · have h1 : find_variable rest name = some v := by
        simpa [find_variable, List.find?, hw] using h
      obtain ⟨tbl1, h2, h3, h4⟩ := ih h1
      refine ⟨w :: tbl1, by simp [update_existing, hw, h2], ?_, by simp [h4]⟩
      simpa [find_variable, List.find?, hw] using h3

theorem update_existing_of_not_found {name : String} (value : CObject) (type : VarType)
    (mods : TypeModifiers) :
    ∀ {tbl : List Variable}, find_variable tbl name = Option.none →
      update_existing name value type mods tbl = Option.none := by
  intro tbl
  induction tbl with
  | nil => intro _; rfl
  | cons w rest ih =>
    intro h
    by_cases hw : w.name = name
    · simp [find_variable, List.find?, hw] at h
    · have h1 : find_variable rest name = Option.none := by
        simpa [find_variable, List.find?, hw] using h
      simp [update_existing, hw, ih h1]

theorem find_variable_append_new {name : String} (w : Variable) (hw : w.name = name) :
    ∀ {tbl : List Variable}, find_variable tbl name = Option.none →
      find_variable (tbl ++ [w]) name = some w := by
  intro tbl h
  unfold find_variable at h ⊢
  rw [List.find?_append, h]
  simp [List.find?, hw]

/-- An upsert that succeeds leaves `name` bound to the kind, qualifiers and value passed. -/
theorem find_variable_set_variable (MAX_VARS : Nat) (name : String) (value : CObject)
    (type : VarType) (mods : TypeModifiers) (val : Value) (tbl : List Variable)
    (hval : read_object type value = some val)
    (hok : (set_variable MAX_VARS name value type mods tbl).1 = true) :
    find_variable (set_variable MAX_VARS name value type mods tbl).2 name
      = some ⟨name, type, mods, val⟩ := by
  cases hf : find_variable tbl name with
  | some v =>
    obtain ⟨tbl1, h1, h2, _⟩ := update_existing_of_find value type mods hf
    simp [set_variable, h1, h2, hval]
  | none =>
    have h1 := update_existing_of_not_found value type mods hf
    by_cases hcap : tbl.length < MAX_VARS
    · simp only [set_variable, h1, hcap, if_true, hval, Option.getD_some]
      exact find_variable_append_new _ rfl hf
    · simp [set_variable, h1, hcap] at hok

/-- An upsert of a name that is in the table succeeds, whatever the capacity. -/
theorem set_variable_of_find (MAX_VARS : Nat) (name : String) (value : CObject)
    (type : VarType) (mods : TypeModifiers) {tbl : List Variable} {v : Variable}
    (hf : find_variable tbl name = some v) :
    (set_variable MAX_VARS name value type mods tbl).1 = true := by
  obtain ⟨tbl1, h1, _, _⟩ := update_existing_of_find value type mods hf
  simp [set_variable, h1]

/-- An upsert into a table with a free entry succeeds. -/
theorem set_variable_of_room (MAX_VARS : Nat) (name : String) (value : CObject)
    (type : VarType) (mods : TypeModifiers) {tbl : List Variable}
    (hroom : tbl.length < MAX_VARS) :
    (set_variable MAX_VARS name value type mods tbl).1 = true := by
  unfold set_variable
  split
  · rfl
  · simp [hroom]

/-! ## Facts about identifier resolution -/

@[simp] theorem mark_valid_symbol_table (id : Nat) (s : State) :
    (mark_valid id s).symbol_table = s.symbol_table := by
  unfold mark_valid; split <;> rfl

@[simp] theorem mark_valid_output (id : Nat) (s : State) :
    (mark_valid id s).output = s.output := by
  unfold mark_valid; split <;> rfl

@[simp] theorem mark_valid_errors (id : Nat) (s : State) :
    (mark_valid id s).errors = s.errors := by
  unfold mark_valid; split <;> rfl

@[simp] theorem mark_valid_break_env (id : Nat) (s : State) :
    (mark_valid id s).break_env = s.break_env := by
  unfold mark_valid; split <;> rfl

theorem node_ok_mark_valid {id' : Nat} (id : Nat) {s : State} (h : node_ok id' s) :
    node_ok id' (mark_valid id s) := by
  unfold node_ok mark_valid at *
  split
  · exact h
  · by_cases hid : id' = id
    · simp [List.lookup, hid]
    · have : (id' == id) = false := by simpa using hid
      simpa [List.lookup, this] using h

theorem mark_valid_idem (id : Nat) (s : State) :
    mark_valid id (mark_valid id s) = mark_valid id s := by
  cases h : s.checked.lookup id with
  | some b => simp [mark_valid, h]
  | none => simp [mark_valid, h, List.lookup]

theorem int_variable_mark_valid {s : State} {name : String} {mods : TypeModifiers} {n : Int}
    (id : Nat) (h : int_variable s name mods n) : int_variable (mark_valid id s) name mods n := by
  simpa [int_variable] using h

/-- Resolution of a node that is not marked invalid, for a name that is in the table. -/
theorem check_and_mark_identifier_found (id : Nat) (name msg : String) (s : State)
    (v : Variable) (hf : find_variable s.symbol_table name = some v) (hok : node_ok id s) :
    check_and_mark_identifier id name msg s = (true, mark_valid id s) := by
  unfold check_and_mark_identifier mark_valid
  cases h : s.checked.lookup id with
  | some b =>
    cases b with
    | true => rfl
    | false => exact absurd h hok
  | none => simp [hf]

theorem is_float_expression_int_variable (id : Nat) (name : String) (vt : VarType)
    (m mods : TypeModifiers) (n : Int) (s : State) (hv : int_variable s name mods n)
    (hok : node_ok id s) :
    is_float_expression (.NODE_IDENTIFIER id name vt m) s = .ok false (mark_valid id s) := by
  simp [is_float_expression, check_and_mark_identifier_found id name _ s _ hv hok,
    show find_variable s.symbol_table name = _ from hv]

theorem is_double_expression_int_variable (id : Nat) (name : String) (vt : VarType)
    (m mods : TypeModifiers) (n : Int) (s : State) (hv : int_variable s name mods n)
    (hok : node_ok id s) :
    is_double_expression (.NODE_IDENTIFIER id name vt m) s = .ok false (mark_valid id s) := by
  simp [is_double_expression, check_and_mark_identifier_found id name _ s _ hv hok,
    show find_variable s.symbol_table name = _ from hv]

theorem evaluate_expression_int_int_variable (MAX_VARS id : Nat) (name : String)
    (vt : VarType) (m mods : TypeModifiers) (n : Int) (s : State)
    (hv : int_variable s name mods n) (hok : node_ok id s) :
    evaluate_expression_int MAX_VARS (.NODE_IDENTIFIER id name vt m) s
      = .ok n (mark_valid id s) := by
  simp [evaluate_expression_int, check_and_mark_identifier_found id name _ s _ hv hok,
    show find_variable s.symbol_table name = _ from hv, Res.ofOption, Value.get_ivalue]

theorem is_float_expression_operation (op : OperatorType) (left right : ASTNode)
    (m : TypeModifiers) (s : State) :
    is_float_expression (.NODE_OPERATION op left right m) s
      = (is_float_expression left s).bind fun l s1 =>
          if l then .ok true s1 else is_float_expression right s1 := by
  simp only [is_float_expression]

theorem is_double_expression_operation (op : OperatorType) (left right : ASTNode)
    (m : TypeModifiers) (s : State) :
    is_double_expression (.NODE_OPERATION op left right m) s
      = (is_double_expression left s).bind fun l s1 =>
          if l then .ok true s1 else is_double_expression right s1 := by
  simp only [is_double_expression]

@[simp] theorem is_float_expression_int (n : Int) (m : TypeModifiers) (s : State) :
    is_float_expression (.NODE_INT n m) s = .ok false s := by
  simp only [is_float_expression]

@[simp] theorem is_double_expression_int (n : Int) (m : TypeModifiers) (s : State) :
    is_double_expression (.NODE_INT n m) s = .ok false s := by
  simp only [is_double_expression]

@[simp] theorem evaluate_expression_int_int (MAX_VARS : Nat) (n : Int) (m : TypeModifiers)
    (s : State) : evaluate_expression_int MAX_VARS (.NODE_INT n m) s = .ok n s := by
  simp only [evaluate_expression_int]

/-- The arithmetic and comparison operators: the operands are evaluated left then right and
combined by `int_binary_op`. -/
theorem evaluate_expression_int_operation (MAX_VARS : Nat) (op : OperatorType)
    (left right : ASTNode) (m : TypeModifiers) (s : State)
    (hand : op ≠ .OP_AND) (hor : op ≠ .OP_OR) :
    evaluate_expression_int MAX_VARS (.NODE_OPERATION op left right m) s
      = (evaluate_expression_int MAX_VARS left s).bind fun l s1 =>
          (evaluate_expression_int MAX_VARS right s1).bind fun r s2 =>
            int_binary_op op m.is_unsigned l r s2 := by
  simp only [evaluate_expression_int, hand, hor, or_self, if_false]

/-- A binary operation on an `int` variable and an integer literal is evaluated on the
integer path, on the value of the variable. -/
theorem evaluate_expression_variable_op_literal (MAX_VARS id : Nat) (name : String)
    (vt : VarType) (m1 m2 m3 mods : TypeModifiers) (op : OperatorType) (n c : Int) (s : State)
    (hv : int_variable s name mods n) (hok : node_ok id s)
    (hand : op ≠ .OP_AND) (hor : op ≠ .OP_OR) :
    evaluate_expression MAX_VARS
        (.NODE_OPERATION op (.NODE_IDENTIFIER id name vt m1) (.NODE_INT c m2) m3) s
      = int_binary_op op m3.is_unsigned n c (mark_valid id s) := by
  have hv1 := int_variable_mark_valid id hv
  have hok1 := node_ok_mark_valid id hok
  simp only [evaluate_expression, is_float_expression_operation,
    is_double_expression_operation,
    is_float_expression_int_variable id name vt m1 mods n s hv hok,
    is_double_expression_int_variable id name vt m1 mods n _ hv1 hok1,
    evaluate_expression_int_operation MAX_VARS op _ _ m3 _ hand hor,
    evaluate_expression_int_int_variable MAX_VARS id name vt m1 mods n _ hv1 hok1,
    mark_valid_idem, Res.bind_ok, is_float_expression_int, is_double_expression_int,
    evaluate_expression_int_int, Bool.false_eq_true, if_false]

theorem wrap32_of_int {z : Int} (h1 : INT_MIN ≤ z) (h2 : z ≤ INT_MAX) : wrap32 z = z := by
  unfold wrap32
  unfold INT_MIN at h1
  unfold INT_MAX at h2
  omega

theorem wrap32_is_int (z : Int) : INT_MIN ≤ wrap32 z ∧ wrap32 z ≤ INT_MAX := by
  unfold wrap32 INT_MIN INT_MAX
  omega

/-! ## The counting loop -/

theorem execute_for_statement_eq (MAX_VARS : Nat) (init cond incr body : ASTNode)
    (m : TypeModifiers) (fuel : Nat) (s : State) :
    execute_for_statement MAX_VARS (.NODE_FOR_STATEMENT init cond incr body m) fuel s
      = (execute_statement MAX_VARS init fuel s).bind fun _ s1 =>
          for_loop (!cond.is_null) (evaluate_expression MAX_VARS cond)
            (execute_statement MAX_VARS body fuel) (execute_statement MAX_VARS incr fuel)
            fuel s1 := by
  simp [execute_for_statement, execute_statement]

theorem execute_counting_init (MAX_VARS : Nat) (name : String) (m : TypeModifiers)
    (id_init fuel : Nat) (s : State)
    (hset : (set_variable MAX_VARS name (.int 0) .VAR_INT m s.symbol_table).1 = true) :
    execute_statement MAX_VARS (counting_init name m id_init) fuel s
      = .ok () { s with symbol_table :=
          (set_variable MAX_VARS name (.int 0) .VAR_INT m s.symbol_table).2 } := by
  simp [counting_init, execute_statement, assign_variable, ASTNode.data_name, Res.ofOption,
    hset]

theorem execute_counting_cond (MAX_VARS : Nat) (name : String) (n j : Int)
    (m : TypeModifiers) (id_cond : Nat) (s : State) (hv : int_variable s name m j)
    (hok : node_ok id_cond s) :
    evaluate_expression MAX_VARS (counting_cond name n m id_cond) s
      = .ok (bool_to_int (decide (j < n))) (mark_valid id_cond s) := by
  rw [counting_cond, evaluate_expression_variable_op_literal MAX_VARS id_cond name _ m m m m
    .OP_LT j n s hv hok (by decide) (by decide)]
  rfl

theorem execute_counting_body (MAX_VARS : Nat) (name : String) (j : Int)
    (m : TypeModifiers) (id_arg fuel : Nat) (s : State) (hv : int_variable s name m j)
    (hok : node_ok id_arg s) (hm : m.is_unsigned = false) :
    execute_statement MAX_VARS (counting_body name m id_arg) fuel s
      = .ok () (emit (number_event j) (mark_valid id_arg s)) := by
  have hv1 := int_variable_mark_valid id_arg hv
  have hok1 := node_ok_mark_valid id_arg hok
  have hmods : get_variable_modifiers (mark_valid id_arg s).symbol_table name = m := by
    simp [get_variable_modifiers, show find_variable s.symbol_table name = _ from hv]
  have hfmt : strstr "%d\n".toList ['%', 'b'] = Option.none := by decide
  simp only [counting_body, execute_statement, if_true, execute_yapping_call,
    is_float_expression_int_variable id_arg name _ m m j s hv hok,
    is_double_expression_int_variable id_arg name _ m m j _ hv1 hok1,
    evaluate_expression_int_int_variable MAX_VARS id_arg name _ m m j _ hv1 hok1,
    mark_valid_idem, Res.bind_ok, Bool.false_eq_true, if_false, yapping_is_unsigned,
    Res.ofOption, hmods, hm, hfmt, Option.isSome, number_event]

theorem execute_counting_incr (MAX_VARS : Nat) (name : String) (j : Int)
    (m : TypeModifiers) (id_lhs id_rhs fuel : Nat) (s : State) (hv : int_variable s name m j) 
    (hok : node_ok id_rhs s) :
    execute_statement MAX_VARS (counting_incr name m id_lhs id_rhs) fuel s
      = .ok () { mark_valid id_rhs s with symbol_table :=
          (set_variable MAX_VARS name (.int (wrap32 (j + 1))) .VAR_INT m s.symbol_table).2 } := by
  have hset : (set_variable MAX_VARS name (.int (wrap32 (j + 1))) .VAR_INT m
      s.symbol_table).1 = true := set_variable_of_find MAX_VARS name _ _ _ hv
  have hev := evaluate_expression_variable_op_literal MAX_VARS id_rhs name .NONE m m m m
    .OP_PLUS j 1 s hv hok (by decide) (by decide)
  have hv1 := int_variable_mark_valid id_rhs hv
  have hok1 := node_ok_mark_valid id_rhs hok
  simp only [counting_incr, execute_statement, is_float_expression_operation,
    is_double_expression_operation,
    is_float_expression_int_variable id_rhs name _ m m j s hv hok,
    is_double_expression_int_variable id_rhs name _ m m j _ hv1 hok1,
    evaluate_expression_int_operation MAX_VARS .OP_PLUS _ _ m _ (by decide) (by decide),
    evaluate_expression_int_int_variable MAX_VARS id_rhs name _ m m j _ hv1 hok1,
    mark_valid_idem, Res.bind_ok, is_float_expression_int, is_double_expression_int,
    evaluate_expression_int_int, Bool.false_eq_true, if_false, int_binary_op,
    assign_variable, ASTNode.data_name, Res.ofOption, mark_valid_symbol_table, hset, if_true]

theorem node_ok_of_checked {id : Nat} {s t : State} (h : t.checked = s.checked)
    (hok : node_ok id s) : node_ok id t := by
  unfold node_ok at *
  rw [h]
  exact hok

theorem for_loop_succ (has_cond : Bool) (cond : State → Res Int) (body incr : State → Res Unit)
    (fuel : Nat) (s : State) :
    for_loop has_cond cond body incr (fuel + 1) s
      = if has_cond then
          (cond s).bind fun cond_result s1 =>
            if cond_result = 0 then .ok () s1
            else
              (body s1).bind fun _ s2 =>
              (incr s2).bind fun _ s3 => for_loop has_cond cond body incr fuel s3
        else
          (body s).bind fun _ s2 =>
          (incr s2).bind fun _ s3 => for_loop has_cond cond body incr fuel s3 := rfl

/-- From a state in which the variable holds `j`, the loop of the counting statement writes
`j`, ..., `n - 1` and ends with the variable holding `n`, within `n - j + 1` iterations. -/
theorem counting_loop_runs (MAX_VARS : Nat) (name : String) (n : Int) (m : TypeModifiers)
    (id_cond id_lhs id_rhs id_arg fuel0 : Nat) (hm : m.is_unsigned = false)
    (hn : n ≤ INT_MAX) :
    ∀ (k : Nat) (j : Int) (fuel : Nat) (s : State), 0 ≤ j → j + k = n → k < fuel →
      int_variable s name m j → node_ok id_cond s → node_ok id_rhs s → node_ok id_arg s →
      ∃ s', for_loop true (evaluate_expression MAX_VARS (counting_cond name n m id_cond))
              (execute_statement MAX_VARS (counting_body name m id_arg) fuel0)
              (execute_statement MAX_VARS (counting_incr name m id_lhs id_rhs) fuel0) fuel s
            = .ok () s'
        ∧ s'.output = s.output ++ (List.range k).map (fun i : Nat => number_event (j + (i : Int)))
        ∧ int_variable s' name m n
        ∧ s'.errors = s.errors
        ∧ s'.symbol_table.length = s.symbol_table.length := by
  intro k
  induction k with
  | zero =>
    intro j fuel s _ hjn hfuel hv hc _ _
    obtain ⟨f, rfl⟩ : ∃ f, fuel = f + 1 := ⟨fuel - 1, by omega⟩
    have hj : j = n := by simpa using hjn
    subst hj
    refine ⟨mark_valid id_cond s, ?_, by simp, int_variable_mark_valid _ hv, by simp, by simp⟩
    rw [for_loop_succ, if_pos rfl, execute_counting_cond MAX_VARS name j j m id_cond s hv hc]
    simp [bool_to_int]
  | succ k ih =>
    intro j fuel s hj0 hjn hfuel hv hc hr ha
    obtain ⟨f, rfl⟩ : ∃ f, fuel = f + 1 := ⟨fuel - 1, by omega⟩
    have hlt : j < n := by omega
    -- the states after the condition, the body and the increment
    have hv1 := int_variable_mark_valid id_cond hv
    have ha1 := node_ok_mark_valid id_cond ha
    have hv2 : int_variable (emit (number_event j) (mark_valid id_arg (mark_valid id_cond s)))
        name m j := by
      simpa [int_variable, emit] using hv
    have hr2 : node_ok id_rhs (emit (number_event j) (mark_valid id_arg (mark_valid id_cond s))) :=
      node_ok_of_checked (s := mark_valid id_arg (mark_valid id_cond s)) rfl
        (node_ok_mark_valid _ (node_ok_mark_valid _ hr))
    have hwrap : wrap32 (j + 1) = j + 1 :=
      wrap32_of_int (by unfold INT_MIN; omega) (by omega)
    have hset := set_variable_of_find MAX_VARS name (.int (j + 1)) .VAR_INT m
      (show find_variable s.symbol_table name = _ from hv)
    have hfind := find_variable_set_variable MAX_VARS name (.int (j + 1)) .VAR_INT m
      (.ivalue (j + 1)) s.symbol_table rfl hset
    have hlen : (set_variable MAX_VARS name (.int (j + 1)) .VAR_INT m s.symbol_table).2.length
        = s.symbol_table.length := by
      obtain ⟨tbl1, h1, _, h3⟩ := update_existing_of_find (.int (j + 1)) .VAR_INT m
        (show find_variable s.symbol_table name = _ from hv)
      simp [set_variable, h1, h3]
    obtain ⟨s', hrun, hout, hfin, herr, hlen'⟩ := ih (j + 1) f
      { mark_valid id_rhs (emit (number_event j) (mark_valid id_arg (mark_valid id_cond s))) with
        symbol_table := (set_variable MAX_VARS name (.int (j + 1)) .VAR_INT m s.symbol_table).2 }
      (by omega) (by push_cast at hjn; omega) (by omega)
      (by simpa [int_variable] using hfind)
      (node_ok_of_checked (s := mark_valid id_rhs
          (emit (number_event j) (mark_valid id_arg (mark_valid id_cond s)))) rfl
        (node_ok_mark_valid _ (node_ok_of_checked
          (s := mark_valid id_arg (mark_valid id_cond s)) rfl
          (node_ok_mark_valid _ (node_ok_mark_valid _ hc)))))
      (node_ok_of_checked (s := mark_valid id_rhs
          (emit (number_event j) (mark_valid id_arg (mark_valid id_cond s)))) rfl
        (node_ok_mark_valid _ hr2))
      (node_ok_of_checked (s := mark_valid id_rhs
          (emit (number_event j) (mark_valid id_arg (mark_valid id_cond s)))) rfl
        (node_ok_mark_valid _ (node_ok_of_checked
          (s := mark_valid id_arg (mark_valid id_cond s)) rfl
          (node_ok_mark_valid _ ha1))))
    refine ⟨s', ?_, ?_, hfin, ?_, ?_⟩
    · rw [for_loop_succ, if_pos rfl, execute_counting_cond MAX_VARS name n j m id_cond s hv hc]
      have hcond : bool_to_int (decide (j < n)) ≠ 0 := by simp [bool_to_int, hlt]
      rw [Res.bind_ok, if_neg hcond,
        execute_counting_body MAX_VARS name j m id_arg fuel0 _ hv1 ha1 hm, Res.bind_ok,
        execute_counting_incr MAX_VARS name j m id_lhs id_rhs fuel0 _ hv2 hr2, Res.bind_ok,
        hwrap]
      simpa [emit] using hrun
    · rw [hout]
      simp [emit, List.range_succ_eq_map, List.map_map, Function.comp_def, add_assoc]
      intro a _
      rw [add_comm 1 (a : Int)]
    · simpa [emit] using herr
    · simpa [hlen] using hlen'

/-- C5: for every `n ≥ 0`, the statement `for (i = 0; i < n; i = i + 1) yapping("%d\n", i);`
run on a table with a free entry, with identifier nodes not marked invalid, returns within
`n + 1` iterations; it calls the stdout primitive exactly `n` times, with the integers
`0, 1, ..., n - 1` in that order, and ends with `i` holding `n`. -/
theorem C5_counting_for_statement (MAX_VARS fuel : Nat) (name : String) (n : Nat)
    (m : TypeModifiers) (id_init id_cond id_lhs id_rhs id_arg : Nat) (s : State)
    (hm : m.is_unsigned = false) (hn : (n : Int) ≤ INT_MAX)
    (hroom : var_count s < MAX_VARS)
    (hc : node_ok id_cond s) (hr : node_ok id_rhs s) (ha : node_ok id_arg s)
    (hfuel : n < fuel) :
    ∃ s', execute_for_statement MAX_VARS
            (counting_for name n m id_init id_cond id_lhs id_rhs id_arg) fuel s = .ok () s'
      ∧ s'.output = s.output ++ (List.range n).map (fun i : Nat => number_event (i : Int))
      ∧ int_variable s' name m n
      ∧ s'.errors = s.errors := by
  have hset := set_variable_of_room MAX_VARS name (.int 0) .VAR_INT m
    (show s.symbol_table.length < MAX_VARS from hroom)
  have hfind := find_variable_set_variable MAX_VARS name (.int 0) .VAR_INT m (.ivalue 0)
    s.symbol_table rfl hset
  obtain ⟨s', hrun, hout, hfin, herr, _⟩ :=
    counting_loop_runs MAX_VARS name n m id_cond id_lhs id_rhs id_arg fuel hm hn n 0 fuel
      { s with symbol_table := (set_variable MAX_VARS name (.int 0) .VAR_INT m s.symbol_table).2 }
      (le_refl 0) (by simp) hfuel (by simpa [int_variable] using hfind)
      (node_ok_of_checked (s := s) rfl hc) (node_ok_of_checked (s := s) rfl hr)
      (node_ok_of_checked (s := s) rfl ha)
  refine ⟨s', ?_, ?_, hfin, herr⟩
  · rw [counting_for, execute_for_statement_eq,
      execute_counting_init MAX_VARS name m id_init fuel s hset, Res.bind_ok]
    simpa [counting_cond, ASTNode.is_null] using hrun
  · simpa using hout

theorem C5_counting_for_statement_witness :
    ∃ s', execute_for_statement 100 (counting_for "i" 3 no_modifiers 0 1 2 3 4) 10
            State.initial = .ok () s'
      ∧ s'.output = [number_event 0, number_event 1, number_event 2]
      ∧ int_variable s' "i" no_modifiers 3
      ∧ s'.errors = [] :=
  C5_counting_for_statement 100 10 "i" 3 no_modifiers 0 1 2 3 4 State.initial rfl
    (by decide) (by decide) (by unfold node_ok; decide) (by unfold node_ok; decide)
    (by unfold node_ok; decide) (by decide)

/-! ## Integer expressions -/

/-- C6: an integer-context `/` or `%` node whose right operand evaluates to 0 reports
"Division by zero" through `yyerror`, returns 0 and does not end the process, whatever the
value of the left operand; the same holds in boolean context. -/
theorem C6_integer_division_by_zero (MAX_VARS : Nat) (op : OperatorType)
    (left right : ASTNode) (m : TypeModifiers) (s : State)
    (hop : op = .OP_DIVIDE ∨ op = .OP_MOD) :
    (∀ (a : Int) (s1 s2 : State),
        evaluate_expression_int MAX_VARS left s = .ok a s1 →
        evaluate_expression_int MAX_VARS right s1 = .ok 0 s2 →
        evaluate_expression_int MAX_VARS (.NODE_OPERATION op left right m) s
          = .ok 0 (yyerror "Division by zero" s2))
      ∧ (∀ (a : Bool) (s1 s2 : State),
        evaluate_expression_bool left s = .ok a s1 →
        evaluate_expression_bool right s1 = .ok false s2 →
        evaluate_expression_bool (.NODE_OPERATION op left right m) s
          = .ok false (yyerror "Division by zero" s2)) := by
  constructor
  · intro a s1 s2 hl hr
    rcases hop with rfl | rfl <;>
      simp [evaluate_expression_int, hl, hr, int_binary_op]
  · intro a s1 s2 hl hr
    rcases hop with rfl | rfl <;>
      simp [evaluate_expression_bool, hl, hr, bool_binary_op, bool_to_int]

theorem C6_integer_division_by_zero_witness :
    evaluate_expression_int 100
        (.NODE_OPERATION .OP_DIVIDE (.NODE_INT 7 no_modifiers) (.NODE_INT 0 no_modifiers)
          no_modifiers) State.initial
      = .ok 0 (yyerror "Division by zero" State.initial)
    ∧ evaluate_expression_bool
        (.NODE_OPERATION .OP_DIVIDE (.NODE_INT 7 no_modifiers) (.NODE_INT 0 no_modifiers)
          no_modifiers) State.initial
      = .ok false (yyerror "Division by zero" State.initial) :=
  ⟨(C6_integer_division_by_zero 100 .OP_DIVIDE (.NODE_INT 7 no_modifiers)
      (.NODE_INT 0 no_modifiers) no_modifiers State.initial (Or.inl rfl)).1 7 State.initial
      State.initial rfl rfl,
   (C6_integer_division_by_zero 100 .OP_DIVIDE (.NODE_INT 7 no_modifiers)
      (.NODE_INT 0 no_modifiers) no_modifiers State.initial (Or.inl rfl)).2 true State.initial
      State.initial rfl rfl⟩

theorem int_variable_set_variable_value (MAX_VARS : Nat) (name : String)
    (mods : TypeModifiers) (n v : Int) (s : State) (hv : int_variable s name mods n) :
    int_variable (set_variable_value MAX_VARS name (.int v) mods s) name mods v := by
  have hset := set_variable_of_find MAX_VARS name (.int v) .VAR_INT mods
    (show find_variable s.symbol_table name = _ from hv)
  have := find_variable_set_variable MAX_VARS name (.int v) .VAR_INT mods (.ivalue v)
    s.symbol_table rfl hset
  simpa [int_variable, set_variable_value] using this

theorem get_variable_modifiers_int_variable {s : State} {name : String}
    {mods : TypeModifiers} {n : Int} (hv : int_variable s name mods n) :
    get_variable_modifiers s.symbol_table name = mods := by
  simp [get_variable_modifiers, show find_variable s.symbol_table name = _ from hv]

/-- The increment and decrement operators on an `int` variable holding `n`: the value
returned and the state left are those of the source, with `delta` the amount written. -/
theorem evaluate_expression_int_step (MAX_VARS id : Nat) (name : String) (vt : VarType)
    (m1 m2 mods : TypeModifiers) (n : Int) (s : State) (hv : int_variable s name mods n)
    (hok : node_ok id s) :
    evaluate_expression_int MAX_VARS
        (.NODE_UNARY_OPERATION .OP_PRE_INC (.NODE_IDENTIFIER id name vt m1) m2) s
      = .ok (wrap32 (n + 1))
          (set_variable_value MAX_VARS name (.int (wrap32 (n + 1))) mods (mark_valid id s))
    ∧ evaluate_expression_int MAX_VARS
        (.NODE_UNARY_OPERATION .OP_POST_INC (.NODE_IDENTIFIER id name vt m1) m2) s
      = .ok n
          (set_variable_value MAX_VARS name (.int (wrap32 (n + 1))) mods (mark_valid id s))
    ∧ evaluate_expression_int MAX_VARS
        (.NODE_UNARY_OPERATION .OP_PRE_DEC (.NODE_IDENTIFIER id name vt m1) m2) s
      = .ok (wrap32 (n - 1))
          (set_variable_value MAX_VARS name (.int (wrap32 (n - 1))) mods (mark_valid id s))
    ∧ evaluate_expression_int MAX_VARS
        (.NODE_UNARY_OPERATION .OP_POST_DEC (.NODE_IDENTIFIER id name vt m1) m2) s
      = .ok n
          (set_variable_value MAX_VARS name (.int (wrap32 (n - 1))) mods (mark_valid id s)) := by
  have hmods := get_variable_modifiers_int_variable hv
  have hev := evaluate_expression_int_int_variable MAX_VARS id name vt m1 mods n s hv hok
  refine ⟨?_, ?_, ?_, ?_⟩ <;>
    · rw [evaluate_expression_int, hev]
      simp [Res.ofOption, ASTNode.data_name, hmods]

/-- C7: for an `int` variable `x` holding `n`, with `n + 1` and `n - 1` representable,
prefix increment returns `n + 1` and postfix increment returns `n`, and in both cases `x`
holds `n + 1` in the table when the evaluation returns; prefix decrement returns `n - 1`,
postfix decrement returns `n`, and `x` holds `n - 1`. -/
theorem C7_increment_decrement (MAX_VARS id : Nat) (name : String) (vt : VarType)
    (m1 m2 mods : TypeModifiers) (n : Int) (s : State) (hv : int_variable s name mods n)
    (hok : node_ok id s) (hlo : INT_MIN ≤ n - 1) (hhi : n + 1 ≤ INT_MAX) :
    (∃ s', evaluate_expression_int MAX_VARS
              (.NODE_UNARY_OPERATION .OP_PRE_INC (.NODE_IDENTIFIER id name vt m1) m2) s
            = .ok (n + 1) s'
          ∧ int_variable s' name mods (n + 1))
      ∧ (∃ s', evaluate_expression_int MAX_VARS
              (.NODE_UNARY_OPERATION .OP_POST_INC (.NODE_IDENTIFIER id name vt m1) m2) s
            = .ok n s'
          ∧ int_variable s' name mods (n + 1))
      ∧ (∃ s', evaluate_expression_int MAX_VARS
              (.NODE_UNARY_OPERATION .OP_PRE_DEC (.NODE_IDENTIFIER id name vt m1) m2) s
            = .ok (n - 1) s'
          ∧ int_variable s' name mods (n - 1))
      ∧ (∃ s', evaluate_expression_int MAX_VARS
              (.NODE_UNARY_OPERATION .OP_POST_DEC (.NODE_IDENTIFIER id name vt m1) m2) s
            = .ok n s'
          ∧ int_variable s' name mods (n - 1)) := by
  have hinc : wrap32 (n + 1) = n + 1 := wrap32_of_int (by omega) hhi
  have hdec : wrap32 (n - 1) = n - 1 := wrap32_of_int hlo (by omega)
  obtain ⟨h1, h2, h3, h4⟩ :=
    evaluate_expression_int_step MAX_VARS id name vt m1 m2 mods n s hv hok
  have hv1 := int_variable_mark_valid id hv
  rw [hinc] at h1 h2
  rw [hdec] at h3 h4
  exact ⟨⟨_, h1, int_variable_set_variable_value MAX_VARS name mods n _ _ hv1⟩,
    ⟨_, h2, int_variable_set_variable_value MAX_VARS name mods n _ _ hv1⟩,
    ⟨_, h3, int_variable_set_variable_value MAX_VARS name mods n _ _ hv1⟩,
    ⟨_, h4, int_variable_set_variable_value MAX_VARS name mods n _ _ hv1⟩⟩

theorem C7_increment_decrement_witness :
    (∃ s', evaluate_expression_int 100
              (.NODE_UNARY_OPERATION .OP_PRE_INC (.NODE_IDENTIFIER 1 "x" .NONE no_modifiers)
                no_modifiers) (state_with_x 5) = .ok (5 + 1) s'
          ∧ int_variable s' "x" no_modifiers (5 + 1))
      ∧ (∃ s', evaluate_expression_int 100
              (.NODE_UNARY_OPERATION .OP_POST_INC (.NODE_IDENTIFIER 1 "x" .NONE no_modifiers)
                no_modifiers) (state_with_x 5) = .ok 5 s'
          ∧ int_variable s' "x" no_modifiers (5 + 1))
      ∧ (∃ s', evaluate_expression_int 100
              (.NODE_UNARY_OPERATION .OP_PRE_DEC (.NODE_IDENTIFIER 1 "x" .NONE no_modifiers)
                no_modifiers) (state_with_x 5) = .ok (5 - 1) s'
          ∧ int_variable s' "x" no_modifiers (5 - 1))
      ∧ (∃ s', evaluate_expression_int 100
              (.NODE_UNARY_OPERATION .OP_POST_DEC (.NODE_IDENTIFIER 1 "x" .NONE no_modifiers)
                no_modifiers) (state_with_x 5) = .ok 5 s'
          ∧ int_variable s' "x" no_modifiers (5 - 1)) :=
  C7_increment_decrement 100 1 "x" .NONE no_modifiers no_modifiers no_modifiers 5
    (state_with_x 5) (by unfold int_variable; decide) (by unfold node_ok; decide)
    (by decide) (by decide)

/-- C8: evaluation is eager and left to right. For an `int` variable `x` holding `n`, the
node `(x++) + x` evaluates in integer context to the `int` sum of `n` and the incremented
value, which is `n + (n + 1)` when that is representable, and leaves `x` incremented; and for
every binary node the right operand is evaluated in the state produced by the left one. -/
theorem C8_left_to_right (MAX_VARS id1 id2 : Nat) (name : String) (vt : VarType)
    (m mods : TypeModifiers) (n : Int) (s : State) (hv : int_variable s name mods n)
    (hok1 : node_ok id1 s) (hok2 : node_ok id2 s) :
    (∃ s', evaluate_expression_int MAX_VARS (post_increment_plus name vt m id1 id2) s
            = .ok (wrap32 (n + wrap32 (n + 1))) s'
          ∧ int_variable s' name mods (wrap32 (n + 1)))
      ∧ (INT_MIN ≤ n + (n + 1) → n + (n + 1) ≤ INT_MAX → INT_MIN ≤ n → n ≤ INT_MAX →
          wrap32 (n + wrap32 (n + 1)) = n + (n + 1))
      ∧ (∀ (op : OperatorType) (left right : ASTNode) (m3 : TypeModifiers) (t t1 : State)
            (a : Int),
          evaluate_expression_int MAX_VARS left t = .ok a t1 →
          evaluate_expression_int MAX_VARS (.NODE_OPERATION op left right m3) t
            = (evaluate_expression_int MAX_VARS right t1).bind fun b t2 =>
                int_operation_result op m3.is_unsigned a b t2) := by
  refine ⟨?_, ?_, ?_⟩
  · obtain ⟨_, hpost, _, _⟩ :=
      evaluate_expression_int_step MAX_VARS id1 name vt m m mods n s hv hok1
    have hv1 := int_variable_set_variable_value MAX_VARS name mods n (wrap32 (n + 1)) _
      (int_variable_mark_valid id1 hv)
    have hok2' : node_ok id2
        (set_variable_value MAX_VARS name (.int (wrap32 (n + 1))) mods (mark_valid id1 s)) :=
      node_ok_of_checked (s := mark_valid id1 s) rfl (node_ok_mark_valid id1 hok2)
    refine ⟨_, ?_, int_variable_mark_valid id2 hv1⟩
    rw [post_increment_plus,
      evaluate_expression_int_operation MAX_VARS .OP_PLUS _ _ m s (by decide) (by decide),
      hpost, Res.bind_ok,
      evaluate_expression_int_int_variable MAX_VARS id2 name vt m mods _ _ hv1 hok2']
    rfl
  · intro h1 h2 h3 h4
    have h5 : INT_MIN ≤ n + 1 := by unfold INT_MIN at *; omega
    have h6 : n + 1 ≤ INT_MAX := by unfold INT_MIN INT_MAX at *; omega
    rw [wrap32_of_int h5 h6, wrap32_of_int h1 h2]
  · intro op left right m3 t t1 a hl
    by_cases hand : op = .OP_AND
    · subst hand
      simp [evaluate_expression_int, hl, int_operation_result]
    · by_cases hor : op = .OP_OR
      · subst hor
        simp [evaluate_expression_int, hl, int_operation_result]
      · rw [evaluate_expression_int_operation MAX_VARS op _ _ m3 t hand hor, hl, Res.bind_ok]
        simp [int_operation_result, hand, hor]

theorem C8_left_to_right_witness :
    (∃ s', evaluate_expression_int 100 (post_increment_plus "x" .NONE no_modifiers 1 2)
              (state_with_x 5) = .ok (wrap32 (5 + wrap32 (5 + 1))) s'
          ∧ int_variable s' "x" no_modifiers (wrap32 (5 + 1)))
      ∧ wrap32 (5 + wrap32 (5 + 1)) = 5 + (5 + 1)
      ∧ evaluate_expression_int 100
          (.NODE_OPERATION .OP_MINUS
            (.NODE_UNARY_OPERATION .OP_PRE_INC (.NODE_IDENTIFIER 1 "x" .NONE no_modifiers)
              no_modifiers)
            (.NODE_IDENTIFIER 2 "x" .NONE no_modifiers) no_modifiers) (state_with_x 5)
        = (evaluate_expression_int 100 (.NODE_IDENTIFIER 2 "x" .NONE no_modifiers)
            (set_variable_value 100 "x" (.int 6) no_modifiers
              (mark_valid 1 (state_with_x 5)))).bind fun b t2 =>
              int_operation_result .OP_MINUS false 6 b t2 :=
  ⟨(C8_left_to_right 100 1 2 "x" .NONE no_modifiers no_modifiers 5 (state_with_x 5)
      (by unfold int_variable; decide) (by unfold node_ok; decide)
      (by unfold node_ok; decide)).1,
   (C8_left_to_right 100 1 2 "x" .NONE no_modifiers no_modifiers 5 (state_with_x 5)
      (by unfold int_variable; decide) (by unfold node_ok; decide)
      (by unfold node_ok; decide)).2.1 (by decide) (by decide) (by decide) (by decide),
   (C8_left_to_right 100 1 2 "x" .NONE no_modifiers no_modifiers 5 (state_with_x 5)
      (by unfold int_variable; decide) (by unfold node_ok; decide)
      (by unfold node_ok; decide)).2.2 .OP_MINUS _ _ no_modifiers (state_with_x 5) _ 6
      (by decide)⟩

/-- C9: an `OP_AND` or `OP_OR` node evaluates both operands, left then right, once each,
whatever the value of the left operand: the state after the node is the state after the right
operand, evaluated from the state left by the left operand, and the result is 1 (in boolean
context, true) exactly when the conjunction, respectively disjunction, of the two operand
values being non-zero holds. In integer context `0 && x++` and `1 || x++` increment `x`. -/
theorem C9_and_or_evaluate_both_operands (MAX_VARS : Nat) (left right : ASTNode)
    (m : TypeModifiers) (s : State) :
    (∀ (a b : Int) (s1 s2 : State),
        evaluate_expression_int MAX_VARS left s = .ok a s1 →
        evaluate_expression_int MAX_VARS right s1 = .ok b s2 →
        evaluate_expression_int MAX_VARS (.NODE_OPERATION .OP_AND left right m) s
            = .ok (if a ≠ 0 ∧ b ≠ 0 then 1 else 0) s2
          ∧ evaluate_expression_int MAX_VARS (.NODE_OPERATION .OP_OR left right m) s
            = .ok (if a ≠ 0 ∨ b ≠ 0 then 1 else 0) s2)
      ∧ (∀ (a b : Bool) (s1 s2 : State),
        evaluate_expression_bool left s = .ok a s1 →
        evaluate_expression_bool right s1 = .ok b s2 →
        evaluate_expression_bool (.NODE_OPERATION .OP_AND left right m) s = .ok (a && b) s2
          ∧ evaluate_expression_bool (.NODE_OPERATION .OP_OR left right m) s
            = .ok (a || b) s2)
      ∧ (∀ (id : Nat) (name : String) (vt : VarType) (mods : TypeModifiers) (n : Int),
        int_variable s name mods n → node_ok id s → INT_MIN ≤ n → n + 1 ≤ INT_MAX →
        (∃ s', evaluate_expression_int MAX_VARS
                (.NODE_OPERATION .OP_AND (.NODE_INT 0 m)
                  (.NODE_UNARY_OPERATION .OP_POST_INC (.NODE_IDENTIFIER id name vt m) m) m) s
              = .ok 0 s'
            ∧ int_variable s' name mods (n + 1))
          ∧ (∃ s', evaluate_expression_int MAX_VARS
                (.NODE_OPERATION .OP_OR (.NODE_INT 1 m)
                  (.NODE_UNARY_OPERATION .OP_POST_INC (.NODE_IDENTIFIER id name vt m) m) m) s
              = .ok 1 s'
            ∧ int_variable s' name mods (n + 1))) := by
  have hgen : ∀ (l r : ASTNode) (a b : Int) (s1 s2 : State),
      evaluate_expression_int MAX_VARS l s = .ok a s1 →
      evaluate_expression_int MAX_VARS r s1 = .ok b s2 →
      evaluate_expression_int MAX_VARS (.NODE_OPERATION .OP_AND l r m) s
          = .ok (if a ≠ 0 ∧ b ≠ 0 then 1 else 0) s2
        ∧ evaluate_expression_int MAX_VARS (.NODE_OPERATION .OP_OR l r m) s
          = .ok (if a ≠ 0 ∨ b ≠ 0 then 1 else 0) s2 := by
    intro l r a b s1 s2 hl hr
    constructor
    · by_cases ha : a = 0 <;> by_cases hb : b = 0 <;>
        simp [evaluate_expression_int, hl, hr, bool_to_int, ha, hb]
    · by_cases ha : a = 0 <;> by_cases hb : b = 0 <;>
        simp [evaluate_expression_int, hl, hr, bool_to_int, ha, hb]
  refine ⟨hgen left right, ?_, ?_⟩
  · intro a b s1 s2 hl hr
    constructor <;> simp [evaluate_expression_bool, hl, hr]
  · intro id name vt mods n hv hok hlo hhi
    obtain ⟨_, hpost, _, _⟩ :=
      evaluate_expression_int_step MAX_VARS id name vt m m mods n s hv hok
    have hinc : wrap32 (n + 1) = n + 1 :=
      wrap32_of_int (by unfold INT_MIN at *; omega) hhi
    rw [hinc] at hpost
    have hv1 := int_variable_set_variable_value MAX_VARS name mods n (n + 1) _
      (int_variable_mark_valid id hv)
    constructor
    · refine ⟨_, ?_, hv1⟩
      have := (hgen (.NODE_INT 0 m) _ 0 n s _ (evaluate_expression_int_int MAX_VARS 0 m s)
        hpost).1
      simpa using this
    · refine ⟨_, ?_, hv1⟩
      have := (hgen (.NODE_INT 1 m) _ 1 n s _ (evaluate_expression_int_int MAX_VARS 1 m s)
        hpost).2
      simpa using this

theorem C9_and_or_evaluate_both_operands_witness :
    (evaluate_expression_int 100
          (.NODE_OPERATION .OP_AND (.NODE_INT 0 no_modifiers) (.NODE_INT 7 no_modifiers)
            no_modifiers) (state_with_x 5) = .ok (if (0 : Int) ≠ 0 ∧ (7 : Int) ≠ 0 then 1 else 0)
              (state_with_x 5)
        ∧ evaluate_expression_int 100
          (.NODE_OPERATION .OP_OR (.NODE_INT 0 no_modifiers) (.NODE_INT 7 no_modifiers)
            no_modifiers) (state_with_x 5) = .ok (if (0 : Int) ≠ 0 ∨ (7 : Int) ≠ 0 then 1 else 0)
              (state_with_x 5))
      ∧ (evaluate_expression_bool
          (.NODE_OPERATION .OP_AND (.NODE_INT 0 no_modifiers) (.NODE_INT 7 no_modifiers)
            no_modifiers) (state_with_x 5) = .ok (false && true) (state_with_x 5)
        ∧ evaluate_expression_bool
          (.NODE_OPERATION .OP_OR (.NODE_INT 0 no_modifiers) (.NODE_INT 7 no_modifiers)
            no_modifiers) (state_with_x 5) = .ok (false || true) (state_with_x 5))
      ∧ ((∃ s', evaluate_expression_int 100
                (.NODE_OPERATION .OP_AND (.NODE_INT 0 no_modifiers)
                  (.NODE_UNARY_OPERATION .OP_POST_INC
                    (.NODE_IDENTIFIER 1 "x" .NONE no_modifiers) no_modifiers) no_modifiers)
                (state_with_x 5) = .ok 0 s'
            ∧ int_variable s' "x" no_modifiers (5 + 1))
          ∧ (∃ s', evaluate_expression_int 100
                (.NODE_OPERATION .OP_OR (.NODE_INT 1 no_modifiers)
                  (.NODE_UNARY_OPERATION .OP_POST_INC
                    (.NODE_IDENTIFIER 1 "x" .NONE no_modifiers) no_modifiers) no_modifiers)
                (state_with_x 5) = .ok 1 s'
            ∧ int_variable s' "x" no_modifiers (5 + 1))) :=
  ⟨(C9_and_or_evaluate_both_operands 100 (.NODE_INT 0 no_modifiers) (.NODE_INT 7 no_modifiers)
      no_modifiers (state_with_x 5)).1 0 7 (state_with_x 5) (state_with_x 5) rfl rfl,
   (C9_and_or_evaluate_both_operands 100 (.NODE_INT 0 no_modifiers) (.NODE_INT 7 no_modifiers)
      no_modifiers (state_with_x 5)).2.1 false true (state_with_x 5) (state_with_x 5) rfl rfl,
   (C9_and_or_evaluate_both_operands 100 (.NODE_INT 0 no_modifiers) (.NODE_INT 7 no_modifiers)
      no_modifiers (state_with_x 5)).2.2 1 "x" .NONE no_modifiers 5
      (by unfold int_variable; decide) (by unfold node_ok; decide) (by decide) (by decide)⟩

/-! ## Type inference -/

/-- C10, as stated, fails: on `16777217.0 + 0.0f`, a tree with a double literal and a float
literal, `evaluate_expression` takes the float path (the result is 16777216, the double path
gives 16777217), and the assignment `x = 16777217.0 + 0.0f` records the kind float. -/
theorem C10_float_wins_over_double :
    evaluate_expression 100 double_plus_float State.initial = .ok 16777216 State.initial
      ∧ ((evaluate_expression_double 100 double_plus_float State.initial).bind
          fun v s => Res.ofOption (binary64.toInt v) s) = .ok 16777217 State.initial
      ∧ execute_statement 100 assign_double_plus_float 10 State.initial
          = .ok () { State.initial with
              symbol_table := [⟨"x", .VAR_FLOAT, no_modifiers, .fvalue 0x4b800000⟩] } := by
  refine ⟨by decide!, by decide!, by decide!⟩

theorem resolves_like_refl (s : State) : resolves_like s s := ⟨rfl, fun _ h => h⟩

theorem resolves_like_mark_valid {s t : State} (id : Nat) (h : resolves_like s t) :
    resolves_like s (mark_valid id t) :=
  ⟨by simpa using h.1, fun id' hid => node_ok_mark_valid id (h.2 id' hid)⟩

/-- On a tree of resolved leaves the float pre-pass returns, with the answer "the tree has a
float-kind leaf", and at most marks identifier nodes as resolved. -/
theorem is_float_expression_leaf_tree {s : State} {e : ASTNode} (h : LeafTree s e) :
    ∀ t, resolves_like s t →
      ∃ t', is_float_expression e t = .ok (has_float_leaf s.symbol_table e) t'
        ∧ resolves_like s t' := by
  induction h with
  | int n m => intro t ht; exact ⟨t, by simp [has_float_leaf], ht⟩
  | float f m => intro t ht; exact ⟨t, by simp [is_float_expression, has_float_leaf], ht⟩
  | double d m => intro t ht; exact ⟨t, by simp [is_float_expression, has_float_leaf], ht⟩
  | identifier id name vt m v hf hok =>
    intro t ht
    have hft : find_variable t.symbol_table name = some v := by rw [ht.1]; exact hf
    refine ⟨mark_valid id t, ?_, resolves_like_mark_valid id ht⟩
    simp [is_float_expression, check_and_mark_identifier_found id name _ t v hft (ht.2 id hok),
      hft, has_float_leaf, hf]
  | operation op left right m _ _ ihl ihr =>
    intro t ht
    obtain ⟨t1, h1, ht1⟩ := ihl t ht
    rw [is_float_expression_operation, h1, Res.bind_ok]
    cases hl : has_float_leaf s.symbol_table left with
    | true => exact ⟨t1, by simp [has_float_leaf, hl], ht1⟩
    | false =>
      obtain ⟨t2, h2, ht2⟩ := ihr t1 ht1
      exact ⟨t2, by simp [has_float_leaf, hl, h2], ht2⟩

/-- On a tree of resolved leaves the double pre-pass returns, with the answer "the tree has a
double-kind leaf", and at most marks identifier nodes as resolved. -/
theorem is_double_expression_leaf_tree {s : State} {e : ASTNode} (h : LeafTree s e) :
    ∀ t, resolves_like s t →
      ∃ t', is_double_expression e t = .ok (has_double_leaf s.symbol_table e) t'
        ∧ resolves_like s t' := by
  induction h with
  | int n m => intro t ht; exact ⟨t, by simp [has_double_leaf], ht⟩
  | float f m => intro t ht; exact ⟨t, by simp [is_double_expression, has_double_leaf], ht⟩
  | double d m => intro t ht; exact ⟨t, by simp [is_double_expression, has_double_leaf], ht⟩
  | identifier id name vt m v hf hok =>
    intro t ht
    have hft : find_variable t.symbol_table name = some v := by rw [ht.1]; exact hf
    refine ⟨mark_valid id t, ?_, resolves_like_mark_valid id ht⟩
    simp [is_double_expression, check_and_mark_identifier_found id name _ t v hft (ht.2 id hok),
      hft, has_double_leaf, hf]
  | operation op left right m _ _ ihl ihr =>
    intro t ht
    obtain ⟨t1, h1, ht1⟩ := ihl t ht
    rw [is_double_expression_operation, h1, Res.bind_ok]
    cases hl : has_double_leaf s.symbol_table left with
    | true => exact ⟨t1, by simp [has_double_leaf, hl], ht1⟩
    | false =>
      obtain ⟨t2, h2, ht2⟩ := ihr t1 ht1
      exact ⟨t2, by simp [has_double_leaf, hl, h2], ht2⟩

/-- The `NODE_ASSIGNMENT` case of `execute_statement` for a right-hand side that is a tree of
leaves: the kind is chosen by the float pre-pass first, then by the double pre-pass. -/
theorem execute_assignment_leaf_tree (MAX_VARS fuel idx : Nat) (x : String) (vt : VarType)
    (mx mods : TypeModifiers) {s : State} {e : ASTNode} (h : LeafTree s e) :
    execute_statement MAX_VARS (.NODE_ASSIGNMENT (.NODE_IDENTIFIER idx x vt mx) e mods) fuel s
      = (is_float_expression e s).bind fun is_float s1 =>
        if is_float then
          (evaluate_expression_float MAX_VARS e s1).bind fun value s2 =>
          assign_variable MAX_VARS (.NODE_IDENTIFIER idx x vt mx) (.float value) .VAR_FLOAT mods
            "Failed to set float variable" s2
        else
          (is_double_expression e s1).bind fun is_double s2 =>
          if is_double then
            (evaluate_expression_double MAX_VARS e s2).bind fun value s3 =>
            assign_variable MAX_VARS (.NODE_IDENTIFIER idx x vt mx) (.double value) .VAR_DOUBLE
              mods "Failed to set double variable" s3
          else
            (evaluate_expression_int MAX_VARS e s2).bind fun value s3 =>
            assign_variable MAX_VARS (.NODE_IDENTIFIER idx x vt mx) (.int value) .VAR_INT mods
              "Failed to set integer variable" s3 := by
  cases h <;> simp only [execute_statement]

/-- C10 (amended): the float pre-pass is consulted before the double pre-pass. For every
tree built by binary-operation nodes from literals and resolved variables that contains a
float-kind leaf, `evaluate_expression` takes the float evaluation path for the whole tree,
also when the tree contains a double-kind leaf, and assigning the tree to a variable records
the kind float; the double path and the kind double are taken when the tree contains a
double-kind leaf and no float-kind leaf. -/
theorem C10_float_checked_before_double (MAX_VARS fuel idx : Nat) (x : String) (vt : VarType)
    (mx mods : TypeModifiers) (s : State) (e : ASTNode) (h : LeafTree s e) :
    (has_float_leaf s.symbol_table e = true →
      ∃ s1, is_float_expression e s = .ok true s1
        ∧ evaluate_expression MAX_VARS e s
          = ((evaluate_expression_float MAX_VARS e s1).bind
              fun v s2 => Res.ofOption (binary32.toInt v) s2)
        ∧ execute_statement MAX_VARS
            (.NODE_ASSIGNMENT (.NODE_IDENTIFIER idx x vt mx) e mods) fuel s
          = ((evaluate_expression_float MAX_VARS e s1).bind fun v s2 =>
              assign_variable MAX_VARS (.NODE_IDENTIFIER idx x vt mx) (.float v) .VAR_FLOAT mods
                "Failed to set float variable" s2))
      ∧ (has_float_leaf s.symbol_table e = false → has_double_leaf s.symbol_table e = true →
        ∃ s1 s2, is_float_expression e s = .ok false s1
          ∧ is_double_expression e s1 = .ok true s2
          ∧ evaluate_expression MAX_VARS e s
            = ((evaluate_expression_double MAX_VARS e s2).bind
                fun v s3 => Res.ofOption (binary64.toInt v) s3)
          ∧ execute_statement MAX_VARS
              (.NODE_ASSIGNMENT (.NODE_IDENTIFIER idx x vt mx) e mods) fuel s
            = ((evaluate_expression_double MAX_VARS e s2).bind fun v s3 =>
                assign_variable MAX_VARS (.NODE_IDENTIFIER idx x vt mx) (.double v) .VAR_DOUBLE
                  mods "Failed to set double variable" s3))
      ∧ (∀ (t : State),
          ((∀ v : F32, (set_variable MAX_VARS x (.float v) .VAR_FLOAT mods t.symbol_table).1 = true →
            ∃ t', assign_variable MAX_VARS (.NODE_IDENTIFIER idx x vt mx) (.float v) .VAR_FLOAT
                    mods "Failed to set float variable" t = .ok () t'
              ∧ find_variable t'.symbol_table x = some ⟨x, .VAR_FLOAT, mods, .fvalue v⟩)
          ∧ (∀ v : F64,
            (set_variable MAX_VARS x (.double v) .VAR_DOUBLE mods t.symbol_table).1 = true →
            ∃ t', assign_variable MAX_VARS (.NODE_IDENTIFIER idx x vt mx) (.double v) .VAR_DOUBLE
                    mods "Failed to set double variable" t = .ok () t'
              ∧ find_variable t'.symbol_table x = some ⟨x, .VAR_DOUBLE, mods, .dvalue v⟩))) := by
  obtain ⟨s1, hf1, hs1⟩ := is_float_expression_leaf_tree h s (resolves_like_refl s)
  obtain ⟨s2, hd2, _⟩ := is_double_expression_leaf_tree h s1 hs1
  refine ⟨?_, ?_, ?_⟩
  · intro hfl
    rw [hfl] at hf1
    refine ⟨s1, hf1, ?_, ?_⟩
    · simp [evaluate_expression, hf1]
    · rw [execute_assignment_leaf_tree MAX_VARS fuel idx x vt mx mods h, hf1]
      simp
  · intro hfl hdl
    rw [hfl] at hf1
    rw [hdl] at hd2
    refine ⟨s1, s2, hf1, hd2, ?_, ?_⟩
    · simp [evaluate_expression, hf1, hd2]
    · rw [execute_assignment_leaf_tree MAX_VARS fuel idx x vt mx mods h, hf1]
      simp [hd2]
  · intro t
    constructor
    · intro v hset
      refine ⟨{ t with symbol_table :=
          (set_variable MAX_VARS x (.float v) .VAR_FLOAT mods t.symbol_table).2 }, ?_, ?_⟩
      · simp [assign_variable, ASTNode.data_name, Res.ofOption, hset]
      · exact find_variable_set_variable MAX_VARS x (.float v) .VAR_FLOAT mods (.fvalue v)
          t.symbol_table rfl hset
    · intro v hset
      refine ⟨{ t with symbol_table :=
          (set_variable MAX_VARS x (.double v) .VAR_DOUBLE mods t.symbol_table).2 }, ?_, ?_⟩
      · simp [assign_variable, ASTNode.data_name, Res.ofOption, hset]
      · exact find_variable_set_variable MAX_VARS x (.double v) .VAR_DOUBLE mods (.dvalue v)
          t.symbol_table rfl hset

theorem C10_float_checked_before_double_witness :
    ∃ s1, is_float_expression double_plus_float State.initial = .ok true s1
      ∧ evaluate_expression 100 double_plus_float State.initial
        = ((evaluate_expression_float 100 double_plus_float s1).bind
            fun v s2 => Res.ofOption (binary32.toInt v) s2)
      ∧ execute_statement 100
          (.NODE_ASSIGNMENT (.NODE_IDENTIFIER 0 "x" .NONE no_modifiers) double_plus_float
            no_modifiers) 10 State.initial
        = ((evaluate_expression_float 100 double_plus_float s1).bind fun v s2 =>
            assign_variable 100 (.NODE_IDENTIFIER 0 "x" .NONE no_modifiers) (.float v) .VAR_FLOAT
              no_modifiers "Failed to set float variable" s2) :=
  (C10_float_checked_before_double 100 10 0 "x" .NONE no_modifiers no_modifiers State.initial
    double_plus_float
    (LeafTree.operation _ _ _ _ (LeafTree.double _ _) (LeafTree.float _ _))).1 rfl

/-- Induction over the expression structure of a node: binary and unary operation nodes are
the only ones through which the evaluators descend. -/
theorem ASTNode.expression_induction {P : ASTNode → Prop}
    (hop : ∀ op left right m, P left → P right → P (.NODE_OPERATION op left right m))
    (hun : ∀ op operand m, P operand → P (.NODE_UNARY_OPERATION op operand m))
    (hleaf : ∀ e, (∀ op left right m, e ≠ .NODE_OPERATION op left right m) →
      (∀ op operand m, e ≠ .NODE_UNARY_OPERATION op operand m) → P e) :
    ∀ e, P e := by
  intro e
  refine ASTNode.rec (motive_1 := P) (motive_2 := fun _ => True) (motive_3 := fun _ => True)
    (motive_4 := fun _ => True) ?_ ?_ ?_ ?_ ?_ ?_ ?_ ?_ ?_ ?_ ?_ ?_ ?_ ?_ ?_ ?_ ?_ ?_ ?_ ?_ ?_
    ?_ ?_ ?_ ?_ ?_ ?_ e
  all_goals first
    | exact trivial
    | (intros; exact trivial)
    | (intro op left right m hl hr; exact hop op left right m hl hr)
    | (intro op operand m ho; exact hun op operand m ho)
    | (intros; apply hleaf <;> intros <;> simp)

/-! ## The upsert -/

/-- C14: lookup after upsert. For the kinds int, float, double and bool, when `set_variable`
returns true the first entry called `name` has exactly the kind, the qualifiers and the
value passed, whether the name was new or already in the table. -/
theorem C14_lookup_after_upsert (MAX_VARS : Nat) (name : String) (mods : TypeModifiers)
    (tbl : List Variable) :
    (∀ i : Int, (set_variable MAX_VARS name (.int i) .VAR_INT mods tbl).1 = true →
        find_variable (set_variable MAX_VARS name (.int i) .VAR_INT mods tbl).2 name
          = some ⟨name, .VAR_INT, mods, .ivalue i⟩)
      ∧ (∀ f : F32, (set_variable MAX_VARS name (.float f) .VAR_FLOAT mods tbl).1 = true →
        find_variable (set_variable MAX_VARS name (.float f) .VAR_FLOAT mods tbl).2 name
          = some ⟨name, .VAR_FLOAT, mods, .fvalue f⟩)
      ∧ (∀ d : F64, (set_variable MAX_VARS name (.double d) .VAR_DOUBLE mods tbl).1 = true →
        find_variable (set_variable MAX_VARS name (.double d) .VAR_DOUBLE mods tbl).2 name
          = some ⟨name, .VAR_DOUBLE, mods, .dvalue d⟩)
      ∧ (∀ b : Bool, (set_variable MAX_VARS name (.bool b) .VAR_BOOL mods tbl).1 = true →
        find_variable (set_variable MAX_VARS name (.bool b) .VAR_BOOL mods tbl).2 name
          = some ⟨name, .VAR_BOOL, mods, .bvalue b⟩)
      ∧ (∀ i : Int, (set_int_variable MAX_VARS name i mods tbl).1 = true →
        find_variable (set_int_variable MAX_VARS name i mods tbl).2 name
          = some ⟨name, .VAR_INT, mods, .ivalue i⟩) :=
  ⟨fun _ h => find_variable_set_variable MAX_VARS name _ _ mods _ tbl rfl h,
   fun _ h => find_variable_set_variable MAX_VARS name _ _ mods _ tbl rfl h,
   fun _ h => find_variable_set_variable MAX_VARS name _ _ mods _ tbl rfl h,
   fun _ h => find_variable_set_variable MAX_VARS name _ _ mods _ tbl rfl h,
   fun _ h => find_variable_set_variable MAX_VARS name _ _ mods _ tbl rfl h⟩

theorem C14_lookup_after_upsert_witness :
    find_variable (set_variable 2 "x" (.int 7) .VAR_INT no_modifiers
        [⟨"y", .VAR_BOOL, no_modifiers, .bvalue true⟩,
         ⟨"x", .VAR_DOUBLE, no_modifiers, .dvalue 0⟩]).2 "x"
        = some ⟨"x", .VAR_INT, no_modifiers, .ivalue 7⟩
      ∧ find_variable (set_variable 2 "z" (.float 0x3fc00000) .VAR_FLOAT no_modifiers
        [⟨"y", .VAR_BOOL, no_modifiers, .bvalue true⟩]).2 "z"
        = some ⟨"z", .VAR_FLOAT, no_modifiers, .fvalue 0x3fc00000⟩ :=
  ⟨(C14_lookup_after_upsert 2 "x" no_modifiers
      [⟨"y", .VAR_BOOL, no_modifiers, .bvalue true⟩,
       ⟨"x", .VAR_DOUBLE, no_modifiers, .dvalue 0⟩]).1 7 (by decide),
   (C14_lookup_after_upsert 2 "z" no_modifiers
      [⟨"y", .VAR_BOOL, no_modifiers, .bvalue true⟩]).2.1 0x3fc00000 (by decide)⟩

/-- The first loop of `set_variable` rewrites the entry at the first index whose name is
`name`, and no other. -/
theorem update_existing_eq_set {name : String} (value : CObject) (type : VarType)
    (mods : TypeModifiers) :
    ∀ {tbl : List Variable} {v : Variable}, find_variable tbl name = some v →
      ∃ i, tbl[i]? = some v
        ∧ (∀ j w, j < i → tbl[j]? = some w → w.name ≠ name)
        ∧ update_existing name value type mods tbl
            = some (tbl.set i ⟨name, type, mods, (read_object type value).getD v.value⟩) := by
  intro tbl
  induction tbl with
  | nil => intro v h; simp [find_variable] at h
  | cons w rest ih =>
    intro v h
    by_cases hw : w.name = name
    · have hv : w = v := by simpa [find_variable, List.find?, hw] using h
      subst hv
      exact ⟨0, by simp, by intro j w hj; omega, by simp [update_existing, hw]⟩
    · have h1 : find_variable rest name = some v := by
        simpa [find_variable, List.find?, hw] using h
      obtain ⟨i, h2, h3, h4⟩ := ih h1
      refine ⟨i + 1, by simpa using h2, ?_, by simp [update_existing, hw, h4]⟩
      intro j u hj hu
      cases j with
      | zero =>
        have : w = u := by simpa using hu
        rw [← this]; exact hw
      | succ j => exact h3 j u (by omega) (by simpa using hu)

/-- C15: `set_variable` changes at most one entry. Every entry whose name differs from
`name` keeps its content and its index; a name that is in the table is updated in place, at
the first index that holds it, with `var_count` unchanged and every other index untouched;
a name that is not in the table is appended at index `var_count`, which grows by exactly 1
(when the table is full nothing changes). -/
theorem C15_upsert_changes_one_entry (MAX_VARS : Nat) (name : String) (value : CObject)
    (type : VarType) (mods : TypeModifiers) (tbl : List Variable) :
    (∀ (i : Nat) (v : Variable), tbl[i]? = some v → v.name ≠ name →
        (set_variable MAX_VARS name value type mods tbl).2[i]? = some v)
      ∧ (∀ v : Variable, find_variable tbl name = some v →
        (set_variable MAX_VARS name value type mods tbl).2.length = tbl.length
          ∧ ∃ i, tbl[i]? = some v
            ∧ (∀ (j : Nat) (w : Variable), j < i → tbl[j]? = some w → w.name ≠ name)
            ∧ (set_variable MAX_VARS name value type mods tbl).2[i]?
                = some (⟨name, type, mods, (read_object type value).getD v.value⟩ : Variable)
            ∧ ∀ j : Nat, j ≠ i → (set_variable MAX_VARS name value type mods tbl).2[j]? = tbl[j]?)
      ∧ (find_variable tbl name = Option.none → tbl.length < MAX_VARS →
        (set_variable MAX_VARS name value type mods tbl).2
            = tbl ++ [⟨name, type, mods, (read_object type value).getD .indeterminate⟩]
          ∧ (set_variable MAX_VARS name value type mods tbl).2.length = tbl.length + 1
          ∧ (set_variable MAX_VARS name value type mods tbl).2[tbl.length]?
              = some (⟨name, type, mods, (read_object type value).getD .indeterminate⟩ : Variable))
      ∧ (find_variable tbl name = Option.none → ¬ tbl.length < MAX_VARS →
        (set_variable MAX_VARS name value type mods tbl).2 = tbl) := by
  have hpresent : ∀ v : Variable, find_variable tbl name = some v →
      (set_variable MAX_VARS name value type mods tbl).2.length = tbl.length
        ∧ ∃ i, tbl[i]? = some v
          ∧ (∀ (j : Nat) (w : Variable), j < i → tbl[j]? = some w → w.name ≠ name)
          ∧ (set_variable MAX_VARS name value type mods tbl).2[i]?
              = some (⟨name, type, mods, (read_object type value).getD v.value⟩ : Variable)
          ∧ ∀ j : Nat, j ≠ i → (set_variable MAX_VARS name value type mods tbl).2[j]? = tbl[j]? := by
    intro v hf
    obtain ⟨i, h1, h2, h3⟩ := update_existing_eq_set value type mods hf
    have hi : i < tbl.length := by
      rcases Nat.lt_or_ge i tbl.length with h | h
      · exact h
      · rw [List.getElem?_eq_none h] at h1; cases h1
    refine ⟨by simp [set_variable, h3], i, h1, h2, ?_, ?_⟩
    · simp [set_variable, h3, List.getElem?_set, hi]
    · intro j hj
      simp [set_variable, h3, List.getElem?_set, Ne.symm hj]
  have habsent : find_variable tbl name = Option.none → tbl.length < MAX_VARS →
      (set_variable MAX_VARS name value type mods tbl).2
        = tbl ++ [⟨name, type, mods, (read_object type value).getD .indeterminate⟩] := by
    intro hf hroom
    simp [set_variable, update_existing_of_not_found value type mods hf, hroom]
  refine ⟨?_, hpresent, ?_, ?_⟩
  · intro i v hi hne
    cases hf : find_variable tbl name with
    | some w =>
      obtain ⟨_, k, hk, _, _, hother⟩ := hpresent w hf
      have hik : i ≠ k := by
        intro h
        rw [h, hk] at hi
        have hw : w = v := by simpa using hi
        exact hne (hw ▸ find_variable_name hf)
      rw [hother i hik, hi]
    | none =>
      by_cases hroom : tbl.length < MAX_VARS
      · rw [habsent hf hroom]
        have hlt : i < tbl.length := by
          rcases Nat.lt_or_ge i tbl.length with h | h
          · exact h
          · rw [List.getElem?_eq_none h] at hi; cases hi
        rw [List.getElem?_append_left hlt, hi]
      · simp [set_variable, update_existing_of_not_found value type mods hf, hroom, hi]
  · intro hf hroom
    rw [habsent hf hroom]
    simp
  · intro hf hroom
    simp [set_variable, update_existing_of_not_found value type mods hf, hroom]

theorem C15_upsert_changes_one_entry_witness :
    (set_variable 3 "x" (.int 7) .VAR_INT no_modifiers
        [⟨"y", .VAR_BOOL, no_modifiers, .bvalue true⟩,
         ⟨"x", .VAR_DOUBLE, no_modifiers, .dvalue 0⟩]).2[0]?
        = some ⟨"y", .VAR_BOOL, no_modifiers, .bvalue true⟩
      ∧ (set_variable 3 "z" (.int 7) .VAR_INT no_modifiers
          [⟨"y", .VAR_BOOL, no_modifiers, .bvalue true⟩,
           ⟨"x", .VAR_DOUBLE, no_modifiers, .dvalue 0⟩]).2
        = [⟨"y", .VAR_BOOL, no_modifiers, .bvalue true⟩,
           ⟨"x", .VAR_DOUBLE, no_modifiers, .dvalue 0⟩]
          ++ [⟨"z", .VAR_INT, no_modifiers, (read_object .VAR_INT (.int 7)).getD .indeterminate⟩] :=
  ⟨(C15_upsert_changes_one_entry 3 "x" (.int 7) .VAR_INT no_modifiers
      [⟨"y", .VAR_BOOL, no_modifiers, .bvalue true⟩,
       ⟨"x", .VAR_DOUBLE, no_modifiers, .dvalue 0⟩]).1 0 _ rfl (by decide),
   ((C15_upsert_changes_one_entry 3 "z" (.int 7) .VAR_INT no_modifiers
      [⟨"y", .VAR_BOOL, no_modifiers, .bvalue true⟩,
       ⟨"x", .VAR_DOUBLE, no_modifiers, .dvalue 0⟩]).2.2.1 (by decide) (by decide)).1⟩

theorem find_variable_isSome_iff_mem (tbl : List Variable) (name : String) :
    (find_variable tbl name).isSome = true ↔ name ∈ table_names tbl := by
  induction tbl with
  | nil => simp [find_variable, table_names]
  | cons w rest ih =>
    by_cases hw : w.name = name
    · simp [find_variable, List.find?, table_names, hw]
    · have : (find_variable (w :: rest) name) = find_variable rest name := by
        simp [find_variable, List.find?, hw]
      rw [this, ih]
      simp [table_names, Ne.symm hw]

theorem find_variable_none_iff_not_mem (tbl : List Variable) (name : String) :
    find_variable tbl name = Option.none ↔ name ∉ table_names tbl := by
  rw [← find_variable_isSome_iff_mem]
  cases find_variable tbl name <;> simp

/-- C16: in a table within its capacity, `set_variable` returns false exactly when the name
is not in the table and `var_count` equals `MAX_VARS`; the table is then unchanged (and
the function, working on the table alone, reports nothing); in every other case, the update
of a name already present in a full table included, it returns true. -/
theorem C16_upsert_fails_only_when_full (MAX_VARS : Nat) (name : String) (value : CObject)
    (type : VarType) (mods : TypeModifiers) (tbl : List Variable)
    (hcap : tbl.length ≤ MAX_VARS) :
    ((set_variable MAX_VARS name value type mods tbl).1 = false
        ↔ (find_variable tbl name = Option.none ∧ tbl.length = MAX_VARS))
      ∧ ((set_variable MAX_VARS name value type mods tbl).1 = false →
          (set_variable MAX_VARS name value type mods tbl).2 = tbl)
      ∧ (∀ v, find_variable tbl name = some v →
          (set_variable MAX_VARS name value type mods tbl).1 = true) := by
  cases hf : find_variable tbl name with
  | some v =>
    have h := set_variable_of_find MAX_VARS name value type mods hf
    simp [h]
  | none =>
    have h1 := update_existing_of_not_found value type mods hf
    by_cases hroom : tbl.length < MAX_VARS
    · have hne : tbl.length ≠ MAX_VARS := by omega
      simp [set_variable, h1, hroom, hne]
    · have heq : tbl.length = MAX_VARS := by omega
      simp [set_variable, h1, hroom, heq]

theorem C16_upsert_fails_only_when_full_witness :
    ((set_variable 1 "x" (.int 7) .VAR_INT no_modifiers
          [⟨"y", .VAR_BOOL, no_modifiers, .bvalue true⟩]).1 = false
        ↔ (find_variable [⟨"y", .VAR_BOOL, no_modifiers, .bvalue true⟩] "x" = Option.none
            ∧ [(⟨"y", .VAR_BOOL, no_modifiers, .bvalue true⟩ : Variable)].length = 1))
      ∧ ((set_variable 1 "x" (.int 7) .VAR_INT no_modifiers
          [⟨"y", .VAR_BOOL, no_modifiers, .bvalue true⟩]).1 = false →
          (set_variable 1 "x" (.int 7) .VAR_INT no_modifiers
            [⟨"y", .VAR_BOOL, no_modifiers, .bvalue true⟩]).2
            = [⟨"y", .VAR_BOOL, no_modifiers, .bvalue true⟩])
      ∧ (∀ v, find_variable [⟨"y", .VAR_BOOL, no_modifiers, .bvalue true⟩] "x" = some v →
          (set_variable 1 "x" (.int 7) .VAR_INT no_modifiers
            [⟨"y", .VAR_BOOL, no_modifiers, .bvalue true⟩]).1 = true) :=
  C16_upsert_fails_only_when_full 1 "x" (.int 7) .VAR_INT no_modifiers
    [⟨"y", .VAR_BOOL, no_modifiers, .bvalue true⟩] (by decide)

/-! ## The invariant of the symbol table -/

theorem update_existing_names {name : String} (value : CObject) (type : VarType)
    (mods : TypeModifiers) :
    ∀ {tbl tbl1 : List Variable}, update_existing name value type mods tbl = some tbl1 →
      table_names tbl1 = table_names tbl := by
  intro tbl
  induction tbl with
  | nil => intro tbl1 h; simp [update_existing] at h
  | cons w rest ih =>
    intro tbl1 h
    by_cases hw : w.name = name
    · simp [update_existing, hw] at h
      subst h
      simp [table_names, hw]
    · simp only [update_existing, hw, if_false, Option.map_eq_some'] at h
      obtain ⟨r, hr, rfl⟩ := h
      have := ih hr
      simp only [table_names] at this ⊢
      simp [this]

/-- After `set_variable` the names are those of before, followed by `name` when it was new
and the table had a free entry. -/
theorem set_variable_names (MAX_VARS : Nat) (name : String) (value : CObject)
    (type : VarType) (mods : TypeModifiers) (tbl : List Variable) :
    table_names (set_variable MAX_VARS name value type mods tbl).2 = table_names tbl
      ∨ (name ∉ table_names tbl ∧ tbl.length < MAX_VARS
          ∧ table_names (set_variable MAX_VARS name value type mods tbl).2
              = table_names tbl ++ [name]) := by
  cases hu : update_existing name value type mods tbl with
  | some tbl1 =>
    left
    simp [set_variable, hu, update_existing_names value type mods hu]
  | none =>
    by_cases hroom : tbl.length < MAX_VARS
    · right
      refine ⟨?_, hroom, by simp [set_variable, hu, hroom, table_names]⟩
      rw [← find_variable_none_iff_not_mem]
      cases hf : find_variable tbl name with
      | none => rfl
      | some v =>
        obtain ⟨tbl1, h1, _, _⟩ := update_existing_of_find value type mods hf
        rw [h1] at hu; cases hu
    · left
      simp [set_variable, hu, hroom]

theorem table_grows_refl (MAX_VARS : Nat) (tbl : List Variable) :
    table_grows MAX_VARS tbl tbl :=
  ⟨⟨[], by simp, List.nodup_nil, by simp⟩, fun h => h⟩

theorem table_grows_trans {MAX_VARS : Nat} {a b c : List Variable}
    (hab : table_grows MAX_VARS a b) (hbc : table_grows MAX_VARS b c) :
    table_grows MAX_VARS a c := by
  obtain ⟨⟨e1, h1, n1, d1⟩, c1⟩ := hab
  obtain ⟨⟨e2, h2, n2, d2⟩, c2⟩ := hbc
  refine ⟨⟨e1 ++ e2, by rw [h2, h1, List.append_assoc], ?_, ?_⟩, fun h => c2 (c1 h)⟩
  · rw [List.nodup_append]
    refine ⟨n1, n2, ?_⟩
    intro n hn1 hn2
    exact d2 n hn2 (by rw [h1]; exact List.mem_append_right _ hn1)
  · intro n hn
    rcases List.mem_append.mp hn with h | h
    · exact d1 n h
    · intro hmem
      exact d2 n h (by rw [h1]; exact List.mem_append_left _ hmem)

theorem table_grows_set_variable (MAX_VARS : Nat) (name : String) (value : CObject)
    (type : VarType) (mods : TypeModifiers) (tbl : List Variable) :
    table_grows MAX_VARS tbl (set_variable MAX_VARS name value type mods tbl).2 := by
  have hlen : ∀ {a b : List Variable}, table_names a = table_names b → a.length = b.length := by
    intro a b h
    have := congrArg List.length h
    simpa [table_names] using this
  rcases set_variable_names MAX_VARS name value type mods tbl with h | ⟨hnew, hroom, h⟩
  · exact ⟨⟨[], by simp [h], List.nodup_nil, by simp⟩, fun hc => by rw [hlen h]; exact hc⟩
  · refine ⟨⟨[name], h, List.nodup_singleton _, by simpa using hnew⟩, fun _ => ?_⟩
    have := congrArg List.length h
    simp [table_names] at this
    omega

theorem table_ok_of_grows {MAX_VARS : Nat} {a b : List Variable}
    (h : table_grows MAX_VARS a b) (ha : table_ok MAX_VARS a) : table_ok MAX_VARS b := by
  obtain ⟨⟨e, h1, n1, d1⟩, c1⟩ := h
  refine ⟨?_, c1 ha.2⟩
  rw [h1, List.nodup_append]
  exact ⟨ha.1, n1, fun n hn he => d1 n he hn⟩

theorem length_le_of_grows {MAX_VARS : Nat} {a b : List Variable}
    (h : table_grows MAX_VARS a b) : a.length ≤ b.length := by
  obtain ⟨⟨e, h1, _, _⟩, _⟩ := h
  have := congrArg List.length h1
  simp [table_names] at this
  omega

theorem table_grows_run_upserts (MAX_VARS : Nat) :
    ∀ (calls : List UpsertCall) (tbl : List Variable),
      table_grows MAX_VARS tbl (run_upserts MAX_VARS calls tbl) := by
  intro calls
  induction calls with
  | nil => intro tbl; exact table_grows_refl MAX_VARS tbl
  | cons c rest ih =>
    intro tbl
    exact table_grows_trans (table_grows_set_variable MAX_VARS c.name c.value c.type c.mods tbl)
      (ih _)

theorem run_upserts_append (MAX_VARS : Nat) :
    ∀ (pre post : List UpsertCall) (tbl : List Variable),
      run_upserts MAX_VARS (pre ++ post) tbl
        = run_upserts MAX_VARS post (run_upserts MAX_VARS pre tbl) := by
  intro pre
  induction pre with
  | nil => intro post tbl; rfl
  | cons c rest ih => intro post tbl; simp [run_upserts, ih]

theorem Res.ends_in_bind {α β : Type} {P : State → Prop} {r : Res α}
    {k : α → State → Res β} (hr : r.ends_in P)
    (hk : ∀ v s1, P s1 → (k v s1).ends_in P) : (r.bind k).ends_in P := by
  cases r with
  | ok v s => exact hk v s hr
  | jump s => exact hr
  | exit c s => exact hr
  | undefined => trivial
  | timeout => trivial

theorem Res.ends_in_ofOption {α : Type} {P : State → Prop} (o : Option α) {s : State}
    (h : P s) : (Res.ofOption o s).ends_in P := by
  cases o with
  | some v => exact h
  | none => trivial

@[simp] theorem yyerror_symbol_table (msg : String) (s : State) :
    (yyerror msg s).symbol_table = s.symbol_table := rfl

@[simp] theorem emit_symbol_table (e : Event) (s : State) :
    (emit e s).symbol_table = s.symbol_table := rfl

theorem check_and_mark_identifier_symbol_table (id : Nat) (name msg : String) (s : State) :
    (check_and_mark_identifier id name msg s).2.symbol_table = s.symbol_table := by
  unfold check_and_mark_identifier
  split
  · rfl
  · dsimp only
    split <;> rfl

theorem table_kept_of_eq {MAX_VARS : Nat} {base : List Variable} {s t : State}
    (h : t.symbol_table = s.symbol_table) (hs : table_kept MAX_VARS base s) :
    table_kept MAX_VARS base t := by
  unfold table_kept at *
  rw [h]
  exact hs

theorem table_kept_check {MAX_VARS : Nat} {base : List Variable} {s t : State} {id : Nat}
    {name msg : String} {b : Bool} (h : check_and_mark_identifier id name msg s = (b, t))
    (hs : table_kept MAX_VARS base s) : table_kept MAX_VARS base t := by
  have := check_and_mark_identifier_symbol_table id name msg s
  rw [h] at this
  exact table_kept_of_eq this hs

theorem table_kept_set_variable_value {MAX_VARS : Nat} {base : List Variable} {s : State}
    (name : String) (value : CObject) (mods : TypeModifiers)
    (hs : table_kept MAX_VARS base s) :
    table_kept MAX_VARS base (set_variable_value MAX_VARS name value mods s) := by
  unfold table_kept set_variable_value at *
  exact table_grows_trans hs (table_grows_set_variable MAX_VARS name value _ mods _)

/-- The float pre-pass keeps the table. -/
theorem is_float_expression_table_kept (MAX_VARS : Nat) (base : List Variable) :
    ∀ (e : ASTNode) (s : State), table_kept MAX_VARS base s →
      (is_float_expression e s).ends_in (table_kept MAX_VARS base) := by
  intro e
  induction e using ASTNode.expression_induction with
  | hop op left right m ihl ihr =>
    intro s hs
    rw [is_float_expression_operation]
    refine Res.ends_in_bind (ihl s hs) (fun l s1 h1 => ?_)
    split
    · exact h1
    · exact ihr s1 h1
  | hun op operand m _ =>
    intro s hs
    simp only [is_float_expression]
    exact hs
  | hleaf e h1 h2 =>
    intro s hs
    cases e
    case NODE_IDENTIFIER id name vt m =>
      simp only [is_float_expression]
      cases hc : check_and_mark_identifier id name "Undefined variable in type check" s with
      | mk b s1 =>
        have hk := table_kept_check hc hs
        cases b
        · exact hk
        · dsimp only
          cases find_variable s1.symbol_table name with
          | some v => exact hk
          | none => exact hk
    case NODE_OPERATION op l r m => exact absurd rfl (h1 _ _ _ _)
    case NODE_UNARY_OPERATION op o m => exact absurd rfl (h2 _ _ _)
    all_goals (simp only [is_float_expression]; exact hs)

/-- The double pre-pass keeps the table. -/
theorem is_double_expression_table_kept (MAX_VARS : Nat) (base : List Variable) :
    ∀ (e : ASTNode) (s : State), table_kept MAX_VARS base s →
      (is_double_expression e s).ends_in (table_kept MAX_VARS base) := by
  intro e
  induction e using ASTNode.expression_induction with
  | hop op left right m ihl ihr =>
    intro s hs
    rw [is_double_expression_operation]
    refine Res.ends_in_bind (ihl s hs) (fun l s1 h1 => ?_)
    split
    · exact h1
    · exact ihr s1 h1
  | hun op operand m _ =>
    intro s hs
    simp only [is_double_expression]
    exact hs
  | hleaf e h1 h2 =>
    intro s hs
    cases e
    case NODE_IDENTIFIER id name vt m =>
      simp only [is_double_expression]
      cases hc : check_and_mark_identifier id name "Undefined variable in type check" s with
      | mk b s1 =>
        have hk := table_kept_check hc hs
        cases b
        · exact hk
        · dsimp only
          cases find_variable s1.symbol_table name with
          | some v => exact hk
          | none => exact hk
    case NODE_OPERATION op l r m => exact absurd rfl (h1 _ _ _ _)
    case NODE_UNARY_OPERATION op o m => exact absurd rfl (h2 _ _ _)
    all_goals (simp only [is_double_expression]; exact hs)

theorem float_binary_op_ends_in {P : State → Prop} (op : OperatorType) (l r : F32)
    {s : State} (h : P s) (herr : ∀ msg, P (yyerror msg s)) :
    (float_binary_op op l r s).ends_in P := by
  unfold float_binary_op
  split <;> first | exact h | exact herr _ | (split <;> first | exact h | (split <;> exact h))

theorem double_binary_op_ends_in {P : State → Prop} (op : OperatorType) (l r : F64)
    {s : State} (h : P s) (herr : ∀ msg, P (yyerror msg s)) :
    (double_binary_op op l r s).ends_in P := by
  unfold double_binary_op
  split <;> first | exact h | exact herr _ | (split <;> first | exact h | (split <;> exact h))

theorem int_binary_op_ends_in {P : State → Prop} (op : OperatorType) (u : Bool) (l r : Int)
    {s : State} (h : P s) (herr : ∀ msg, P (yyerror msg s)) :
    (int_binary_op op u l r s).ends_in P := by
  unfold int_binary_op
  split <;> first
    | exact h
    | exact herr _
    | (split <;> first
        | exact herr _
        | exact Res.ends_in_ofOption _ h
        | (split <;> first | exact h | exact Res.ends_in_ofOption _ h))

theorem bool_binary_op_ends_in {P : State → Prop} (op : OperatorType) (l r : Bool)
    {s : State} (h : P s) (herr : ∀ msg, P (yyerror msg s)) :
    (bool_binary_op op l r s).ends_in P := by
  unfold bool_binary_op
  dsimp only
  split <;> first | exact h | exact herr _ | (split <;> first | exact h | exact herr _)

/-- The float evaluator changes the table by upserts only. -/
theorem evaluate_expression_float_table_kept (MAX_VARS : Nat) (base : List Variable) :
    ∀ (e : ASTNode) (s : State), table_kept MAX_VARS base s →
      (evaluate_expression_float MAX_VARS e s).ends_in (table_kept MAX_VARS base) := by
  intro e
  induction e using ASTNode.expression_induction with
  | hop op left right m ihl ihr =>
    intro s hs
    simp only [evaluate_expression_float]
    exact Res.ends_in_bind (ihl s hs) fun l s1 h1 =>
      Res.ends_in_bind (ihr s1 h1) fun r s2 h2 =>
        float_binary_op_ends_in op l r h2 (fun _ => h2)
  | hun op operand m ih =>
    intro s hs
    simp only [evaluate_expression_float]
    refine Res.ends_in_bind (ih s hs) fun v s1 h1 => ?_
    split <;> first
      | exact h1
      | exact Res.ends_in_bind (Res.ends_in_ofOption _ h1) fun name s2 h2 =>
          table_kept_set_variable_value name _ _ h2
  | hleaf e h1 h2 =>
    intro s hs
    cases e
    case NODE_IDENTIFIER id name vt m =>
      simp only [evaluate_expression_float]
      split
      · split
        · exact Res.ends_in_ofOption _ hs
        · split <;> exact Res.ends_in_ofOption _ hs
      · exact hs
    case NODE_OPERATION op l r m => exact absurd rfl (h1 _ _ _ _)
    case NODE_UNARY_OPERATION op o m => exact absurd rfl (h2 _ _ _)
    all_goals (simp only [evaluate_expression_float]; exact hs)

/-- The double evaluator changes the table by upserts only. -/
theorem evaluate_expression_double_table_kept (MAX_VARS : Nat) (base : List Variable) :
    ∀ (e : ASTNode) (s : State), table_kept MAX_VARS base s →
      (evaluate_expression_double MAX_VARS e s).ends_in (table_kept MAX_VARS base) := by
  intro e
  induction e using ASTNode.expression_induction with
  | hop op left right m ihl ihr =>
    intro s hs
    simp only [evaluate_expression_double]
    exact Res.ends_in_bind (ihl s hs) fun l s1 h1 =>
      Res.ends_in_bind (ihr s1 h1) fun r s2 h2 =>
        double_binary_op_ends_in op l r h2 (fun _ => h2)
  | hun op operand m ih =>
    intro s hs
    simp only [evaluate_expression_double]
    refine Res.ends_in_bind (ih s hs) fun v s1 h1 => ?_
    dsimp only
    split <;> first
      | exact h1
      | exact Res.ends_in_bind (Res.ends_in_ofOption _ h1) fun name s2 h2 =>
          table_kept_set_variable_value name _ _ h2
  | hleaf e h1 h2 =>
    intro s hs
    cases e
    case NODE_IDENTIFIER id name vt m =>
      simp only [evaluate_expression_double]
      split
      · split
        · exact Res.ends_in_ofOption _ hs
        · split <;> exact Res.ends_in_ofOption _ hs
      · exact hs
    case NODE_OPERATION op l r m => exact absurd rfl (h1 _ _ _ _)
    case NODE_UNARY_OPERATION op o m => exact absurd rfl (h2 _ _ _)
    all_goals (simp only [evaluate_expression_double]; exact hs)

theorem sizeof_scan_symbol_table (name : String) :
    ∀ (tbl : List Variable) (s : State),
      (sizeof_scan name tbl s).2.symbol_table = s.symbol_table := by
  intro tbl
  induction tbl with
  | nil => intro s; rfl
  | cons v rest ih =>
    intro s
    simp only [sizeof_scan]
    repeat' split
    all_goals first | rfl | exact ih _

/-- The integer evaluator changes the table by upserts only. -/
theorem evaluate_expression_int_table_kept (MAX_VARS : Nat) (base : List Variable) :
    ∀ (e : ASTNode) (s : State), table_kept MAX_VARS base s →
      (evaluate_expression_int MAX_VARS e s).ends_in (table_kept MAX_VARS base) := by
  intro e
  induction e using ASTNode.expression_induction with
  | hop op left right m ihl ihr =>
    intro s hs
    simp only [evaluate_expression_int]
    split
    · exact Res.ends_in_bind (ihl s hs) fun l s1 h1 =>
        Res.ends_in_bind (ihr s1 h1) fun r s2 h2 => by split <;> exact h2
    · exact Res.ends_in_bind (ihl s hs) fun l s1 h1 =>
        Res.ends_in_bind (ihr s1 h1) fun r s2 h2 =>
          int_binary_op_ends_in op _ l r h2 (fun _ => h2)
  | hun op operand m ih =>
    intro s hs
    simp only [evaluate_expression_int]
    refine Res.ends_in_bind (ih s hs) fun v s1 h1 => ?_
    split <;> first
      | exact h1
      | exact Res.ends_in_bind (Res.ends_in_ofOption _ h1) fun name s2 h2 =>
          table_kept_set_variable_value name _ _ h2
  | hleaf e h1 h2 =>
    intro s hs
    cases e
    case NODE_IDENTIFIER id name vt m =>
      simp only [evaluate_expression_int]
      cases hc : check_and_mark_identifier id name "Undefined variable" s with
      | mk b s1 =>
        have hk := table_kept_check hc hs
        cases b
        · exact hk
        · dsimp only
          split
          · split
            · exact Res.ends_in_ofOption _ hk
            · split <;> exact Res.ends_in_ofOption _ hk
          · exact hk
    case NODE_SIZEOF name m =>
      simp only [evaluate_expression_int]
      exact table_kept_of_eq (sizeof_scan_symbol_table name _ s) hs
    case NODE_FLOAT f m =>
      simp only [evaluate_expression_int]
      exact Res.ends_in_ofOption _ hs
    case NODE_DOUBLE f m =>
      simp only [evaluate_expression_int]
      exact Res.ends_in_ofOption _ hs
    case NODE_OPERATION op l r m => exact absurd rfl (h1 _ _ _ _)
    case NODE_UNARY_OPERATION op o m => exact absurd rfl (h2 _ _ _)
    all_goals (simp only [evaluate_expression_int]; exact hs)

/-- The boolean evaluator keeps the table. -/
theorem evaluate_expression_bool_table_kept (MAX_VARS : Nat) (base : List Variable) :
    ∀ (e : ASTNode) (s : State), table_kept MAX_VARS base s →
      (evaluate_expression_bool e s).ends_in (table_kept MAX_VARS base) := by
  intro e
  induction e using ASTNode.expression_induction with
  | hop op left right m ihl ihr =>
    intro s hs
    simp only [evaluate_expression_bool]
    split
    · exact Res.ends_in_bind (ihl s hs) fun l s1 h1 =>
        Res.ends_in_bind (ihr s1 h1) fun r s2 h2 => by split <;> exact h2
    · exact Res.ends_in_bind (ihl s hs) fun l s1 h1 =>
        Res.ends_in_bind (ihr s1 h1) fun r s2 h2 =>
          bool_binary_op_ends_in op l r h2 (fun _ => h2)
  | hun op operand m ih =>
    intro s hs
    simp only [evaluate_expression_bool]
    refine Res.ends_in_bind (ih s hs) fun v s1 h1 => ?_
    split <;> exact h1
  | hleaf e h1 h2 =>
    intro s hs
    cases e
    case NODE_IDENTIFIER id name vt m =>
      simp only [evaluate_expression_bool]
      cases hc : check_and_mark_identifier id name "Undefined variable" s with
      | mk b s1 =>
        have hk := table_kept_check hc hs
        cases b
        · exact hk
        · dsimp only
          split
          · split
            · exact Res.ends_in_ofOption _ hk
            · split
              · exact Res.ends_in_ofOption _ hk
              · split <;> exact Res.ends_in_ofOption _ hk
          · exact hk
    case NODE_OPERATION op l r m => exact absurd rfl (h1 _ _ _ _)
    case NODE_UNARY_OPERATION op o m => exact absurd rfl (h2 _ _ _)
    all_goals (simp only [evaluate_expression_bool]; exact hs)

/-- `evaluate_expression` changes the table by upserts only. -/
theorem evaluate_expression_table_kept (MAX_VARS : Nat) (base : List Variable) (e : ASTNode)
    (s : State) (hs : table_kept MAX_VARS base s) :
    (evaluate_expression MAX_VARS e s).ends_in (table_kept MAX_VARS base) := by
  unfold evaluate_expression
  refine Res.ends_in_bind (is_float_expression_table_kept MAX_VARS base e s hs) fun b s1 h1 => ?_
  split
  · exact Res.ends_in_bind (evaluate_expression_float_table_kept MAX_VARS base e s1 h1)
      fun v s2 h2 => Res.ends_in_ofOption _ h2
  · refine Res.ends_in_bind (is_double_expression_table_kept MAX_VARS base e s1 h1)
      fun b s2 h2 => ?_
    split
    · exact Res.ends_in_bind (evaluate_expression_double_table_kept MAX_VARS base e s2 h2)
        fun v s3 h3 => Res.ends_in_ofOption _ h3
    · exact evaluate_expression_int_table_kept MAX_VARS base e s2 h2

/-! ## Induction over the tree -/

/-- Induction over the tree: a property that holds of a node whenever it holds of the nodes
it points to holds of every node. -/
theorem ASTNode.children_induction {P : ASTNode → Prop}
    (h : ∀ e, (∀ c ∈ e.children, P c) → P e) : ∀ e, P e := by
  intro e
  refine ASTNode.rec (motive_1 := P) (motive_2 := fun l => ∀ c ∈ l.toList, P c)
    (motive_3 := fun cs => ∀ c ∈ cs.toList, P c.1 ∧ P c.2)
    (motive_4 := fun l => ∀ c ∈ l.toList, P c)
    ?_ ?_ ?_ ?_ ?_ ?_ ?_ ?_ ?_ ?_ ?_ ?_ ?_ ?_ ?_ ?_ ?_ ?_ ?_ ?_ ?_ ?_ ?_ ?_ ?_ ?_ ?_ e
  all_goals first
    | (intros
       apply h
       intro c hc
       simp only [ASTNode.children, List.mem_cons, List.mem_singleton, List.not_mem_nil,
         or_false, List.mem_append, List.mem_map, Prod.exists, exists_and_right,
         exists_eq_right] at hc
       all_goals first
         | exact absurd hc id
         | (rcases hc with rfl | rfl | rfl | rfl <;> assumption)
         | (rename_i hcs
            rcases hc with rfl | ⟨b, hb⟩ | ⟨a, ha⟩
            · assumption
            · exact (hcs _ hb).1
            · exact (hcs _ ha).2)
         | (rename_i hl; exact hl c hc))
    | (intro c hc; simp [StatementList.toList, CaseNode.toList, ArgumentList.toList] at hc)
    | (intro a b ha hb c hc
       simp only [StatementList.toList, ArgumentList.toList, List.mem_cons] at hc
       rcases hc with rfl | hc
       · exact ha
       · exact hb c hc)
    | (intro v b next hv hb hnext c hc
       simp only [CaseNode.toList, List.mem_cons] at hc
       rcases hc with rfl | hc
       · exact ⟨hv, hb⟩
       · exact hnext c hc)

theorem StatementList.ofList_toList_statements (l : StatementList) :
    StatementList.ofList l.toList = l := by
  refine StatementList.rec (motive_1 := fun _ => True)
    (motive_2 := fun l => StatementList.ofList l.toList = l) (motive_3 := fun _ => True)
    (motive_4 := fun _ => True)
    ?_ ?_ ?_ ?_ ?_ ?_ ?_ ?_ ?_ ?_ ?_ ?_ ?_ ?_ ?_ ?_ ?_ ?_ ?_ ?_ ?_ ?_ ?_ ?_ ?_ ?_ ?_ l
  all_goals first
    | rfl
    | (intros; trivial)
    | (intro a b _ hb; simp only [StatementList.toList, StatementList.ofList, hb])

theorem CaseNode.ofList_toList_cases (l : CaseNode) : CaseNode.ofList l.toList = l := by
  refine CaseNode.rec (motive_1 := fun _ => True) (motive_2 := fun _ => True)
    (motive_3 := fun l => CaseNode.ofList l.toList = l) (motive_4 := fun _ => True)
    ?_ ?_ ?_ ?_ ?_ ?_ ?_ ?_ ?_ ?_ ?_ ?_ ?_ ?_ ?_ ?_ ?_ ?_ ?_ ?_ ?_ ?_ ?_ ?_ ?_ ?_ ?_ l
  all_goals first
    | rfl
    | (intros; trivial)
    | (intro v b next _ _ hn; simp only [CaseNode.toList, CaseNode.ofList, hn])

theorem StatementList.toList_ofList_statements (l : List ASTNode) :
    (StatementList.ofList l).toList = l := by
  induction l with
  | nil => rfl
  | cons a rest ih => simp [StatementList.ofList, StatementList.toList, ih]

theorem CaseNode.toList_ofList_cases (l : List (ASTNode × ASTNode)) :
    (CaseNode.ofList l).toList = l := by
  induction l with
  | nil => rfl
  | cons a rest ih => simp [CaseNode.ofList, CaseNode.toList, ih]

/-! ## The table through the execution of statements -/

theorem execute_yapping_call_table_kept (MAX_VARS : Nat) (base : List Variable)
    (args : ArgumentList) (s : State) (hs : table_kept MAX_VARS base s) :
    (execute_yapping_call MAX_VARS args s).ends_in (table_kept MAX_VARS base) := by
  unfold execute_yapping_call
  split
  · exact hs
  · split
    · trivial
    · split
      · exact hs
      · refine Res.ends_in_bind (is_float_expression_table_kept MAX_VARS base _ s hs)
          fun b s1 h1 => ?_
        split
        · exact Res.ends_in_bind (evaluate_expression_float_table_kept MAX_VARS base _ s1 h1)
            fun v s2 h2 => h2
        · refine Res.ends_in_bind (is_double_expression_table_kept MAX_VARS base _ s1 h1)
            fun b s2 h2 => ?_
          split
          · exact Res.ends_in_bind
              (evaluate_expression_double_table_kept MAX_VARS base _ s2 h2) fun v s3 h3 => h3
          · refine Res.ends_in_bind (Res.ends_in_ofOption _ h2) fun u s3 h3 => ?_
            split
            · exact Res.ends_in_bind
                (evaluate_expression_bool_table_kept MAX_VARS base _ s3 h3) fun v s4 h4 => h4
            · split
              · refine Res.ends_in_bind
                  (evaluate_expression_int_table_kept MAX_VARS base _ s3 h3) fun v s4 h4 => ?_
                dsimp only
                split
                · exact h4
                · split <;> exact h4
              · exact Res.ends_in_bind
                  (evaluate_expression_int_table_kept MAX_VARS base _ s3 h3) fun v s4 h4 => h4
    · exact hs

theorem execute_yappin_call_table_kept (MAX_VARS : Nat) (base : List Variable)
    (args : ArgumentList) (s : State) (hs : table_kept MAX_VARS base s) :
    (execute_yappin_call MAX_VARS args s).ends_in (table_kept MAX_VARS base) := by
  unfold execute_yappin_call
  split
  · exact hs
  · split
    · trivial
    · split
      · exact hs
      · refine Res.ends_in_bind (Res.ends_in_ofOption _ hs) fun b s0 h0 => ?_
        split
        · refine Res.ends_in_bind (evaluate_expression_int_table_kept MAX_VARS base _ s0 h0)
            fun v s1 h1 => ?_
          split <;> exact h1
        · refine Res.ends_in_bind (is_float_expression_table_kept MAX_VARS base _ s0 h0)
            fun b s1 h1 => ?_
          split
          · exact Res.ends_in_bind
              (evaluate_expression_float_table_kept MAX_VARS base _ s1 h1) fun v s2 h2 => h2
          · refine Res.ends_in_bind (is_double_expression_table_kept MAX_VARS base _ s1 h1)
              fun b s2 h2 => ?_
            split
            · exact Res.ends_in_bind
                (evaluate_expression_double_table_kept MAX_VARS base _ s2 h2) fun v s3 h3 => h3
            · exact Res.ends_in_bind
                (evaluate_expression_int_table_kept MAX_VARS base _ s2 h2) fun v s3 h3 => h3
    · exact hs

theorem execute_baka_call_table_kept (MAX_VARS : Nat) (base : List Variable)
    (args : ArgumentList) (s : State) (hs : table_kept MAX_VARS base s) :
    (execute_baka_call args s).ends_in (table_kept MAX_VARS base) := by
  unfold execute_baka_call
  split <;> exact hs

theorem execute_ragequit_call_table_kept (MAX_VARS : Nat) (base : List Variable)
    (args : ArgumentList) (s : State) (hs : table_kept MAX_VARS base s) :
    (execute_ragequit_call args s).ends_in (table_kept MAX_VARS base) := by
  unfold execute_ragequit_call
  split
  · exact hs
  · split
    · trivial
    · exact hs
    · exact hs

theorem execute_chill_call_table_kept (MAX_VARS : Nat) (base : List Variable)
    (args : ArgumentList) (s : State) (hs : table_kept MAX_VARS base s) :
    (execute_chill_call args s).ends_in (table_kept MAX_VARS base) := by
  unfold execute_chill_call
  split
  · exact hs
  · split
    · trivial
    · exact hs
    · refine Res.ends_in_bind (Res.ends_in_ofOption _ hs) fun m s1 h1 => ?_
      split
      · exact h1
      · split
        · exact h1
        · trivial

theorem assign_variable_table_kept (MAX_VARS : Nat) (base : List Variable) (left : ASTNode)
    (value : CObject) (type : VarType) (mods : TypeModifiers) (failure : String) (s : State)
    (hs : table_kept MAX_VARS base s) :
    (assign_variable MAX_VARS left value type mods failure s).ends_in
      (table_kept MAX_VARS base) := by
  unfold assign_variable
  refine Res.ends_in_bind (Res.ends_in_ofOption _ hs) fun name s1 h1 => ?_
  have hk : table_grows MAX_VARS base
      (set_variable MAX_VARS name value type mods s1.symbol_table).2 :=
    table_grows_trans h1 (table_grows_set_variable MAX_VARS name value type mods _)
  dsimp only
  split <;> exact hk

theorem while_loop_ends_in {P : State → Prop} (cond : State → Res Int)
    (body : State → Res Unit) (hcond : ∀ s, P s → (cond s).ends_in P)
    (hbody : ∀ s, P s → (body s).ends_in P) :
    ∀ (fuel : Nat) (s : State), P s → (while_loop cond body fuel s).ends_in P := by
  intro fuel
  induction fuel with
  | zero => intro s _; trivial
  | succ fuel ih =>
    intro s hs
    simp only [while_loop]
    refine Res.ends_in_bind (hcond s hs) fun c s1 h1 => ?_
    split
    · exact Res.ends_in_bind (hbody s1 h1) fun _ s2 h2 => ih s2 h2
    · exact h1

theorem for_loop_ends_in {P : State → Prop} (has_cond : Bool) (cond : State → Res Int)
    (body incr : State → Res Unit) (hcond : ∀ s, P s → (cond s).ends_in P)
    (hbody : ∀ s, P s → (body s).ends_in P) (hincr : ∀ s, P s → (incr s).ends_in P) :
    ∀ (fuel : Nat) (s : State), P s → (for_loop has_cond cond body incr fuel s).ends_in P := by
  intro fuel
  induction fuel with
  | zero => intro s _; trivial
  | succ fuel ih =>
    intro s hs
    rw [for_loop_succ]
    split
    · refine Res.ends_in_bind (hcond s hs) fun c s1 h1 => ?_
      split
      · exact h1
      · exact Res.ends_in_bind (hbody s1 h1) fun _ s2 h2 =>
          Res.ends_in_bind (hincr s2 h2) fun _ s3 h3 => ih s3 h3
    · exact Res.ends_in_bind (hbody s hs) fun _ s2 h2 =>
        Res.ends_in_bind (hincr s2 h2) fun _ s3 h3 => ih s3 h3

theorem land_longjmp_ends_in {P : State → Prop} (activation : Nat) {r : Res Unit}
    (h : r.ends_in P) : (land_longjmp activation r).ends_in P := by
  unfold land_longjmp
  split
  · split
    · exact h
    · trivial
  · exact h

theorem execute_statement_list_ends_in (MAX_VARS : Nat) {P : State → Prop} :
    ∀ (l : List ASTNode),
      (∀ c ∈ l, ∀ (fuel : Nat) (s : State), P s →
        (execute_statement MAX_VARS c fuel s).ends_in P) →
      ∀ (fuel : Nat) (s : State), P s →
        (execute_statement_list MAX_VARS (StatementList.ofList l) fuel s).ends_in P := by
  intro l
  induction l with
  | nil => intro _ fuel s hs; simp only [StatementList.ofList, execute_statement_list]; exact hs
  | cons a rest ih =>
    intro h fuel s hs
    simp only [StatementList.ofList, execute_statement_list]
    exact Res.ends_in_bind (h a (List.mem_cons_self _ _) fuel s hs) fun _ s1 h1 =>
      ih (fun c hc => h c (List.mem_cons_of_mem _ hc)) fuel s1 h1

theorem execute_cases_ends_in (MAX_VARS : Nat) {P : State → Prop}
    (heval : ∀ (e : ASTNode) (s : State), P s → (evaluate_expression MAX_VARS e s).ends_in P) :
    ∀ (cs : List (ASTNode × ASTNode)),
      (∀ c ∈ cs, ∀ (fuel : Nat) (s : State), P s →
        (execute_statement MAX_VARS c.2 fuel s).ends_in P) →
      ∀ (switch_value : Int) (matched : Bool) (fuel : Nat) (s : State), P s →
        (execute_cases MAX_VARS (CaseNode.ofList cs) switch_value matched fuel s).ends_in P := by
  intro cs
  induction cs with
  | nil => intro _ sv matched fuel s hs; simp only [CaseNode.ofList, execute_cases]; exact hs
  | cons c rest ih =>
    intro h sv matched fuel s hs
    have hbody := h c (List.mem_cons_self _ _)
    have hrest := ih (fun c hc => h c (List.mem_cons_of_mem _ hc))
    simp only [CaseNode.ofList]
    cases hnull : c.1.is_null with
    | true =>
      rw [ASTNode.eq_null_of_is_null hnull, execute_cases_default, execute_statements_eq]
      exact hbody fuel s hs
    | false =>
      rw [execute_cases_valued _ _ _ _ _ _ _ _ hnull]
      refine Res.ends_in_bind (heval _ s hs) fun v s1 h1 => ?_
      split
      · rw [execute_statements_eq]
        exact Res.ends_in_bind (hbody fuel s1 h1) fun _ s2 h2 => hrest sv true fuel s2 h2
      · exact hrest sv matched fuel s1 h1

/-- Whatever statement is executed, the table of the state it ends in comes from the table
before by updates in place and appended new names. -/
theorem execute_statement_table_kept (MAX_VARS : Nat) (base : List Variable) :
    ∀ (e : ASTNode) (fuel : Nat) (s : State), table_kept MAX_VARS base s →
      (execute_statement MAX_VARS e fuel s).ends_in (table_kept MAX_VARS base) := by
  intro e
  induction e using ASTNode.children_induction with
  | h e ih =>
    intro fuel s hs
    have hev := fun (e : ASTNode) (s : State) (hs : table_kept MAX_VARS base s) =>
      evaluate_expression_table_kept MAX_VARS base e s hs
    cases e
    case null => exact hs
    case NODE_ASSIGNMENT left right mods =>
      simp only [execute_statement]
      split
      · trivial
      · split
        · trivial
        · exact assign_variable_table_kept MAX_VARS base _ _ _ _ _ s hs
        · exact assign_variable_table_kept MAX_VARS base _ _ _ _ _ s hs
        · refine Res.ends_in_bind (is_float_expression_table_kept MAX_VARS base _ s hs)
            fun b s1 h1 => ?_
          split
          · exact Res.ends_in_bind
              (evaluate_expression_float_table_kept MAX_VARS base _ s1 h1) fun v s2 h2 =>
                assign_variable_table_kept MAX_VARS base _ _ _ _ _ s2 h2
          · refine Res.ends_in_bind (is_double_expression_table_kept MAX_VARS base _ s1 h1)
              fun b s2 h2 => ?_
            split
            · exact Res.ends_in_bind
                (evaluate_expression_double_table_kept MAX_VARS base _ s2 h2) fun v s3 h3 =>
                  assign_variable_table_kept MAX_VARS base _ _ _ _ _ s3 h3
            · exact Res.ends_in_bind
                (evaluate_expression_int_table_kept MAX_VARS base _ s2 h2) fun v s3 h3 =>
                  assign_variable_table_kept MAX_VARS base _ _ _ _ _ s3 h3
    case NODE_OPERATION op left right mods =>
      simp only [execute_statement]
      exact Res.ends_in_bind (hev _ s hs) fun _ s1 h1 => h1
    case NODE_UNARY_OPERATION op operand mods =>
      simp only [execute_statement]
      exact Res.ends_in_bind (hev _ s hs) fun _ s1 h1 => h1
    case NODE_INT i mods =>
      simp only [execute_statement]
      exact Res.ends_in_bind (hev _ s hs) fun _ s1 h1 => h1
    case NODE_CHAR i mods =>
      simp only [execute_statement]
      exact Res.ends_in_bind (hev _ s hs) fun _ s1 h1 => h1
    case NODE_IDENTIFIER id name vt mods =>
      simp only [execute_statement]
      exact Res.ends_in_bind (hev _ s hs) fun _ s1 h1 => h1
    case NODE_FUNC_CALL name args mods =>
      simp only [execute_statement]
      split
      · exact execute_yapping_call_table_kept MAX_VARS base args s hs
      · split
        · exact execute_yappin_call_table_kept MAX_VARS base args s hs
        · split
          · exact execute_baka_call_table_kept MAX_VARS base args s hs
          · split
            · exact execute_ragequit_call_table_kept MAX_VARS base args s hs
            · split
              · exact execute_chill_call_table_kept MAX_VARS base args s hs
              · exact hs
    case NODE_FOR_STATEMENT init cond incr body mods =>
      simp only [execute_statement]
      refine Res.ends_in_bind (ih init (by simp [ASTNode.children]) fuel s hs)
        fun _ s1 h1 => ?_
      exact for_loop_ends_in _ _ _ _ (fun s hs => hev cond s hs)
        (fun s hs => ih body (by simp [ASTNode.children]) fuel s hs)
        (fun s hs => ih incr (by simp [ASTNode.children]) fuel s hs) fuel s1 h1
    case NODE_WHILE_STATEMENT cond body mods =>
      simp only [execute_statement]
      exact while_loop_ends_in _ _ (fun s hs => hev cond s hs)
        (fun s hs => ih body (by simp [ASTNode.children]) fuel s hs) fuel s hs
    case NODE_PRINT_STATEMENT expr =>
      simp only [execute_statement]
      split
      · trivial
      · exact hs
      · exact Res.ends_in_bind (hev _ s hs) fun _ s1 h1 => h1
    case NODE_ERROR_STATEMENT expr =>
      simp only [execute_statement]
      split
      · trivial
      · exact hs
      · exact Res.ends_in_bind (hev _ s hs) fun _ s1 h1 => h1
    case NODE_STATEMENT_LIST statements =>
      simp only [execute_statement]
      rw [← StatementList.ofList_toList_statements statements]
      exact execute_statement_list_ends_in MAX_VARS _
        (fun c hc => ih c (by simpa [ASTNode.children] using hc)) fuel s hs
    case NODE_IF_STATEMENT condition then_branch else_branch =>
      simp only [execute_statement]
      refine Res.ends_in_bind (hev _ s hs) fun c s1 h1 => ?_
      split
      · exact ih then_branch (by simp [ASTNode.children]) fuel s1 h1
      · split
        · exact ih else_branch (by simp [ASTNode.children]) fuel s1 h1
        · exact h1
    case NODE_SWITCH_STATEMENT expression cases =>
      simp only [execute_statement]
      refine Res.ends_in_bind (hev _ s hs) fun sv s1 h1 => ?_
      apply land_longjmp_ends_in
      rw [← CaseNode.ofList_toList_cases cases]
      refine execute_cases_ends_in MAX_VARS hev _ ?_ sv false fuel _ h1
      intro c hc
      exact ih c.2 (by
        simp only [ASTNode.children, List.mem_cons, List.mem_append, List.mem_map]
        exact Or.inr (Or.inr ⟨c, hc, rfl⟩))
    case NODE_BREAK_STATEMENT =>
      simp only [execute_statement]
      split
      · exact hs
      · trivial
    all_goals (simp only [execute_statement]; exact hs)

theorem Res.ends_in_mono {α : Type} {P Q : State → Prop} {r : Res α} (h : r.ends_in P)
    (hpq : ∀ s, P s → Q s) : r.ends_in Q := by
  cases r with
  | ok v s => exact hpq s h
  | jump s => exact hpq s h
  | exit c s => exact hpq s h
  | undefined => trivial
  | timeout => trivial

theorem names_of_grows {MAX_VARS : Nat} {a b : List Variable}
    (h : table_grows MAX_VARS a b) : ∃ extra, table_names b = table_names a ++ extra := by
  obtain ⟨⟨e, h1, _, _⟩, _⟩ := h
  exact ⟨e, h1⟩

/-- C17: the invariant of the symbol table. Starting from the empty table, after any
sequence of `set_variable` calls the names of the entries are pairwise distinct and
`var_count` is at most `MAX_VARS`; along the sequence `var_count` never decreases and the
names already in the table stay at their indices. The same holds across the evaluation of
any expression and the execution of any statement (assignments and increments included),
which change the table by `set_variable` only. -/
theorem C17_symbol_table_invariant (MAX_VARS : Nat) :
    (∀ calls : List UpsertCall, table_ok MAX_VARS (run_upserts MAX_VARS calls []))
      ∧ (∀ pre post : List UpsertCall,
          (run_upserts MAX_VARS pre []).length ≤ (run_upserts MAX_VARS (pre ++ post) []).length
            ∧ ∃ extra, table_names (run_upserts MAX_VARS (pre ++ post) [])
                = table_names (run_upserts MAX_VARS pre []) ++ extra)
      ∧ (∀ (e : ASTNode) (fuel : Nat) (s : State), table_ok MAX_VARS s.symbol_table →
          (execute_statement MAX_VARS e fuel s).ends_in fun s1 =>
            table_ok MAX_VARS s1.symbol_table
              ∧ s.symbol_table.length ≤ s1.symbol_table.length
              ∧ ∃ extra, table_names s1.symbol_table = table_names s.symbol_table ++ extra)
      ∧ (∀ (e : ASTNode) (s : State), table_ok MAX_VARS s.symbol_table →
          (evaluate_expression MAX_VARS e s).ends_in fun s1 =>
            table_ok MAX_VARS s1.symbol_table
              ∧ s.symbol_table.length ≤ s1.symbol_table.length
              ∧ ∃ extra, table_names s1.symbol_table = table_names s.symbol_table ++ extra) := by
  have hempty : table_ok MAX_VARS [] := ⟨List.nodup_nil, Nat.zero_le _⟩
  refine ⟨?_, ?_, ?_, ?_⟩
  · intro calls
    exact table_ok_of_grows (table_grows_run_upserts MAX_VARS calls []) hempty
  · intro pre post
    rw [run_upserts_append]
    have h := table_grows_run_upserts MAX_VARS post (run_upserts MAX_VARS pre [])
    exact ⟨length_le_of_grows h, names_of_grows h⟩
  · intro e fuel s hs
    refine Res.ends_in_mono
      (execute_statement_table_kept MAX_VARS s.symbol_table e fuel s
        (table_grows_refl MAX_VARS _)) fun s1 h1 => ?_
    exact ⟨table_ok_of_grows h1 hs, length_le_of_grows h1, names_of_grows h1⟩
  · intro e s hs
    refine Res.ends_in_mono
      (evaluate_expression_table_kept MAX_VARS s.symbol_table e s
        (table_grows_refl MAX_VARS _)) fun s1 h1 => ?_
    exact ⟨table_ok_of_grows h1 hs, length_le_of_grows h1, names_of_grows h1⟩

theorem C17_symbol_table_invariant_witness :
    table_ok 2 (run_upserts 2
      [⟨"x", .int 1, .VAR_INT, no_modifiers⟩, ⟨"y", .bool true, .VAR_BOOL, no_modifiers⟩,
       ⟨"x", .double 0, .VAR_DOUBLE, no_modifiers⟩, ⟨"z", .int 3, .VAR_INT, no_modifiers⟩] [])
      ∧ (execute_statement 2 (counting_for "i" 3 no_modifiers 0 1 2 3 4) 10
          (state_with_x 5)).ends_in fun s1 =>
            table_ok 2 s1.symbol_table
              ∧ (state_with_x 5).symbol_table.length ≤ s1.symbol_table.length
              ∧ ∃ extra, table_names s1.symbol_table
                  = table_names (state_with_x 5).symbol_table ++ extra :=
  ⟨(C17_symbol_table_invariant 2).1 _,
   (C17_symbol_table_invariant 2).2.2.1 _ 10 (state_with_x 5)
     ⟨by decide, by decide⟩⟩

/-! ## Unresolved identifiers -/

/-- C18: for an identifier node, not yet checked, whose name is not in the table,
`evaluate_expression_int` and `evaluate_expression_bool` report "Undefined variable" and end
the process with `exit(1)`, without returning; `evaluate_expression_float` and
`evaluate_expression_double` report the error, return 0 and leave the table as it is. A
node already marked invalid ends the process in integer and boolean context as well. -/
theorem C18_undefined_identifier (MAX_VARS id : Nat) (name : String) (vt : VarType)
    (m : TypeModifiers) (s : State) (habsent : find_variable s.symbol_table name = Option.none) :
    (s.checked.lookup id = Option.none →
        evaluate_expression_int MAX_VARS (.NODE_IDENTIFIER id name vt m) s
            = .exit 1 (yyerror "Undefined variable"
                { s with checked := (id, false) :: s.checked, yylineno := s.yylineno - 2 })
          ∧ evaluate_expression_bool (.NODE_IDENTIFIER id name vt m) s
            = .exit 1 (yyerror "Undefined variable"
                { s with checked := (id, false) :: s.checked, yylineno := s.yylineno - 2 }))
      ∧ (s.checked.lookup id = some false →
        evaluate_expression_int MAX_VARS (.NODE_IDENTIFIER id name vt m) s = .exit 1 s
          ∧ evaluate_expression_bool (.NODE_IDENTIFIER id name vt m) s = .exit 1 s)
      ∧ evaluate_expression_float MAX_VARS (.NODE_IDENTIFIER id name vt m) s
          = .ok 0 (yyerror "Undefined variable" s)
      ∧ evaluate_expression_double MAX_VARS (.NODE_IDENTIFIER id name vt m) s
          = .ok 0 (yyerror "Undefined variable" s)
      ∧ (yyerror "Undefined variable" s).symbol_table = s.symbol_table
      ∧ (yyerror "Undefined variable" s).errors
          = s.errors ++ [("Undefined variable", s.yylineno)] := by
  have h32 : binary32.ofInt 0 = 0 := by decide
  have h64 : binary64.ofInt 0 = 0 := by decide
  refine ⟨?_, ?_, ?_, ?_, rfl, rfl⟩
  · intro hfresh
    constructor <;>
      simp [evaluate_expression_int, evaluate_expression_bool, check_and_mark_identifier,
        hfresh, habsent]
  · intro hbad
    constructor <;>
      simp [evaluate_expression_int, evaluate_expression_bool, check_and_mark_identifier, hbad]
  · simp [evaluate_expression_float, habsent, h32]
  · simp [evaluate_expression_double, habsent, h64]

theorem C18_undefined_identifier_witness :
    (evaluate_expression_int 100 (.NODE_IDENTIFIER 7 "y" .NONE no_modifiers) (state_with_x 5)
        = .exit 1 (yyerror "Undefined variable"
            { state_with_x 5 with checked := (7, false) :: (state_with_x 5).checked,
                                  yylineno := (state_with_x 5).yylineno - 2 })
      ∧ evaluate_expression_bool (.NODE_IDENTIFIER 7 "y" .NONE no_modifiers) (state_with_x 5)
        = .exit 1 (yyerror "Undefined variable"
            { state_with_x 5 with checked := (7, false) :: (state_with_x 5).checked,
                                  yylineno := (state_with_x 5).yylineno - 2 }))
      ∧ evaluate_expression_float 100 (.NODE_IDENTIFIER 7 "y" .NONE no_modifiers)
          (state_with_x 5) = .ok 0 (yyerror "Undefined variable" (state_with_x 5)) :=
  ⟨(C18_undefined_identifier 100 7 "y" .NONE no_modifiers (state_with_x 5) (by decide)).1
      (by decide),
   (C18_undefined_identifier 100 7 "y" .NONE no_modifiers (state_with_x 5)
      (by decide)).2.2.1⟩

/-! ## Increment and decrement of an operand that is not an identifier -/

theorem FloatFormat.ltClass_asymm :
    ∀ x y : FloatClass, FloatFormat.ltClass x y = true → FloatFormat.ltClass y x = false := by
  intro x y h
  cases x with
  | nan => simp [FloatFormat.ltClass] at h
  | inf a =>
    cases y with
    | nan => simp [FloatFormat.ltClass] at h
    | inf b =>
      cases a <;> cases b <;> simp [FloatFormat.ltClass] at h ⊢
    | fin s n d =>
      simp [FloatFormat.ltClass] at h ⊢
      simp [h]
  | fin s1 n1 d1 =>
    cases y with
    | nan => simp [FloatFormat.ltClass] at h
    | inf b =>
      simp [FloatFormat.ltClass] at h ⊢
      simp [h]
    | fin s2 n2 d2 =>
      cases s1 <;> cases s2 <;> simp [FloatFormat.ltClass] at h ⊢ <;> omega

/-- C20: a float, respectively double, division node whose divisor has a magnitude below
`FLT_MIN`, respectively `DBL_MIN`, evaluates to a NaN when the magnitude of the dividend is
below that threshold too, and otherwise to `FLT_MAX` (`DBL_MAX`) for a positive dividend and
to `-FLT_MAX` (`-DBL_MAX`) for a negative one; the result is never an infinity. -/
theorem C20_division_by_tiny_divisor (MAX_VARS : Nat) (left right : ASTNode)
    (m : TypeModifiers) (s : State) :
    (∀ (a b : F32) (s1 s2 : State),
        evaluate_expression_float MAX_VARS left s = .ok a s1 →
        evaluate_expression_float MAX_VARS right s1 = .ok b s2 →
        binary32.lt (binary32.abs b) FLT_MIN = true →
        ∃ r, evaluate_expression_float MAX_VARS (.NODE_OPERATION .OP_DIVIDE left right m) s
              = .ok r s2
          ∧ (binary32.lt (binary32.abs a) FLT_MIN = true → binary32.isNaN r = true)
          ∧ (binary32.lt (binary32.abs a) FLT_MIN = false →
              binary32.gt a (binary32.ofInt 0) = true → r = FLT_MAX)
          ∧ (binary32.lt (binary32.abs a) FLT_MIN = false →
              binary32.lt a (binary32.ofInt 0) = true → r = binary32.neg FLT_MAX)
          ∧ binary32.isInf r = false)
      ∧ (∀ (a b : F64) (s1 s2 : State),
        evaluate_expression_double MAX_VARS left s = .ok a s1 →
        evaluate_expression_double MAX_VARS right s1 = .ok b s2 →
        binary64.lt (binary64.abs b) DBL_MIN = true →
        ∃ r, evaluate_expression_double MAX_VARS (.NODE_OPERATION .OP_DIVIDE left right m) s
              = .ok r s2
          ∧ (binary64.lt (binary64.abs a) DBL_MIN = true → binary64.isNaN r = true)
          ∧ (binary64.lt (binary64.abs a) DBL_MIN = false →
              binary64.gt a (binary64.ofInt 0) = true → r = DBL_MAX)
          ∧ (binary64.lt (binary64.abs a) DBL_MIN = false →
              binary64.lt a (binary64.ofInt 0) = true → r = binary64.neg DBL_MAX)
          ∧ binary64.isInf r = false) := by
  have n32 : binary32.isNaN (binary32.div (binary32.ofInt 0) (binary32.ofInt 0)) = true := by
    decide!
  have i32 : binary32.isInf (binary32.div (binary32.ofInt 0) (binary32.ofInt 0)) = false := by
    decide!
  have p32 : binary32.isInf FLT_MAX = false := by decide!
  have m32 : binary32.isInf (binary32.neg FLT_MAX) = false := by decide!
  have n64 : binary64.isNaN (binary64.div (binary64.ofInt 0) (binary64.ofInt 0)) = true := by
    decide!
  have i64 : binary64.isInf (binary64.div (binary64.ofInt 0) (binary64.ofInt 0)) = false := by
    decide!
  have p64 : binary64.isInf DBL_MAX = false := by decide!
  have m64 : binary64.isInf (binary64.neg DBL_MAX) = false := by decide!
  constructor
  · intro a b s1 s2 hl hr hb
    have hasym : binary32.lt a (binary32.ofInt 0) = true →
        binary32.gt a (binary32.ofInt 0) = false :=
      fun h => FloatFormat.ltClass_asymm _ _ h
    simp only [evaluate_expression_float, hl, hr, Res.bind_ok, float_binary_op, hb, if_true]
    cases ha : binary32.lt (binary32.abs a) FLT_MIN with
    | true => exact ⟨_, rfl, fun _ => n32, by simp, by simp, i32⟩
    | false =>
      cases hg : binary32.gt a (binary32.ofInt 0) with
      | true =>
        refine ⟨FLT_MAX, by simp, by simp, fun _ _ => rfl, ?_, p32⟩
        intro _ hlt
        rw [hasym hlt] at hg
        cases hg
      | false =>
        exact ⟨binary32.neg FLT_MAX, by simp, by simp, by simp, fun _ _ => rfl, m32⟩
  · intro a b s1 s2 hl hr hb
    have hasym : binary64.lt a (binary64.ofInt 0) = true →
        binary64.gt a (binary64.ofInt 0) = false :=
      fun h => FloatFormat.ltClass_asymm _ _ h
    simp only [evaluate_expression_double, hl, hr, Res.bind_ok, double_binary_op, hb, if_true]
    cases ha : binary64.lt (binary64.abs a) DBL_MIN with
    | true => exact ⟨_, rfl, fun _ => n64, by simp, by simp, i64⟩
    | false =>
      cases hg : binary64.gt a (binary64.ofInt 0) with
      | true =>
        refine ⟨DBL_MAX, by simp, by simp, fun _ _ => rfl, ?_, p64⟩
        intro _ hlt
        rw [hasym hlt] at hg
        cases hg
      | false =>
        exact ⟨binary64.neg DBL_MAX, by simp, by simp, by simp, fun _ _ => rfl, m64⟩

theorem C20_division_by_tiny_divisor_witness :
    (∃ r, evaluate_expression_float 100
            (.NODE_OPERATION .OP_DIVIDE (.NODE_FLOAT 0x3f800000 no_modifiers)
              (.NODE_FLOAT 0 no_modifiers) no_modifiers) State.initial = .ok r State.initial
        ∧ (binary32.lt (binary32.abs 0x3f800000) FLT_MIN = true → binary32.isNaN r = true)
        ∧ (binary32.lt (binary32.abs 0x3f800000) FLT_MIN = false →
            binary32.gt 0x3f800000 (binary32.ofInt 0) = true → r = FLT_MAX)
        ∧ (binary32.lt (binary32.abs 0x3f800000) FLT_MIN = false →
            binary32.lt 0x3f800000 (binary32.ofInt 0) = true → r = binary32.neg FLT_MAX)
        ∧ binary32.isInf r = false)
      ∧ (∃ r, evaluate_expression_double 100
            (.NODE_OPERATION .OP_DIVIDE (.NODE_DOUBLE 0 no_modifiers)
              (.NODE_DOUBLE 0 no_modifiers) no_modifiers) State.initial = .ok r State.initial
        ∧ (binary64.lt (binary64.abs 0) DBL_MIN = true → binary64.isNaN r = true)
        ∧ (binary64.lt (binary64.abs 0) DBL_MIN = false →
            binary64.gt 0 (binary64.ofInt 0) = true → r = DBL_MAX)
        ∧ (binary64.lt (binary64.abs 0) DBL_MIN = false →
            binary64.lt 0 (binary64.ofInt 0) = true → r = binary64.neg DBL_MAX)
        ∧ binary64.isInf r = false) :=
  ⟨(C20_division_by_tiny_divisor 100 (.NODE_FLOAT 0x3f800000 no_modifiers)
      (.NODE_FLOAT 0 no_modifiers) no_modifiers State.initial).1 0x3f800000 0 State.initial
      State.initial rfl rfl (by decide!),
   (C20_division_by_tiny_divisor 100 (.NODE_DOUBLE 0 no_modifiers)
      (.NODE_DOUBLE 0 no_modifiers) no_modifiers State.initial).2 0 0 State.initial
      State.initial rfl rfl (by decide!)⟩

/-! ## The pre-pass below a unary operator -/

/-- C11, at the failing input: for `-(1.5f)` the float pre-pass answers false, the unary
node not being among its cases, and `evaluate_expression` evaluates the tree on the integer
path, which reports "Cannot use float in integer context"; the assignment `x = -(1.5f)` then
records `x` as an `int` holding -1, where the float evaluator yields -1.5f. The same happens
to `-(2.5)` with the double pre-pass. -/
theorem C11_unary_hides_float_leaf :
    is_float_expression negated_float State.initial = .ok false State.initial
      ∧ evaluate_expression 100 negated_float State.initial
        = .ok (-1) (yyerror "Cannot use float in integer context" State.initial)
      ∧ evaluate_expression_float 100 negated_float State.initial
        = .ok 0xbfc00000 State.initial
      ∧ execute_statement 100
          (.NODE_ASSIGNMENT (.NODE_IDENTIFIER 0 "x" .NONE no_modifiers) negated_float
            no_modifiers) 10 (state_with_x 5)
        = .ok () (yyerror "Cannot use float in integer context" (state_with_x (-1)))
      ∧ is_double_expression negated_double State.initial = .ok false State.initial
      ∧ evaluate_expression 100 negated_double State.initial
        = .ok (-2) (yyerror "Cannot use double in integer context" State.initial) := by
  refine ⟨by decide, by decide!, by decide!, by decide!, by decide, by decide!⟩

/-! ## Assignment of a float above INT_MAX -/

/-- C13, at the failing input: with `x` an `int` holding 5, the assignment `x = 3000000000.0f`,
whose value exceeds `INT_MAX`, leaves `x` with the kind float and the float value, through
`execute_statement` and through `execute_assignment` alike; nothing is saturated. -/
theorem C13_float_assignment_not_narrowed :
    binary32.gt 0x4f32d05e (binary32.ofInt INT_MAX) = true
      ∧ execute_statement 100 assign_big_float 10 (state_with_x 5)
        = .ok () { State.initial with
            symbol_table := [⟨"x", .VAR_FLOAT, no_modifiers, .fvalue 0x4f32d05e⟩] }
      ∧ execute_assignment 100 assign_big_float (state_with_x 5)
        = .ok () { State.initial with
            symbol_table := [⟨"x", .VAR_FLOAT, no_modifiers, .fvalue 0x4f32d05e⟩] } := by
  refine ⟨by decide!, by decide!, by decide!⟩

/-! ## Assignment of a double to an integer variable -/

/-- C12: when `x` is recorded as an `int`, the float pre-pass answers false and the double
pre-pass true on the right-hand side, and the double evaluator returns `d`, the statement
`x = expr` returns, `x` is then recorded with the kind double and the value `d`, and the
names of the table are those left by the evaluation: no entry is added, and `x` occurs as
often as before the statement. -/
theorem C12_double_assignment_changes_kind (MAX_VARS : Nat) (x : String) (idx : Nat)
    (vt : VarType) (mx mods m0 : TypeModifiers) (n : Int) (e : ASTNode) (fuel : Nat)
    (s s1 s2 s3 : State) (d : F64)
    (hx : int_variable s x m0 n)
    (hf : is_float_expression e s = .ok false s1)
    (hd : is_double_expression e s1 = .ok true s2)
    (hv : evaluate_expression_double MAX_VARS e s2 = .ok d s3) :
    ∃ s', execute_statement MAX_VARS
          (.NODE_ASSIGNMENT (.NODE_IDENTIFIER idx x vt mx) e mods) fuel s = .ok () s'
      ∧ find_variable s'.symbol_table x = some ⟨x, .VAR_DOUBLE, mods, .dvalue d⟩
      ∧ table_names s'.symbol_table = table_names s3.symbol_table
      ∧ s'.symbol_table.length = s3.symbol_table.length
      ∧ (table_names s'.symbol_table).count x = (table_names s.symbol_table).count x
      ∧ s'.errors = s3.errors := by
  have hk0 : table_kept MAX_VARS s.symbol_table s := table_grows_refl _ _
  have hk1 : table_kept MAX_VARS s.symbol_table s1 := by
    have h := is_float_expression_table_kept MAX_VARS s.symbol_table e s hk0
    rw [hf] at h; exact h
  have hk2 : table_kept MAX_VARS s.symbol_table s2 := by
    have h := is_double_expression_table_kept MAX_VARS s.symbol_table e s1 hk1
    rw [hd] at h; exact h
  have hk3 : table_kept MAX_VARS s.symbol_table s3 := by
    have h := evaluate_expression_double_table_kept MAX_VARS s.symbol_table e s2 hk2
    rw [hv] at h; exact h
  obtain ⟨⟨extra, hnames, _, hnew⟩, _⟩ := hk3
  have hmem : x ∈ table_names s.symbol_table :=
    (find_variable_isSome_iff_mem _ _).mp (by rw [hx]; rfl)
  have hmem3 : x ∈ table_names s3.symbol_table := by rw [hnames]; simp [hmem]
  obtain ⟨v, hv3⟩ : ∃ v, find_variable s3.symbol_table x = some v :=
    Option.isSome_iff_exists.mp ((find_variable_isSome_iff_mem _ _).mpr hmem3)
  have hok := set_variable_of_find MAX_VARS x (.double d) .VAR_DOUBLE mods hv3
  have hfind := find_variable_set_variable MAX_VARS x (.double d) .VAR_DOUBLE mods (.dvalue d)
    s3.symbol_table rfl hok
  have hnm : table_names (set_variable MAX_VARS x (.double d) .VAR_DOUBLE mods
      s3.symbol_table).2 = table_names s3.symbol_table := by
    rcases set_variable_names MAX_VARS x (.double d) .VAR_DOUBLE mods s3.symbol_table with
      h | ⟨h, _⟩
    · exact h
    · exact absurd hmem3 h
  have hcount : (table_names s3.symbol_table).count x = (table_names s.symbol_table).count x := by
    rw [hnames, List.count_append, List.count_eq_zero_of_not_mem (fun h => hnew x h hmem)]
    rfl
  refine ⟨{ s3 with symbol_table :=
      (set_variable MAX_VARS x (.double d) .VAR_DOUBLE mods s3.symbol_table).2 },
    ?_, hfind, hnm, ?_, ?_, rfl⟩
  · cases e
    all_goals first
      | (simp [is_double_expression] at hd; done)
      | simp [execute_statement, hf, hd, hv, Res.bind, assign_variable, Res.ofOption,
          ASTNode.data_name, hok]
  · have h := congrArg List.length hnm
    simpa [table_names] using h
  · show (table_names (set_variable MAX_VARS x (.double d) .VAR_DOUBLE mods
      s3.symbol_table).2).count x = _
    rw [hnm, hcount]

theorem C12_double_assignment_changes_kind_witness :
    ∃ s', execute_statement 100
          (.NODE_ASSIGNMENT (.NODE_IDENTIFIER 0 "x" .NONE no_modifiers)
            (.NODE_DOUBLE 0x4004000000000000 no_modifiers) no_modifiers) 10 (state_with_x 5)
          = .ok () s'
      ∧ find_variable s'.symbol_table "x"
          = some ⟨"x", .VAR_DOUBLE, no_modifiers, .dvalue 0x4004000000000000⟩
      ∧ table_names s'.symbol_table = table_names (state_with_x 5).symbol_table
      ∧ s'.symbol_table.length = (state_with_x 5).symbol_table.length
      ∧ (table_names s'.symbol_table).count "x"
          = (table_names (state_with_x 5).symbol_table).count "x"
      ∧ s'.errors = (state_with_x 5).errors :=
  C12_double_assignment_changes_kind 100 "x" 0 .NONE no_modifiers no_modifiers no_modifiers 5
    (.NODE_DOUBLE 0x4004000000000000 no_modifiers) 10 (state_with_x 5) (state_with_x 5)
    (state_with_x 5) (state_with_x 5) 0x4004000000000000 rfl rfl rfl rfl

/-! ## The built-in calls `ragequit` and `chill` -/

/-- C21: `execute_ragequit_call` calls `ragequit` with the exit code `v` exactly when the
first argument is an integer literal node holding `v`; on an empty argument list and on a
first argument of any other node type it reports a usage error and ends the process with
`exit(EXIT_FAILURE)`, `ragequit` not being called. -/
theorem C21_ragequit_needs_int_literal (s : State) :
    (∀ (v : Int) (m : TypeModifiers) (rest : ArgumentList),
        execute_ragequit_call (.cons (.NODE_INT v m) rest) s
          = .exit v (emit (.ragequit v) s))
      ∧ execute_ragequit_call .nil s
          = .exit 1 (yyerror "No arguments provided for ragequit function call" s)
      ∧ (∀ (node : ASTNode) (rest : ArgumentList), node ≠ .null →
          node.is_int_literal = false →
          execute_ragequit_call (.cons node rest) s
            = .exit 1 (yyerror "First argument to ragequit must be a integer" s))
      ∧ (∀ msg, (yyerror msg s).output = s.output) := by
  refine ⟨fun v m rest => rfl, rfl, ?_, fun msg => rfl⟩
  intro node rest hnull hint
  cases node <;>
    first
    | exact absurd rfl hnull
    | (simp [ASTNode.is_int_literal] at hint; done)
    | rfl

theorem C21_ragequit_needs_int_literal_witness :
    execute_ragequit_call
        (.cons (.NODE_IDENTIFIER 0 "x" .VAR_INT no_modifiers) .nil) (state_with_x 3)
      = .exit 1 (yyerror "First argument to ragequit must be a integer" (state_with_x 3)) :=
  (C21_ragequit_needs_int_literal (state_with_x 3)).2.2.1
    (.NODE_IDENTIFIER 0 "x" .VAR_INT no_modifiers) .nil (by simp) rfl

/-- C22, as stated, fails: an integer literal node holding -1 is not rejected;
`execute_chill_call` returns after calling `chill` with the value converted to
`unsigned int`, 4294967295, and reports nothing. -/
theorem C22_negative_literal_is_passed :
    execute_chill_call (.cons (.NODE_INT (-1) no_modifiers) .nil) State.initial
      = .ok () (emit (.chill 4294967295) State.initial)
      ∧ (emit (.chill 4294967295) State.initial).errors = [] := by
  decide

/-- C22 (amended): `execute_chill_call` looks at the node type and at the qualifier, not at
the value. An integer literal node is passed to `chill` whatever its value, converted to
`unsigned int` (for a non-negative value that is the value itself); so is a character
literal carrying the unsigned qualifier. A first argument that is not an integer literal node
and does not carry the unsigned qualifier is rejected: the error is reported and the process
ends with `exit(EXIT_FAILURE)`, `chill` not being called; so is an empty argument list. -/
theorem C22_chill_checks_node_type (s : State) :
    (∀ (v : Int) (m : TypeModifiers) (rest : ArgumentList),
        execute_chill_call (.cons (.NODE_INT v m) rest) s
          = .ok () (emit (.chill (to_unsigned v)) s))
      ∧ (∀ v : Int, 0 ≤ v → v ≤ INT_MAX → (to_unsigned v : Int) = v)
      ∧ (∀ (v : Int) (m : TypeModifiers) (rest : ArgumentList), m.is_unsigned = true →
          execute_chill_call (.cons (.NODE_CHAR v m) rest) s
            = .ok () (emit (.chill (to_unsigned v)) s))
      ∧ (∀ (node : ASTNode) (m : TypeModifiers) (rest : ArgumentList),
          node.is_int_literal = false → node.get_modifiers = some m →
          m.is_unsigned = false →
          execute_chill_call (.cons node rest) s
            = .exit 1 (yyerror "First argument to chill must be a unsigned integer" s))
      ∧ execute_chill_call .nil s
          = .exit 1 (yyerror "No arguments provided for chill function call" s) := by
  refine ⟨fun v m rest => rfl, ?_, ?_, ?_, rfl⟩
  · intro v h0 h1
    unfold to_unsigned
    unfold INT_MAX at h1
    rw [Int.toNat_of_nonneg (Int.emod_nonneg _ (by decide))]
    exact Int.emod_eq_of_lt h0 (by omega)
  · intro v m rest hm
    simp [execute_chill_call, ASTNode.get_modifiers, Res.ofOption, Res.bind, hm]
  · intro node m rest hint hmods hm
    cases node <;>
      first
      | (simp [ASTNode.is_int_literal] at hint; done)
      | (simp [ASTNode.get_modifiers] at hmods; done)
      | (simp only [ASTNode.get_modifiers, Option.some.injEq] at hmods
         subst hmods
         simp [execute_chill_call, ASTNode.get_modifiers, Res.ofOption, Res.bind, hm])

theorem C22_chill_checks_node_type_witness :
    execute_chill_call
        (.cons (.NODE_FLOAT 0x3fc00000 no_modifiers) .nil) State.initial
      = .exit 1 (yyerror "First argument to chill must be a unsigned integer" State.initial) :=
  (C22_chill_checks_node_type State.initial).2.2.2.1
    (.NODE_FLOAT 0x3fc00000 no_modifiers) no_modifiers .nil rfl rfl rfl

/-! ## The format of `yapping` with a `%b` placeholder -/

/-- `strstr` returns the first position at which the needle occurs. -/
theorem strstr_first {α : Type} [DecidableEq α] (needle : List α) :
    ∀ (haystack : List α) (pos : Nat), strstr haystack needle = some pos →
      occurs_at needle haystack pos ∧ ∀ k, k < pos → ¬ occurs_at needle haystack k := by
  intro haystack
  induction haystack with
  | nil =>
    intro pos h
    by_cases hn : needle = []
    · simp only [strstr, hn, if_true, Option.some.injEq] at h
      subst h
      subst hn
      exact ⟨by simp [occurs_at], fun k hk => absurd hk (Nat.not_lt_zero k)⟩
    · simp [strstr, hn] at h
  | cons c rest ih =>
    intro pos h
    by_cases hp : needle.isPrefixOf (c :: rest) = true
    · simp only [strstr, hp, if_true, Option.some.injEq] at h
      subst h
      exact ⟨by simpa [occurs_at] using hp, fun k hk => absurd hk (Nat.not_lt_zero k)⟩
    · simp only [strstr, hp, Bool.false_eq_true, if_false, Option.map_eq_some'] at h
      obtain ⟨p, hp1, rfl⟩ := h
      obtain ⟨h1, h2⟩ := ih p hp1
      refine ⟨by simpa [occurs_at] using h1, ?_⟩
      intro k hk
      cases k with
      | zero => simpa [occurs_at] using hp
      | succ j =>
        have := h2 j (by omega)
        simpa [occurs_at] using this

/-- `strstr` finds the needle whenever it occurs. -/
theorem strstr_isSome {α : Type} [DecidableEq α] (needle : List α) :
    ∀ (haystack : List α) (k : Nat), occurs_at needle haystack k →
      (strstr haystack needle).isSome = true := by
  intro haystack
  induction haystack with
  | nil =>
    intro k h
    have hn : needle = [] := by
      cases needle with
      | nil => rfl
      | cons a l => simp [occurs_at, List.isPrefixOf] at h
    simp [strstr, hn]
  | cons c rest ih =>
    intro k h
    by_cases hp : needle.isPrefixOf (c :: rest) = true
    · simp [strstr, hp]
    · cases k with
      | zero => exact absurd (by simpa [occurs_at] using h) hp
      | succ j =>
        have hj : occurs_at needle rest j := by simpa [occurs_at] using h
        have := ih j hj
        simp only [strstr, hp, Bool.false_eq_true, if_false, Option.isSome_map']
        exact this

theorem set_after_prefix {α : Type} (pre post : List α) (a b c : α) :
    (pre ++ a :: b :: post).set (pre.length + 1) c = pre ++ a :: c :: post := by
  induction pre with
  | nil => rfl
  | cons x pre ih => simp only [List.cons_append, List.length_cons, List.set_cons_succ, ih]

theorem check_and_mark_identifier_output (id : Nat) (name msg : String) (s : State) :
    (check_and_mark_identifier id name msg s).2.output = s.output := by
  unfold check_and_mark_identifier
  split
  · rfl
  · dsimp only
    split <;> rfl

theorem same_effects_check {base s t : State} {id : Nat} {name msg : String} {b : Bool}
    (h : check_and_mark_identifier id name msg s = (b, t)) (hs : same_effects base s) :
    same_effects base t := by
  have h1 := check_and_mark_identifier_symbol_table id name msg s
  have h2 := check_and_mark_identifier_output id name msg s
  rw [h] at h1 h2
  exact ⟨h1.trans hs.1, h2.trans hs.2⟩

/-- The float pre-pass changes neither the table nor the output. -/
theorem is_float_expression_same_effects (base : State) :
    ∀ (e : ASTNode) (s : State), same_effects base s →
      (is_float_expression e s).ends_in (same_effects base) := by
  intro e
  induction e using ASTNode.expression_induction with
  | hop op left right m ihl ihr =>
    intro s hs
    rw [is_float_expression_operation]
    refine Res.ends_in_bind (ihl s hs) (fun l s1 h1 => ?_)
    split
    · exact h1
    · exact ihr s1 h1
  | hun op operand m _ =>
    intro s hs
    simp only [is_float_expression]
    exact hs
  | hleaf e h1 h2 =>
    intro s hs
    cases e
    case NODE_IDENTIFIER id name vt m =>
      simp only [is_float_expression]
      cases hc : check_and_mark_identifier id name "Undefined variable in type check" s with
      | mk b s1 =>
        have hk := same_effects_check hc hs
        cases b
        · exact hk
        · dsimp only
          cases find_variable s1.symbol_table name with
          | some v => exact hk
          | none => exact hk
    case NODE_OPERATION op l r m => exact absurd rfl (h1 _ _ _ _)
    case NODE_UNARY_OPERATION op o m => exact absurd rfl (h2 _ _ _)
    all_goals (simp only [is_float_expression]; exact hs)

/-- The double pre-pass changes neither the table nor the output. -/
theorem is_double_expression_same_effects (base : State) :
    ∀ (e : ASTNode) (s : State), same_effects base s →
      (is_double_expression e s).ends_in (same_effects base) := by
  intro e
  induction e using ASTNode.expression_induction with
  | hop op left right m ihl ihr =>
    intro s hs
    rw [is_double_expression_operation]
    refine Res.ends_in_bind (ihl s hs) (fun l s1 h1 => ?_)
    split
    · exact h1
    · exact ihr s1 h1
  | hun op operand m _ =>
    intro s hs
    simp only [is_double_expression]
    exact hs
  | hleaf e h1 h2 =>
    intro s hs
    cases e
    case NODE_IDENTIFIER id name vt m =>
      simp only [is_double_expression]
      cases hc : check_and_mark_identifier id name "Undefined variable in type check" s with
      | mk b s1 =>
        have hk := same_effects_check hc hs
        cases b
        · exact hk
        · dsimp only
          cases find_variable s1.symbol_table name with
          | some v => exact hk
          | none => exact hk
    case NODE_OPERATION op l r m => exact absurd rfl (h1 _ _ _ _)
    case NODE_UNARY_OPERATION op o m => exact absurd rfl (h2 _ _ _)
    all_goals (simp only [is_double_expression]; exact hs)

/-- The boolean evaluator changes neither the table nor the output. -/
theorem evaluate_expression_bool_same_effects (base : State) :
    ∀ (e : ASTNode) (s : State), same_effects base s →
      (evaluate_expression_bool e s).ends_in (same_effects base) := by
  intro e
  induction e using ASTNode.expression_induction with
  | hop op left right m ihl ihr =>
    intro s hs
    simp only [evaluate_expression_bool]
    split
    · exact Res.ends_in_bind (ihl s hs) fun l s1 h1 =>
        Res.ends_in_bind (ihr s1 h1) fun r s2 h2 => by split <;> exact h2
    · exact Res.ends_in_bind (ihl s hs) fun l s1 h1 =>
        Res.ends_in_bind (ihr s1 h1) fun r s2 h2 =>
          bool_binary_op_ends_in op l r h2 (fun _ => h2)
  | hun op operand m ih =>
    intro s hs
    simp only [evaluate_expression_bool]
    refine Res.ends_in_bind (ih s hs) fun v s1 h1 => ?_
    split <;> exact h1
  | hleaf e h1 h2 =>
    intro s hs
    cases e
    case NODE_IDENTIFIER id name vt m =>
      simp only [evaluate_expression_bool]
      cases hc : check_and_mark_identifier id name "Undefined variable" s with
      | mk b s1 =>
        have hk := same_effects_check hc hs
        cases b
        · exact hk
        · dsimp only
          split
          · split
            · exact Res.ends_in_ofOption _ hk
            · split
              · exact Res.ends_in_ofOption _ hk
              · split <;> exact Res.ends_in_ofOption _ hk
          · exact hk
    case NODE_OPERATION op l r m => exact absurd rfl (h1 _ _ _ _)
    case NODE_UNARY_OPERATION op o m => exact absurd rfl (h2 _ _ _)
    all_goals (simp only [evaluate_expression_bool]; exact hs)

/-- The encoding of a character has the number of bytes that `Char.utf8Size` gives. -/
theorem utf8_char_bytes_length (c : Char) : (utf8_char_bytes c).length = c.utf8Size := by
  have hsize : c.utf8Size = if c.val.toNat ≤ 127 then 1 else if c.val.toNat ≤ 2047 then 2
      else if c.val.toNat ≤ 65535 then 3 else 4 := rfl
  have hn : c.toNat = c.val.toNat := rfl
  rw [hsize]
  unfold utf8_char_bytes
  dsimp only
  rw [hn]
  split_ifs <;> first | rfl | omega

theorem utf8_bytes_length_go (l : List Char) :
    String.utf8ByteSize.go l = (l.flatMap utf8_char_bytes).length := by
  induction l with
  | nil => rfl
  | cons c l ih =>
    simp only [String.utf8ByteSize.go, List.flatMap_cons, List.length_append, ih,
      utf8_char_bytes_length]
    omega

/-- The number of bytes of a C string is the UTF-8 size of the string. -/
theorem utf8_bytes_length (str : String) : (utf8_bytes str).length = str.utf8ByteSize := by
  cases str with
  | mk l => exact (utf8_bytes_length_go l).symm

/-- A format of 256 bytes or more is cut: for 130 times `é` followed by `%b`, 262 bytes, the
buffer holds the first 255 bytes, in which there is no `%b`, and nothing is rewritten. -/
theorem rewrite_format_cut :
    (utf8_bytes (String.mk (List.replicate 130 'é' ++ ['%', 'b']))).length = 262
      ∧ rewrite_format (String.mk (List.replicate 130 'é' ++ ['%', 'b']))
        = (utf8_bytes (String.mk (List.replicate 130 'é'))).take 255 := by
  refine ⟨by decide!, by decide!⟩

/-- A byte below 128 in the encoding of a character is the whole encoding: the character is
the ASCII character of that code. -/
theorem utf8_char_bytes_ascii (c : Char) (b : Nat) (hb : b < 128) (hmem : b ∈ utf8_char_bytes c) :
    utf8_char_bytes c = [b] ∧ c = Char.ofNat b := by
  unfold utf8_char_bytes at hmem ⊢
  dsimp only at hmem ⊢
  split_ifs at hmem ⊢ with h1 h2 h3
  · simp only [List.mem_singleton] at hmem
    subst hmem
    exact ⟨rfl, (Char.ofNat_toNat c).symm⟩
  all_goals
    simp only [List.mem_cons, List.mem_singleton, List.not_mem_nil, or_false] at hmem
    omega

/-- An occurrence of `%b` in the bytes of a string is an occurrence of `%b` in its
characters. -/
theorem occurs_in_chars_of_bytes :
    ∀ (l : List Char) (k : Nat),
      occurs_at [37, 98] (l.flatMap utf8_char_bytes) k → ∃ j, occurs_at ['%', 'b'] l j := by
  intro l
  induction l with
  | nil =>
    intro k h
    simp [occurs_at, List.isPrefixOf] at h
  | cons c l ih =>
    intro k h
    by_cases hk : (utf8_char_bytes c).length ≤ k
    · have hrest : occurs_at [37, 98] (l.flatMap utf8_char_bytes)
          (k - (utf8_char_bytes c).length) := by
        unfold occurs_at at h ⊢
        rw [List.flatMap_cons, List.drop_append_eq_append_drop,
          List.drop_of_length_le hk, List.nil_append] at h
        exact h
      obtain ⟨j, hj⟩ := ih _ hrest
      exact ⟨j + 1, by simpa [occurs_at] using hj⟩
    · have hlt : k < (utf8_char_bytes c).length := by omega
      obtain ⟨t, ht⟩ := List.isPrefixOf_iff_prefix.mp h
      rw [List.flatMap_cons, List.drop_append_of_le_length (by omega)] at ht
      have hne : (utf8_char_bytes c).drop k ≠ [] := by
        intro h0
        have := congrArg List.length h0
        simp at this
        omega
      obtain ⟨x, xs, hx⟩ := List.exists_cons_of_ne_nil hne
      rw [hx] at ht
      simp only [List.cons_append, List.cons.injEq] at ht
      obtain ⟨h37, hxs⟩ := ht
      have hmem : (37 : Nat) ∈ utf8_char_bytes c := by
        have : x ∈ (utf8_char_bytes c).drop k := by rw [hx]; exact List.mem_cons_self _ _
        rw [← h37] at this
        exact List.mem_of_mem_drop this
      obtain ⟨henc, hc⟩ := utf8_char_bytes_ascii c 37 (by decide) hmem
      have hk0 : k = 0 := by
        rw [henc] at hlt
        simpa using hlt
      subst hk0
      rw [henc] at hx
      simp only [List.drop_zero, List.cons.injEq] at hx
      obtain ⟨_, hxs0⟩ := hx
      subst hxs0
      simp only [List.nil_append] at hxs
      cases l with
      | nil => simp at hxs
      | cons c2 l2 =>
        rw [List.flatMap_cons] at hxs
        have hmem2 : (98 : Nat) ∈ utf8_char_bytes c2 := by
          cases henc2 : utf8_char_bytes c2 with
          | nil =>
            have := utf8_char_bytes_length c2
            rw [henc2] at this
            have hpos : 0 < c2.utf8Size := Char.utf8Size_pos c2
            simp at this
            omega
          | cons y ys =>
            rw [henc2] at hxs
            simp only [List.cons_append, List.cons.injEq] at hxs
            rw [← hxs.1]
            exact List.mem_cons_self _ _
        obtain ⟨_, hc2⟩ := utf8_char_bytes_ascii c2 98 (by decide) hmem2
        refine ⟨0, ?_⟩
        subst hc hc2
        simp [occurs_at, List.isPrefixOf]

/-- An occurrence of `%b` in the characters of a string is an occurrence of `%b` in its
bytes. -/
theorem occurs_in_bytes_of_chars (l : List Char) (j : Nat)
    (h : occurs_at ['%', 'b'] l j) : ∃ k, occurs_at [37, 98] (l.flatMap utf8_char_bytes) k := by
  obtain ⟨t, ht⟩ := List.isPrefixOf_iff_prefix.mp h
  have hsplit : l = l.take j ++ '%' :: 'b' :: t := by
    have := List.take_append_drop j l
    rw [← ht] at this
    exact this.symm
  generalize l.take j = pre at hsplit
  subst hsplit
  refine ⟨(pre.flatMap utf8_char_bytes).length, ?_⟩
  unfold occurs_at
  rw [List.flatMap_append, List.drop_left]
  simp [List.isPrefixOf, utf8_char_bytes]

/-- The test `strstr(format, "%b") != NULL` gives the same answer on the characters of the
format as on its bytes. -/
theorem strstr_percent_b_bytes (format : String) :
    (strstr (utf8_bytes format) [37, 98]).isSome
      = (strstr format.toList ['%', 'b']).isSome := by
  rw [Bool.eq_iff_iff]
  constructor
  · intro h
    obtain ⟨pos, hpos⟩ := Option.isSome_iff_exists.mp h
    obtain ⟨j, hj⟩ := occurs_in_chars_of_bytes format.toList pos
      (strstr_first [37, 98] _ pos hpos).1
    exact strstr_isSome _ _ j hj
  · intro h
    obtain ⟨pos, hpos⟩ := Option.isSome_iff_exists.mp h
    obtain ⟨k, hk⟩ := occurs_in_bytes_of_chars format.toList pos
      (strstr_first ['%', 'b'] _ pos hpos).1
    exact strstr_isSome _ _ k hk

theorem utf8_bytes_percent_b (pre post : List Char) :
    utf8_bytes (String.mk (pre ++ '%' :: 'b' :: post))
      = utf8_bytes (String.mk pre) ++ 37 :: 98 :: utf8_bytes (String.mk post) := by
  simp only [utf8_bytes, String.toList, List.flatMap_append, List.flatMap_cons]
  rfl

/-- C23: for a string-literal format of fewer than 256 bytes in which `%b` occurs, and a
second argument on which both pre-passes answer false and the boolean evaluator returns
`val`, `execute_yapping_call` returns after one call of `yapping`, the only call made since
the state `s`: its format is the format of the node, byte for byte, with the `b` of the first
`%b` replaced by `s`, and its argument is the text "W" when `val` is true and "L" when it is
false. The table is left as it was. -/
theorem C23_percent_b_rewritten (MAX_VARS : Nat) (format : String) (expr : ASTNode)
    (rest : ArgumentList) (s s1 s2 s3 : State) (val : Bool) (pre post : List Char)
    (hformat : format.toList = pre ++ '%' :: 'b' :: post)
    (hlen : format.utf8ByteSize < 256)
    (hnode : expr.get_modifiers.isSome = true)
    (hf : is_float_expression expr s = .ok false s1)
    (hd : is_double_expression expr s1 = .ok false s2)
    (hv : evaluate_expression_bool expr s2 = .ok val s3) :
    ∃ pre1 post1 : List Nat,
      utf8_bytes format = pre1 ++ 37 :: 98 :: post1
        ∧ (∀ k, k < pre1.length → ¬ occurs_at [37, 98] (utf8_bytes format) k)
        ∧ execute_yapping_call MAX_VARS
            (.cons (.NODE_STRING_LITERAL format) (.cons expr rest)) s
          = .ok () (emit (.yapping_bytes (pre1 ++ 37 :: 115 :: post1)
              [.str (if val then "W" else "L")]) s3)
        ∧ s3.output = s.output
        ∧ s3.symbol_table = s.symbol_table := by
  have hlen0 : (utf8_bytes format).length < 256 := by
    rw [utf8_bytes_length]; exact hlen
  have hcond : (strstr format.toList ['%', 'b']).isSome = true := by
    apply strstr_isSome ['%', 'b'] format.toList pre.length
    unfold occurs_at
    rw [hformat, List.drop_left]
    simp [List.isPrefixOf]
  have hbytes : utf8_bytes format
      = utf8_bytes (String.mk pre) ++ 37 :: 98 :: utf8_bytes (String.mk post) := by
    rw [← utf8_bytes_percent_b]
    congr 1
    exact String.ext hformat
  have hocc : occurs_at [37, 98] (utf8_bytes format) (utf8_bytes (String.mk pre)).length := by
    unfold occurs_at
    rw [hbytes, List.drop_left]
    simp [List.isPrefixOf]
  have hsome := strstr_isSome [37, 98] (utf8_bytes format) _ hocc
  obtain ⟨pos, hpos⟩ := Option.isSome_iff_exists.mp hsome
  obtain ⟨hat, hfirst⟩ := strstr_first [37, 98] (utf8_bytes format) pos hpos
  have hle : pos ≤ (utf8_bytes format).length := by
    by_contra hgt
    have : (utf8_bytes format).drop pos = [] := List.drop_of_length_le (by omega)
    unfold occurs_at at hat
    rw [this] at hat
    simp [List.isPrefixOf] at hat
  obtain ⟨post1, hpost1⟩ : ∃ post1, (utf8_bytes format).drop pos = 37 :: 98 :: post1 := by
    obtain ⟨t, ht⟩ := List.isPrefixOf_iff_prefix.mp hat
    exact ⟨t, ht.symm⟩
  have hsplit : utf8_bytes format = (utf8_bytes format).take pos ++ 37 :: 98 :: post1 := by
    rw [← hpost1, List.take_append_drop]
  have hlen1 : ((utf8_bytes format).take pos).length = pos := by
    rw [List.length_take]; omega
  have h0 : same_effects s s := ⟨rfl, rfl⟩
  have e1 : same_effects s s1 := by
    have h := is_float_expression_same_effects s expr s h0
    rw [hf] at h; exact h
  have e2 : same_effects s s2 := by
    have h := is_double_expression_same_effects s expr s1 e1
    rw [hd] at h; exact h
  have e3 : same_effects s s3 := by
    have h := evaluate_expression_bool_same_effects s expr s2 e2
    rw [hv] at h; exact h
  have htake : (utf8_bytes format).take 255 = utf8_bytes format :=
    List.take_of_length_le (by omega)
  have hrewrite : rewrite_format format
      = (utf8_bytes format).take pos ++ 37 :: 115 :: post1 := by
    have hset : (utf8_bytes format).set (pos + 1) 115
        = (utf8_bytes format).take pos ++ 37 :: 115 :: post1 := by
      have h := set_after_prefix ((utf8_bytes format).take pos) post1 37 98 115
      rw [hlen1, ← hsplit] at h
      exact h
    unfold rewrite_format
    simp only [htake, hpos, hset]
  have hunsigned : ∃ u, yapping_is_unsigned expr s2 = some u := by
    cases expr <;> first
      | (simp [ASTNode.get_modifiers] at hnode; done)
      | exact ⟨_, rfl⟩
  obtain ⟨u, hu⟩ := hunsigned
  refine ⟨(utf8_bytes format).take pos, post1, hsplit, ?_, ?_, e3.2, e3.1⟩
  · intro k hk
    exact hfirst k (by omega)
  · have hcond1 : (strstr format.data ['%', 'b']).isSome = true := hcond
    simp [execute_yapping_call, hf, hd, hv, hu, Res.bind, Res.ofOption, hcond1, hrewrite]

theorem C23_percent_b_rewritten_witness :
    ∃ pre1 post1 : List Nat,
      utf8_bytes "é: %b %b\n" = pre1 ++ 37 :: 98 :: post1
        ∧ (∀ k, k < pre1.length → ¬ occurs_at [37, 98] (utf8_bytes "é: %b %b\n") k)
        ∧ execute_yapping_call 100
            (.cons (.NODE_STRING_LITERAL "é: %b %b\n")
              (.cons (.NODE_BOOLEAN true no_modifiers) .nil)) State.initial
          = .ok () (emit (.yapping_bytes (pre1 ++ 37 :: 115 :: post1)
              [.str (if true then "W" else "L")]) State.initial)
        ∧ State.initial.output = State.initial.output
        ∧ State.initial.symbol_table = State.initial.symbol_table :=
  C23_percent_b_rewritten 100 "é: %b %b\n" (.NODE_BOOLEAN true no_modifiers) .nil
    State.initial State.initial State.initial State.initial true
    ['é', ':', ' '] [' ', '%', 'b', '\n'] (by decide) (by decide) rfl rfl rfl rfl

/-! ## The built-in calls `yapping` and `yappin` -/

/-- C24, at the failing input: on an argument list whose first argument is the integer
literal 5, not a string literal, `execute_yapping_call` reports the error and returns, so
that execution continues, where `execute_yappin_call` reports the error and ends the process
with `exit(EXIT_FAILURE)`. On an empty argument list both end the process, and for a lone
string literal both pass the string to their primitive under the format `"%s"`. -/
theorem C24_yapping_returns_where_yappin_exits :
    execute_yapping_call 100 (.cons (.NODE_INT 5 no_modifiers) .nil) State.initial
        = .ok () (yyerror "First argument to yapping must be a string literal" State.initial)
      ∧ execute_yappin_call 100 (.cons (.NODE_INT 5 no_modifiers) .nil) State.initial
        = .exit 1 (yyerror "First argument to yappin must be a string literal" State.initial)
      ∧ execute_yapping_call 100 .nil State.initial
        = .exit 1 (yyerror "No arguments provided for yapping function call" State.initial)
      ∧ execute_yappin_call 100 .nil State.initial
        = .exit 1 (yyerror "No arguments provided for yappin function call" State.initial)
      ∧ execute_yapping_call 100 (.cons (.NODE_STRING_LITERAL "hi") .nil) State.initial
        = .ok () (emit (.yapping "%s" [.str "hi"]) State.initial)
      ∧ execute_yappin_call 100 (.cons (.NODE_STRING_LITERAL "hi") .nil) State.initial
        = .ok () (emit (.yappin "%s" [.str "hi"]) State.initial) := by
  refine ⟨rfl, rfl, rfl, rfl, rfl, rfl⟩

/-- C25: for a boolean literal as second argument, `execute_yappin_call` calls `yappin`
exactly once: with the format and the integer 1 or 0 when the format contains `%d`, and
otherwise with the text "W" for true and "L" for false. -/
theorem C25_yappin_boolean_literal (MAX_VARS : Nat) (format : String) (b : Bool)
    (m : TypeModifiers) (rest : ArgumentList) (s : State) :
    execute_yappin_call MAX_VARS
        (.cons (.NODE_STRING_LITERAL format) (.cons (.NODE_BOOLEAN b m) rest)) s
      = (if (strstr format.toList ['%', 'd']).isSome then
          .ok () (emit (.yappin format [.int (if b then 1 else 0)]) s)
        else .ok () (emit (.yappin (if b then "W" else "L") []) s))
      ∧ (∀ e, (emit e s).output = s.output ++ [e]) := by
  refine ⟨?_, fun e => rfl⟩
  cases b <;>
    simp [execute_yappin_call, yappin_is_bool, Res.ofOption, Res.bind,
      evaluate_expression_int, bool_to_int]

/-! ## Integer arithmetic -/

theorem wrap32_modEq (z : Int) : wrap32 z ≡ z [ZMOD 4294967296] := by
  unfold wrap32
  have h : (z + 2147483648) % 4294967296 ≡ z + 2147483648 [ZMOD 4294967296] :=
    Int.mod_modEq _ _
  simpa using h.sub_right 2147483648

theorem wrap32_congr {x y : Int} (h : x ≡ y [ZMOD 4294967296]) : wrap32 x = wrap32 y := by
  unfold wrap32
  have h1 : (x + 2147483648) % 4294967296 = (y + 2147483648) % 4294967296 :=
    h.add_right 2147483648
  rw [h1]

theorem evaluate_expression_int_arith (MAX_VARS : Nat) (op : OperatorType)
    (left right : ASTNode) (m : TypeModifiers) (a b : Int) (s : State)
    (hl : evaluate_expression_int MAX_VARS left s = .ok a s)
    (hr : evaluate_expression_int MAX_VARS right s = .ok b s)
    (hop : op = .OP_PLUS ∨ op = .OP_MINUS ∨ op = .OP_TIMES) :
    evaluate_expression_int MAX_VARS (.NODE_OPERATION op left right m) s
      = int_binary_op op m.is_unsigned a b s := by
  rcases hop with rfl | rfl | rfl <;> simp [evaluate_expression_int, hl, hr, Res.bind]

/-- C26: for a tree built from integer literals with `+`, `-` and `*`,
`evaluate_expression_int` returns the value of the expression in the integers whenever the
value of every sub-expression is in the range of an `int`, and in every case that value
reduced modulo 2^32 into the range of an `int`; the state is left as it is. The comparisons
`<`, `>`, `<=`, `>=`, `==`, `!=` return 1 when the relation holds between the values of the
two operands and 0 when it does not. -/
theorem C26_integer_arithmetic_exact (MAX_VARS : Nat) (s : State) :
    (∀ (e : ASTNode) (z : Int), ExactTree e z →
        ArithTree e z ∧ evaluate_expression_int MAX_VARS e s = .ok z s)
      ∧ (∀ (e : ASTNode) (z : Int), ArithTree e z →
        evaluate_expression_int MAX_VARS e s = .ok (wrap32 z) s)
      ∧ (∀ (left right : ASTNode) (m : TypeModifiers) (a b : Int) (s1 s2 : State),
        evaluate_expression_int MAX_VARS left s = .ok a s1 →
        evaluate_expression_int MAX_VARS right s1 = .ok b s2 →
        evaluate_expression_int MAX_VARS (.NODE_OPERATION .OP_LT left right m) s
            = .ok (if a < b then 1 else 0) s2
          ∧ evaluate_expression_int MAX_VARS (.NODE_OPERATION .OP_GT left right m) s
            = .ok (if a > b then 1 else 0) s2
          ∧ evaluate_expression_int MAX_VARS (.NODE_OPERATION .OP_LE left right m) s
            = .ok (if a ≤ b then 1 else 0) s2
          ∧ evaluate_expression_int MAX_VARS (.NODE_OPERATION .OP_GE left right m) s
            = .ok (if a ≥ b then 1 else 0) s2
          ∧ evaluate_expression_int MAX_VARS (.NODE_OPERATION .OP_EQ left right m) s
            = .ok (if a = b then 1 else 0) s2
          ∧ evaluate_expression_int MAX_VARS (.NODE_OPERATION .OP_NE left right m) s
            = .ok (if a ≠ b then 1 else 0) s2) := by
  have hwrap : ∀ (e : ASTNode) (z : Int), ArithTree e z →
      evaluate_expression_int MAX_VARS e s = .ok (wrap32 z) s := by
    intro e z h
    induction h with
    | literal v m h1 h2 => simp [evaluate_expression_int, wrap32_of_int h1 h2]
    | plus l r a b m _ _ ihl ihr =>
      rw [evaluate_expression_int_arith MAX_VARS _ l r m _ _ s ihl ihr (Or.inl rfl)]
      simp only [int_binary_op]
      rw [wrap32_congr ((wrap32_modEq a).add (wrap32_modEq b))]
    | minus l r a b m _ _ ihl ihr =>
      rw [evaluate_expression_int_arith MAX_VARS _ l r m _ _ s ihl ihr (Or.inr (Or.inl rfl))]
      simp only [int_binary_op]
      rw [wrap32_congr ((wrap32_modEq a).sub (wrap32_modEq b))]
    | times l r a b m _ _ ihl ihr =>
      rw [evaluate_expression_int_arith MAX_VARS _ l r m _ _ s ihl ihr (Or.inr (Or.inr rfl))]
      simp only [int_binary_op]
      rw [wrap32_congr ((wrap32_modEq a).mul (wrap32_modEq b))]
  have harith : ∀ (e : ASTNode) (z : Int), ExactTree e z → ArithTree e z := by
    intro e z h
    induction h with
    | literal v m h1 h2 => exact .literal v m h1 h2
    | plus l r a b m _ _ _ _ ihl ihr => exact .plus l r a b m ihl ihr
    | minus l r a b m _ _ _ _ ihl ihr => exact .minus l r a b m ihl ihr
    | times l r a b m _ _ _ _ ihl ihr => exact .times l r a b m ihl ihr
  have hrange : ∀ (e : ASTNode) (z : Int), ExactTree e z → INT_MIN ≤ z ∧ z ≤ INT_MAX := by
    intro e z h
    cases h with
    | literal v m h1 h2 => exact ⟨h1, h2⟩
    | plus l r a b m _ _ h1 h2 => exact ⟨h1, h2⟩
    | minus l r a b m _ _ h1 h2 => exact ⟨h1, h2⟩
    | times l r a b m _ _ h1 h2 => exact ⟨h1, h2⟩
  refine ⟨fun e z h => ⟨harith e z h, ?_⟩, hwrap, ?_⟩
  · rw [hwrap e z (harith e z h), wrap32_of_int (hrange e z h).1 (hrange e z h).2]
  · intro left right m a b s1 s2 hl hr
    refine ⟨?_, ?_, ?_, ?_, ?_, ?_⟩ <;>
      simp [evaluate_expression_int, hl, hr, Res.bind, int_binary_op, bool_to_int]

theorem C26_integer_arithmetic_exact_witness :
    evaluate_expression_int 100
        (.NODE_OPERATION .OP_TIMES
          (.NODE_OPERATION .OP_PLUS (.NODE_INT 2 no_modifiers) (.NODE_INT 3 no_modifiers)
            no_modifiers)
          (.NODE_INT 4 no_modifiers) no_modifiers) State.initial
        = .ok ((2 + 3) * 4) State.initial
      ∧ evaluate_expression_int 100
          (.NODE_OPERATION .OP_PLUS (.NODE_INT 2147483647 no_modifiers)
            (.NODE_INT 1 no_modifiers) no_modifiers) State.initial
        = .ok (wrap32 (2147483647 + 1)) State.initial :=
  ⟨((C26_integer_arithmetic_exact 100 State.initial).1 _ _
      (.times _ _ (2 + 3) 4 no_modifiers
        (.plus _ _ 2 3 no_modifiers
          (.literal 2 no_modifiers (by decide) (by decide))
          (.literal 3 no_modifiers (by decide) (by decide)) (by decide) (by decide))
        (.literal 4 no_modifiers (by decide) (by decide)) (by decide) (by decide))).2,
   (C26_integer_arithmetic_exact 100 State.initial).2.1 _ _
      (.plus _ _ 2147483647 1 no_modifiers
        (.literal 2147483647 no_modifiers (by decide) (by decide))
        (.literal 1 no_modifiers (by decide) (by decide)))⟩

/-! ## The For statement as a While statement -/

theorem Res.bind_assoc {α β γ : Type} (r : Res α) (f : α → State → Res β)
    (g : β → State → Res γ) :
    (r.bind f).bind g = r.bind fun v s => (f v s).bind g := by
  cases r <;> rfl

theorem for_loop_eq_while_loop (cond : State → Res Int) (body incr : State → Res Unit) :
    ∀ (fuel : Nat) (s : State),
      for_loop true cond body incr fuel s
        = while_loop cond (fun s1 => (body s1).bind fun _ s2 =>
            (incr s2).bind fun _ s3 => .ok () s3) fuel s := by
  intro fuel
  induction fuel with
  | zero => intro s; rfl
  | succ fuel ih =>
    intro s
    simp only [for_loop, while_loop, if_true]
    congr 1
    funext c s1
    by_cases hc : c = 0
    · simp [hc]
    · simp only [hc, if_false, ne_eq, not_false_eq_true, if_true, Res.bind_assoc]
      congr 1
      funext _ s2
      congr 1
      funext _ s3
      simp only [Res.bind, ih]

/-- C27: a For statement with a condition is its init statement followed by the While
statement with the same condition and the body `body; incr`: for every iteration budget the
two end in the same way, with the same table and the same calls of the primitives, and the
one uses up the budget exactly when the other does. When the condition is false after the
init statement, the For statement returns in the state left by the condition, body and
increment not being executed. -/
theorem C27_for_is_init_then_while (MAX_VARS : Nat) (init cond incr body : ASTNode)
    (m m1 : TypeModifiers) (fuel : Nat) (s : State) (hcond : cond ≠ .null) :
    execute_for_statement MAX_VARS (.NODE_FOR_STATEMENT init cond incr body m) fuel s
        = ((execute_statement MAX_VARS init fuel s).bind fun _ s1 =>
            execute_while_statement MAX_VARS
              (.NODE_WHILE_STATEMENT cond (body_then_incr body incr) m1) fuel s1)
      ∧ (∀ s1 s2 : State, execute_statement MAX_VARS init fuel s = .ok () s1 →
          evaluate_expression MAX_VARS cond s1 = .ok 0 s2 → 0 < fuel →
          execute_for_statement MAX_VARS (.NODE_FOR_STATEMENT init cond incr body m) fuel s
            = .ok () s2) := by
  have hnull : cond.is_null = false := by
    cases cond <;> first | exact absurd rfl hcond | rfl
  have hfor : execute_for_statement MAX_VARS (.NODE_FOR_STATEMENT init cond incr body m) fuel s
      = (execute_statement MAX_VARS init fuel s).bind fun _ s1 =>
          for_loop true (evaluate_expression MAX_VARS cond)
            (execute_statement MAX_VARS body fuel) (execute_statement MAX_VARS incr fuel)
            fuel s1 := by
    rw [execute_for_statement_eq, hnull]
    rfl
  refine ⟨?_, ?_⟩
  · rw [hfor]
    congr 1
    funext _ s1
    rw [for_loop_eq_while_loop]
    simp only [execute_while_statement, execute_statement, body_then_incr,
      execute_statement_list]
  · intro s1 s2 hinit hc hfuel
    rw [hfor, hinit]
    obtain ⟨k, rfl⟩ := Nat.exists_eq_succ_of_ne_zero (Nat.pos_iff_ne_zero.mp hfuel)
    simp [Res.bind, for_loop, hc]

theorem C27_for_is_init_then_while_witness :
    execute_for_statement 100 (counting_for "i" 3 no_modifiers 0 1 2 3 4) 10 State.initial
        = ((execute_statement 100 (counting_init "i" no_modifiers 0) 10 State.initial).bind
            fun _ s1 =>
              execute_while_statement 100
                (.NODE_WHILE_STATEMENT (counting_cond "i" 3 no_modifiers 1)
                  (body_then_incr (counting_body "i" no_modifiers 4)
                    (counting_incr "i" no_modifiers 2 3)) no_modifiers) 10 s1)
      ∧ execute_for_statement 100 (counting_for "i" 0 no_modifiers 0 1 2 3 4) 10 State.initial
        = .ok () { State.initial with
            symbol_table := [⟨"i", .VAR_INT, no_modifiers, .ivalue 0⟩],
            checked := [(1, true)] } :=
  ⟨(C27_for_is_init_then_while 100 (counting_init "i" no_modifiers 0)
      (counting_cond "i" 3 no_modifiers 1) (counting_incr "i" no_modifiers 2 3)
      (counting_body "i" no_modifiers 4) no_modifiers no_modifiers 10 State.initial
      (by simp [counting_cond])).1,
   (C27_for_is_init_then_while 100 (counting_init "i" no_modifiers 0)
      (counting_cond "i" 0 no_modifiers 1) (counting_incr "i" no_modifiers 2 3)
      (counting_body "i" no_modifiers 4) no_modifiers no_modifiers 10 State.initial
      (by simp [counting_cond])).2
      { State.initial with symbol_table := [⟨"i", .VAR_INT, no_modifiers, .ivalue 0⟩] }
      { State.initial with
        symbol_table := [⟨"i", .VAR_INT, no_modifiers, .ivalue 0⟩],
        checked := [(1, true)] }
      (by decide) (by decide) (by decide)⟩

/-! ## The resolution cache -/

/-- C28: the resolution cache of an identifier node is written once. The first call of
`check_and_mark_identifier` on a node records whether the name is in the table at that
moment, returns it, leaves the table as it is and reports the error exactly when the name is
absent. Every later call, in any state in which the node carries that record, whatever the
table is by then, returns the recorded validity and changes nothing; and calls on any node
keep the records that exist. -/
theorem C28_resolution_cache_written_once (id : Nat) (name msg : String) (s : State)
    (hfresh : s.checked.lookup id = Option.none) :
    (check_and_mark_identifier id name msg s).1 = (find_variable s.symbol_table name).isSome
      ∧ (check_and_mark_identifier id name msg s).2.checked.lookup id
          = some (check_and_mark_identifier id name msg s).1
      ∧ (check_and_mark_identifier id name msg s).2.symbol_table = s.symbol_table
      ∧ ((check_and_mark_identifier id name msg s).2.errors
          = if (find_variable s.symbol_table name).isSome then s.errors
            else s.errors ++ [(msg, s.yylineno - 2)])
      ∧ (∀ (t : State) (b : Bool) (msg1 : String), t.checked.lookup id = some b →
          check_and_mark_identifier id name msg1 t = (b, t))
      ∧ (∀ (t : State) (b : Bool) (id1 : Nat) (name1 msg1 : String),
          t.checked.lookup id = some b →
          (check_and_mark_identifier id1 name1 msg1 t).2.checked.lookup id = some b) := by
  refine ⟨?_, ?_, ?_, ?_, ?_, ?_⟩
  · cases h : (find_variable s.symbol_table name).isSome <;>
      simp [check_and_mark_identifier, hfresh, h]
  · cases h : (find_variable s.symbol_table name).isSome <;>
      simp [check_and_mark_identifier, hfresh, h, yyerror, List.lookup]
  · exact check_and_mark_identifier_symbol_table id name msg s
  · cases h : (find_variable s.symbol_table name).isSome <;>
      simp [check_and_mark_identifier, hfresh, h, yyerror]
  · intro t b msg1 ht
    simp [check_and_mark_identifier, ht]
  · intro t b id1 name1 msg1 ht
    cases h1 : t.checked.lookup id1 with
    | some b1 => simp [check_and_mark_identifier, h1, ht]
    | none =>
      have hne : id ≠ id1 := by
        intro h
        rw [h, h1] at ht
        exact Option.noConfusion ht
      have hbeq : (id == id1) = false := by simpa using hne
      cases h : (find_variable t.symbol_table name1).isSome <;>
        simp [check_and_mark_identifier, h1, h, yyerror, List.lookup, hbeq, ht]

theorem C28_resolution_cache_written_once_witness :
    (check_and_mark_identifier 7 "x" "Undefined variable" (state_with_x 5)).1
        = (find_variable (state_with_x 5).symbol_table "x").isSome
      ∧ (check_and_mark_identifier 7 "x" "Undefined variable" (state_with_x 5)).2.checked.lookup 7
          = some (check_and_mark_identifier 7 "x" "Undefined variable" (state_with_x 5)).1 :=
  ⟨(C28_resolution_cache_written_once 7 "x" "Undefined variable" (state_with_x 5) rfl).1,
   (C28_resolution_cache_written_once 7 "x" "Undefined variable" (state_with_x 5) rfl).2.1⟩

/-! ## The default case -/

/-- C29: a default case ends the dispatch. Whatever the selector and whatever the cases
declared before it, the cases declared after a default case do not matter: the loop over the
cases gives the same result as on the list cut after the default, whose body is the last
thing executed. With the default declared first, the dispatch is the execution of the
default body alone, for every selector value. -/
theorem C29_default_ends_dispatch (MAX_VARS fuel : Nat) :
    (∀ (pre post : List (ASTNode × ASTNode)) (body : ASTNode) (switch_value : Int)
        (matched : Bool) (s : State),
        execute_cases MAX_VARS (CaseNode.ofList (pre ++ (.null, body) :: post)) switch_value
            matched fuel s
          = execute_cases MAX_VARS (CaseNode.ofList (pre ++ [(.null, body)])) switch_value
            matched fuel s)
      ∧ (∀ (body : ASTNode) (next : CaseNode) (switch_value : Int) (matched : Bool)
          (s : State),
          execute_cases MAX_VARS (.cons .null body next) switch_value matched fuel s
            = execute_statement MAX_VARS body fuel s)
      ∧ (∀ (expression body : ASTNode) (next : CaseNode) (s : State),
          execute_switch_statement MAX_VARS
              (.NODE_SWITCH_STATEMENT expression (.cons .null body next)) fuel s
            = (evaluate_expression MAX_VARS expression s).bind fun _ s1 =>
                land_longjmp s1.setjmp_count
                  (execute_statement MAX_VARS body fuel (setjmp_break_env s1))) := by
  have hdefault : ∀ (body : ASTNode) (next : CaseNode) (switch_value : Int) (matched : Bool)
      (s : State),
      execute_cases MAX_VARS (.cons .null body next) switch_value matched fuel s
        = execute_statement MAX_VARS body fuel s := by
    intro body next switch_value matched s
    rw [execute_cases_default, execute_statements_eq]
  refine ⟨?_, hdefault, ?_⟩
  · intro pre post body switch_value
    induction pre with
    | nil =>
      intro matched s
      simp only [List.nil_append, CaseNode.ofList]
      rw [hdefault, hdefault]
    | cons c pre ih =>
      intro matched s
      simp only [List.cons_append, CaseNode.ofList]
      cases hc : c.1.is_null with
      | true =>
        rw [ASTNode.eq_null_of_is_null hc, hdefault, hdefault]
      | false =>
        rw [execute_cases_valued _ _ _ _ _ _ _ _ hc, execute_cases_valued _ _ _ _ _ _ _ _ hc]
        simp only [List.append_eq, ih]
  · intro expression body next s
    rw [execute_switch_statement_eq]
    simp only [hdefault]

/-! ## Increment of a float variable as a statement -/

/-- C30, at the failing input: with `x` a `float` holding 1.5, the expression statement
`x++` goes the integer way, the pre-pass having no case for a unary node: it reports "Cannot
use float variable in integer context", and writes the `int` 2 under `x`, so that `x` is
recorded as an `int` and its value has not changed by 1. The float evaluator, on the same
node, leaves `x` a `float` holding 2.5. -/
theorem C30_float_increment_goes_integer_way :
    execute_statement 100 x_post_increment 10 (state_with_float_x 0x3fc00000)
        = .ok () (yyerror "Cannot use float variable in integer context"
            { State.initial with
              symbol_table := [⟨"x", .VAR_INT, no_modifiers, .ivalue 2⟩],
              checked := [(0, true)] })
      ∧ evaluate_expression_float 100 x_post_increment (state_with_float_x 0x3fc00000)
        = .ok 0x3fc00000 (state_with_float_x 0x40200000) := by
  refine ⟨by decide!, by decide!⟩

/-! ## The kind recorded by an assignment -/

/-- A name of the base table is in every table that comes from it by upserts. -/
theorem mem_of_table_kept {MAX_VARS : Nat} {base : List Variable} {t : State} {x : String}
    (hk : table_kept MAX_VARS base t) (hx : x ∈ table_names base) :
    x ∈ table_names t.symbol_table := by
  obtain ⟨⟨extra, hnames, _, _⟩, _⟩ := hk
  rw [hnames]
  exact List.mem_append_left _ hx

/-- The upsert of an assignment to a name that is in the table: the entry then holds the
kind, the qualifiers and the value passed, and nothing is reported. -/
theorem assign_variable_of_mem (MAX_VARS idx : Nat) (x : String) (vt : VarType)
    (mx mods : TypeModifiers) (value : CObject) (type : VarType) (val : Value) (msg : String)
    (s : State) (hread : read_object type value = some val)
    (hmem : x ∈ table_names s.symbol_table) :
    ∃ s', assign_variable MAX_VARS (.NODE_IDENTIFIER idx x vt mx) value type mods msg s
          = .ok () s'
      ∧ find_variable s'.symbol_table x = some ⟨x, type, mods, val⟩
      ∧ table_names s'.symbol_table = table_names s.symbol_table
      ∧ s'.errors = s.errors := by
  obtain ⟨v, hv⟩ : ∃ v, find_variable s.symbol_table x = some v :=
    Option.isSome_iff_exists.mp ((find_variable_isSome_iff_mem _ _).mpr hmem)
  have hok := set_variable_of_find MAX_VARS x value type mods hv
  have hfind := find_variable_set_variable MAX_VARS x value type mods val s.symbol_table
    hread hok
  have hnm : table_names (set_variable MAX_VARS x value type mods s.symbol_table).2
      = table_names s.symbol_table := by
    rcases set_variable_names MAX_VARS x value type mods s.symbol_table with h | ⟨h, _⟩
    · exact h
    · exact absurd hmem h
  refine ⟨{ s with symbol_table := (set_variable MAX_VARS x value type mods s.symbol_table).2 },
    ?_, hfind, hnm, rfl⟩
  simp [assign_variable, ASTNode.data_name, Res.ofOption, Res.bind, hok]

/-- C31: the kind recorded by an assignment follows the right-hand side alone. For a
variable `x` that is in the table, with whatever kind, the statement `x = expr` records: for
a character literal the kind int and the code of the character; for a boolean literal the
kind bool; for an expression on which the float pre-pass answers true the kind float; for
one on which it answers false and the double pre-pass true the kind double; and for every
other expression the kind int. In each case the qualifiers are those of the assignment node
and the value is the one returned by the evaluator of that kind. -/
theorem C31_kind_follows_right_hand_side (MAX_VARS idx : Nat) (x : String) (vt : VarType)
    (mx mods : TypeModifiers) (v0 : Variable) (fuel : Nat) (s : State)
    (hx : find_variable s.symbol_table x = some v0) :
    (∀ (c : Int) (m : TypeModifiers), ∃ s',
        execute_statement MAX_VARS
            (.NODE_ASSIGNMENT (.NODE_IDENTIFIER idx x vt mx) (.NODE_CHAR c m) mods) fuel s
          = .ok () s'
        ∧ find_variable s'.symbol_table x = some ⟨x, .VAR_INT, mods, .ivalue c⟩)
      ∧ (∀ (b : Bool) (m : TypeModifiers), ∃ s',
        execute_statement MAX_VARS
            (.NODE_ASSIGNMENT (.NODE_IDENTIFIER idx x vt mx) (.NODE_BOOLEAN b m) mods) fuel s
          = .ok () s'
        ∧ find_variable s'.symbol_table x = some ⟨x, .VAR_BOOL, mods, .bvalue b⟩)
      ∧ (∀ (e : ASTNode) (f : F32) (s1 s2 : State),
        is_float_expression e s = .ok true s1 →
        evaluate_expression_float MAX_VARS e s1 = .ok f s2 →
        ∃ s', execute_statement MAX_VARS
            (.NODE_ASSIGNMENT (.NODE_IDENTIFIER idx x vt mx) e mods) fuel s = .ok () s'
          ∧ find_variable s'.symbol_table x = some ⟨x, .VAR_FLOAT, mods, .fvalue f⟩)
      ∧ (∀ (e : ASTNode) (d : F64) (s1 s2 s3 : State),
        is_float_expression e s = .ok false s1 →
        is_double_expression e s1 = .ok true s2 →
        evaluate_expression_double MAX_VARS e s2 = .ok d s3 →
        ∃ s', execute_statement MAX_VARS
            (.NODE_ASSIGNMENT (.NODE_IDENTIFIER idx x vt mx) e mods) fuel s = .ok () s'
          ∧ find_variable s'.symbol_table x = some ⟨x, .VAR_DOUBLE, mods, .dvalue d⟩)
      ∧ (∀ (e : ASTNode) (n : Int) (s1 s2 s3 : State),
        e ≠ .null → e.is_boolean_literal = false →
        is_float_expression e s = .ok false s1 →
        is_double_expression e s1 = .ok false s2 →
        evaluate_expression_int MAX_VARS e s2 = .ok n s3 →
        ∃ s', execute_statement MAX_VARS
            (.NODE_ASSIGNMENT (.NODE_IDENTIFIER idx x vt mx) e mods) fuel s = .ok () s'
          ∧ find_variable s'.symbol_table x = some ⟨x, .VAR_INT, mods, .ivalue n⟩) := by
  have hmem : x ∈ table_names s.symbol_table :=
    (find_variable_isSome_iff_mem _ _).mp (by rw [hx]; rfl)
  have hk0 : table_kept MAX_VARS s.symbol_table s := table_grows_refl _ _
  refine ⟨?_, ?_, ?_, ?_, ?_⟩
  · intro c m
    obtain ⟨s', h1, h2, _⟩ := assign_variable_of_mem MAX_VARS idx x vt mx mods (.int c)
      .VAR_INT (.ivalue c) "Failed to set character variable" s rfl hmem
    exact ⟨s', by simpa [execute_statement] using h1, h2⟩
  · intro b m
    obtain ⟨s', h1, h2, _⟩ := assign_variable_of_mem MAX_VARS idx x vt mx mods (.bool b)
      .VAR_BOOL (.bvalue b) "Failed to set boolean variable" s rfl hmem
    exact ⟨s', by simpa [execute_statement] using h1, h2⟩
  · intro e f s1 s2 hf hv
    have hk1 : table_kept MAX_VARS s.symbol_table s1 := by
      have h := is_float_expression_table_kept MAX_VARS s.symbol_table e s hk0
      rw [hf] at h; exact h
    have hk2 : table_kept MAX_VARS s.symbol_table s2 := by
      have h := evaluate_expression_float_table_kept MAX_VARS s.symbol_table e s1 hk1
      rw [hv] at h; exact h
    obtain ⟨s', h1, h2, _⟩ := assign_variable_of_mem MAX_VARS idx x vt mx mods (.float f)
      .VAR_FLOAT (.fvalue f) "Failed to set float variable" s2 rfl (mem_of_table_kept hk2 hmem)
    refine ⟨s', ?_, h2⟩
    cases e
    all_goals first
      | (simp [is_float_expression] at hf; done)
      | simp [execute_statement, hf, hv, Res.bind, h1]
  · intro e d s1 s2 s3 hf hd hv
    have hk1 : table_kept MAX_VARS s.symbol_table s1 := by
      have h := is_float_expression_table_kept MAX_VARS s.symbol_table e s hk0
      rw [hf] at h; exact h
    have hk2 : table_kept MAX_VARS s.symbol_table s2 := by
      have h := is_double_expression_table_kept MAX_VARS s.symbol_table e s1 hk1
      rw [hd] at h; exact h
    have hk3 : table_kept MAX_VARS s.symbol_table s3 := by
      have h := evaluate_expression_double_table_kept MAX_VARS s.symbol_table e s2 hk2
      rw [hv] at h; exact h
    obtain ⟨s', h1, h2, _⟩ := assign_variable_of_mem MAX_VARS idx x vt mx mods (.double d)
      .VAR_DOUBLE (.dvalue d) "Failed to set double variable" s3 rfl
      (mem_of_table_kept hk3 hmem)
    refine ⟨s', ?_, h2⟩
    cases e
    all_goals first
      | (simp [is_double_expression] at hd; done)
      | simp [execute_statement, hf, hd, hv, Res.bind, h1]
  · intro e n s1 s2 s3 hnull hbool hf hd hv
    have hk1 : table_kept MAX_VARS s.symbol_table s1 := by
      have h := is_float_expression_table_kept MAX_VARS s.symbol_table e s hk0
      rw [hf] at h; exact h
    have hk2 : table_kept MAX_VARS s.symbol_table s2 := by
      have h := is_double_expression_table_kept MAX_VARS s.symbol_table e s1 hk1
      rw [hd] at h; exact h
    have hk3 : table_kept MAX_VARS s.symbol_table s3 := by
      have h := evaluate_expression_int_table_kept MAX_VARS s.symbol_table e s2 hk2
      rw [hv] at h; exact h
    obtain ⟨s', h1, h2, _⟩ := assign_variable_of_mem MAX_VARS idx x vt mx mods (.int n)
      .VAR_INT (.ivalue n) "Failed to set integer variable" s3 rfl
      (mem_of_table_kept hk3 hmem)
    cases e
    case null => exact absurd rfl hnull
    case NODE_BOOLEAN b m => simp [ASTNode.is_boolean_literal] at hbool
    case NODE_CHAR c m =>
      simp only [is_float_expression, Res.ok.injEq, true_and] at hf
      simp only [is_double_expression, Res.ok.injEq, true_and] at hd
      simp only [evaluate_expression_int, Res.ok.injEq] at hv
      obtain ⟨rfl, rfl⟩ := hv
      subst hd
      subst hf
      obtain ⟨s', h1, h2, _⟩ := assign_variable_of_mem MAX_VARS idx x vt mx mods (.int c)
        .VAR_INT (.ivalue c) "Failed to set character variable" s rfl hmem
      exact ⟨s', by simpa [execute_statement] using h1, h2⟩
    all_goals exact ⟨s', by simp [execute_statement, hf, hd, hv, Res.bind, h1], h2⟩

theorem C31_kind_follows_right_hand_side_witness :
    ∃ s', execute_statement 100
          (.NODE_ASSIGNMENT (.NODE_IDENTIFIER 0 "x" .NONE no_modifiers)
            (.NODE_OPERATION .OP_PLUS (.NODE_INT 1 no_modifiers) (.NODE_INT 2 no_modifiers)
              no_modifiers)
            ⟨false, true, false, false⟩) 10 (state_with_double_x 0x4004000000000000)
          = .ok () s'
      ∧ find_variable s'.symbol_table "x"
          = some ⟨"x", .VAR_INT, ⟨false, true, false, false⟩, .ivalue 3⟩ :=
  (C31_kind_follows_right_hand_side 100 0 "x" .NONE no_modifiers ⟨false, true, false, false⟩
    ⟨"x", .VAR_DOUBLE, no_modifiers, .dvalue 0x4004000000000000⟩ 10
    (state_with_double_x 0x4004000000000000) rfl).2.2.2.2
    (.NODE_OPERATION .OP_PLUS (.NODE_INT 1 no_modifiers) (.NODE_INT 2 no_modifiers)
      no_modifiers) 3
    (state_with_double_x 0x4004000000000000) (state_with_double_x 0x4004000000000000)
    (state_with_double_x 0x4004000000000000) (by simp) rfl rfl rfl rfl

/-! ## Evaluation without increment and decrement -/

theorem resolves_like_yyerror {s t : State} (msg : String) (h : resolves_like s t) :
    resolves_like s (yyerror msg t) := h

theorem Res.agrees_ok {α : Type} {s u1 u2 : State} (v : α) (h1 : resolves_like s u1)
    (h2 : resolves_like s u2) : Res.agrees s (.ok v u1) (.ok v u2) := ⟨rfl, h1, h2⟩

theorem Res.agrees_ofOption {α : Type} {s u1 u2 : State} (o : Option α)
    (h1 : resolves_like s u1) (h2 : resolves_like s u2) :
    Res.agrees s (Res.ofOption o u1) (Res.ofOption o u2) := by
  cases o with
  | some v => exact ⟨rfl, h1, h2⟩
  | none => trivial

theorem Res.agrees_bind {α β : Type} {s : State} {r1 r2 : Res α}
    {k1 k2 : α → State → Res β} (h : Res.agrees s r1 r2)
    (hk : ∀ v u1 u2, resolves_like s u1 → resolves_like s u2 →
      Res.agrees s (k1 v u1) (k2 v u2)) :
    Res.agrees s (r1.bind k1) (r2.bind k2) := by
  cases r1 <;> cases r2 <;> first
    | exact h.elim
    | trivial
    | (obtain ⟨rfl, h1, h2⟩ := h; exact hk _ _ _ h1 h2)

/-- Calls that agree return or end in undefined behaviour: they do not end the process. -/
theorem Res.agrees_returns {α : Type} {s : State} {r1 r2 : Res α} (h : Res.agrees s r1 r2) :
    (∃ v u1, r1 = .ok v u1) ∨ r1 = .undefined := by
  cases r1 <;> cases r2 <;> first
    | exact h.elim
    | exact Or.inl ⟨_, _, rfl⟩
    | exact Or.inr rfl

/-- What a call returns in a state that has the table of `s` is what it returns in any other
such state. -/
theorem Res.agrees_value {α : Type} {s : State} {r1 r2 : Res α} {v : α} {u1 : State}
    (h : Res.agrees s r1 r2) (h1 : r1 = .ok v u1) :
    resolves_like s u1 ∧ ∃ u2, r2 = .ok v u2 ∧ resolves_like s u2 := by
  subst h1
  cases r2 <;> first
    | exact h.elim
    | (obtain ⟨rfl, h1, h2⟩ := h; exact ⟨h1, _, rfl, h2⟩)

theorem sizeof_scan_agrees (name : String) (s : State) :
    ∀ (tbl : List Variable) (t1 t2 : State), resolves_like s t1 → resolves_like s t2 →
      (sizeof_scan name tbl t1).1 = (sizeof_scan name tbl t2).1
        ∧ resolves_like s (sizeof_scan name tbl t1).2
        ∧ resolves_like s (sizeof_scan name tbl t2).2 := by
  intro tbl
  induction tbl with
  | nil => intro t1 t2 h1 h2; exact ⟨rfl, h1, h2⟩
  | cons v rest ih =>
    intro t1 t2 h1 h2
    simp only [sizeof_scan]
    repeat' split
    all_goals first
      | exact ⟨rfl, h1, h2⟩
      | exact ih _ _ h1 h2

theorem int_binary_op_agrees {s t1 t2 : State} (op : OperatorType) (u : Bool) (l r : Int)
    (h1 : resolves_like s t1) (h2 : resolves_like s t2) :
    Res.agrees s (int_binary_op op u l r t1) (int_binary_op op u l r t2) := by
  unfold int_binary_op
  split <;> first
    | exact ⟨rfl, h1, h2⟩
    | (split <;> first
        | exact ⟨rfl, h1, h2⟩
        | exact Res.agrees_ofOption _ h1 h2
        | (split <;> first | exact ⟨rfl, h1, h2⟩ | exact Res.agrees_ofOption _ h1 h2))

theorem float_binary_op_agrees {s t1 t2 : State} (op : OperatorType) (l r : F32)
    (h1 : resolves_like s t1) (h2 : resolves_like s t2) :
    Res.agrees s (float_binary_op op l r t1) (float_binary_op op l r t2) := by
  unfold float_binary_op
  split <;> first
    | exact ⟨rfl, h1, h2⟩
    | (split <;> first
        | exact ⟨rfl, h1, h2⟩
        | (split <;> exact ⟨rfl, h1, h2⟩))

theorem double_binary_op_agrees {s t1 t2 : State} (op : OperatorType) (l r : F64)
    (h1 : resolves_like s t1) (h2 : resolves_like s t2) :
    Res.agrees s (double_binary_op op l r t1) (double_binary_op op l r t2) := by
  unfold double_binary_op
  split <;> first
    | exact ⟨rfl, h1, h2⟩
    | (split <;> first
        | exact ⟨rfl, h1, h2⟩
        | (split <;> exact ⟨rfl, h1, h2⟩))

theorem check_and_mark_identifier_resolved {s t : State} (id : Nat) (name msg : String)
    (v : Variable) (hf : find_variable s.symbol_table name = some v) (hok : node_ok id s)
    (ht : resolves_like s t) :
    check_and_mark_identifier id name msg t = (true, mark_valid id t)
      ∧ find_variable (mark_valid id t).symbol_table name = some v
      ∧ resolves_like s (mark_valid id t) := by
  have hft : find_variable t.symbol_table name = some v := by rw [ht.1]; exact hf
  refine ⟨check_and_mark_identifier_found id name msg t v hft (ht.2 id hok), ?_,
    resolves_like_mark_valid id ht⟩
  simpa using hft

/-- The float pre-pass on a tree without increment and decrement gives the same answer in
every state that has the table of `s`. -/
theorem is_float_expression_agrees {s : State} {e : ASTNode} (h : StepFree s e) :
    ∀ t1 t2, resolves_like s t1 → resolves_like s t2 →
      Res.agrees s (is_float_expression e t1) (is_float_expression e t2) := by
  induction h with
  | leaf e hleaf =>
    intro t1 t2 h1 h2
    cases e <;> first
      | (simp [ASTNode.is_leaf] at hleaf; done)
      | (simp only [is_float_expression]; exact ⟨rfl, h1, h2⟩)
  | identifier id name vt m v hf hok =>
    intro t1 t2 h1 h2
    obtain ⟨c1, f1, r1⟩ := check_and_mark_identifier_resolved id name
      "Undefined variable in type check" v hf hok h1
    obtain ⟨c2, f2, r2⟩ := check_and_mark_identifier_resolved id name
      "Undefined variable in type check" v hf hok h2
    simp only [is_float_expression, c1, c2, f1, f2]
    exact ⟨rfl, r1, r2⟩
  | operation op left right m _ _ ihl ihr =>
    intro t1 t2 h1 h2
    rw [is_float_expression_operation, is_float_expression_operation]
    refine Res.agrees_bind (ihl t1 t2 h1 h2) fun l u1 u2 g1 g2 => ?_
    cases l
    · exact ihr u1 u2 g1 g2
    · exact ⟨rfl, g1, g2⟩
  | unary op operand m _ _ _ =>
    intro t1 t2 h1 h2
    simp only [is_float_expression]
    exact ⟨rfl, h1, h2⟩

/-- The double pre-pass on a tree without increment and decrement gives the same answer in
every state that has the table of `s`. -/
theorem is_double_expression_agrees {s : State} {e : ASTNode} (h : StepFree s e) :
    ∀ t1 t2, resolves_like s t1 → resolves_like s t2 →
      Res.agrees s (is_double_expression e t1) (is_double_expression e t2) := by
  induction h with
  | leaf e hleaf =>
    intro t1 t2 h1 h2
    cases e <;> first
      | (simp [ASTNode.is_leaf] at hleaf; done)
      | (simp only [is_double_expression]; exact ⟨rfl, h1, h2⟩)
  | identifier id name vt m v hf hok =>
    intro t1 t2 h1 h2
    obtain ⟨c1, f1, r1⟩ := check_and_mark_identifier_resolved id name
      "Undefined variable in type check" v hf hok h1
    obtain ⟨c2, f2, r2⟩ := check_and_mark_identifier_resolved id name
      "Undefined variable in type check" v hf hok h2
    simp only [is_double_expression, c1, c2, f1, f2]
    exact ⟨rfl, r1, r2⟩
  | operation op left right m _ _ ihl ihr =>
    intro t1 t2 h1 h2
    rw [is_double_expression_operation, is_double_expression_operation]
    refine Res.agrees_bind (ihl t1 t2 h1 h2) fun l u1 u2 g1 g2 => ?_
    cases l
    · exact ihr u1 u2 g1 g2
    · exact ⟨rfl, g1, g2⟩
  | unary op operand m _ _ _ =>
    intro t1 t2 h1 h2
    simp only [is_double_expression]
    exact ⟨rfl, h1, h2⟩

/-- The integer evaluator on a tree without increment and decrement returns the same value in
every state that has the table of `s`, and leaves that table as it is. -/
theorem evaluate_expression_int_agrees (MAX_VARS : Nat) {s : State} {e : ASTNode}
    (h : StepFree s e) :
    ∀ t1 t2, resolves_like s t1 → resolves_like s t2 →
      Res.agrees s (evaluate_expression_int MAX_VARS e t1)
        (evaluate_expression_int MAX_VARS e t2) := by
  induction h with
  | leaf e hleaf =>
    intro t1 t2 h1 h2
    cases e
    case NODE_SIZEOF name m =>
      simp only [evaluate_expression_int]
      rw [h1.1, h2.1]
      obtain ⟨g0, g1, g2⟩ := sizeof_scan_agrees name s s.symbol_table t1 t2 h1 h2
      rw [g0]
      exact ⟨rfl, g1, g2⟩
    all_goals first
      | (simp [ASTNode.is_leaf] at hleaf; done)
      | (simp only [evaluate_expression_int]
         first | exact ⟨rfl, h1, h2⟩ | exact Res.agrees_ofOption _ h1 h2)
  | identifier id name vt m v hf hok =>
    intro t1 t2 h1 h2
    obtain ⟨c1, f1, r1⟩ := check_and_mark_identifier_resolved id name
      "Undefined variable" v hf hok h1
    obtain ⟨c2, f2, r2⟩ := check_and_mark_identifier_resolved id name
      "Undefined variable" v hf hok h2
    simp only [evaluate_expression_int, c1, c2, f1, f2]
    split
    · exact Res.agrees_ofOption _ r1 r2
    · split
      · exact Res.agrees_ofOption _ r1 r2
      · exact Res.agrees_ofOption _ r1 r2
  | operation op left right m _ _ ihl ihr =>
    intro t1 t2 h1 h2
    simp only [evaluate_expression_int]
    split
    · refine Res.agrees_bind (ihl t1 t2 h1 h2) fun l u1 u2 g1 g2 => ?_
      refine Res.agrees_bind (ihr u1 u2 g1 g2) fun r w1 w2 k1 k2 => ?_
      split <;> exact ⟨rfl, k1, k2⟩
    · refine Res.agrees_bind (ihl t1 t2 h1 h2) fun l u1 u2 g1 g2 => ?_
      refine Res.agrees_bind (ihr u1 u2 g1 g2) fun r w1 w2 k1 k2 => ?_
      exact int_binary_op_agrees op _ l r k1 k2
  | unary op operand m hop _ ih =>
    intro t1 t2 h1 h2
    simp only [evaluate_expression_int]
    refine Res.agrees_bind (ih t1 t2 h1 h2) fun v u1 u2 g1 g2 => ?_
    cases op <;> first
      | exact ⟨rfl, g1, g2⟩
      | exact absurd (by simp [is_step_operator]) hop

/-- The float evaluator on a tree without increment and decrement returns the same value in
every state that has the table of `s`, and leaves that table as it is. -/
theorem evaluate_expression_float_agrees (MAX_VARS : Nat) {s : State} {e : ASTNode}
    (h : StepFree s e) :
    ∀ t1 t2, resolves_like s t1 → resolves_like s t2 →
      Res.agrees s (evaluate_expression_float MAX_VARS e t1)
        (evaluate_expression_float MAX_VARS e t2) := by
  induction h with
  | leaf e hleaf =>
    intro t1 t2 h1 h2
    cases e <;> first
      | (simp [ASTNode.is_leaf] at hleaf; done)
      | (simp only [evaluate_expression_float]; exact ⟨rfl, h1, h2⟩)
  | identifier id name vt m v hf hok =>
    intro t1 t2 h1 h2
    have f1 : find_variable t1.symbol_table name = some v := by rw [h1.1]; exact hf
    have f2 : find_variable t2.symbol_table name = some v := by rw [h2.1]; exact hf
    simp only [evaluate_expression_float, f1, f2]
    split
    · exact Res.agrees_ofOption _ h1 h2
    · split
      · exact Res.agrees_ofOption _ h1 h2
      · exact Res.agrees_ofOption _ h1 h2
  | operation op left right m _ _ ihl ihr =>
    intro t1 t2 h1 h2
    simp only [evaluate_expression_float]
    refine Res.agrees_bind (ihl t1 t2 h1 h2) fun l u1 u2 g1 g2 => ?_
    refine Res.agrees_bind (ihr u1 u2 g1 g2) fun r w1 w2 k1 k2 => ?_
    exact float_binary_op_agrees op l r k1 k2
  | unary op operand m hop _ ih =>
    intro t1 t2 h1 h2
    simp only [evaluate_expression_float]
    refine Res.agrees_bind (ih t1 t2 h1 h2) fun v u1 u2 g1 g2 => ?_
    cases op <;> first
      | exact ⟨rfl, g1, g2⟩
      | exact absurd (by simp [is_step_operator]) hop

/-- The double evaluator on a tree without increment and decrement returns the same value in
every state that has the table of `s`, and leaves that table as it is. -/
theorem evaluate_expression_double_agrees (MAX_VARS : Nat) {s : State} {e : ASTNode}
    (h : StepFree s e) :
    ∀ t1 t2, resolves_like s t1 → resolves_like s t2 →
      Res.agrees s (evaluate_expression_double MAX_VARS e t1)
        (evaluate_expression_double MAX_VARS e t2) := by
  induction h with
  | leaf e hleaf =>
    intro t1 t2 h1 h2
    cases e <;> first
      | (simp [ASTNode.is_leaf] at hleaf; done)
      | (simp only [evaluate_expression_double]; exact ⟨rfl, h1, h2⟩)
  | identifier id name vt m v hf hok =>
    intro t1 t2 h1 h2
    have f1 : find_variable t1.symbol_table name = some v := by rw [h1.1]; exact hf
    have f2 : find_variable t2.symbol_table name = some v := by rw [h2.1]; exact hf
    simp only [evaluate_expression_double, f1, f2]
    split
    · exact Res.agrees_ofOption _ h1 h2
    · split
      · exact Res.agrees_ofOption _ h1 h2
      · exact Res.agrees_ofOption _ h1 h2
  | operation op left right m _ _ ihl ihr =>
    intro t1 t2 h1 h2
    simp only [evaluate_expression_double]
    refine Res.agrees_bind (ihl t1 t2 h1 h2) fun l u1 u2 g1 g2 => ?_
    refine Res.agrees_bind (ihr u1 u2 g1 g2) fun r w1 w2 k1 k2 => ?_
    exact double_binary_op_agrees op l r k1 k2
  | unary op operand m hop _ ih =>
    intro t1 t2 h1 h2
    simp only [evaluate_expression_double]
    refine Res.agrees_bind (ih t1 t2 h1 h2) fun v u1 u2 g1 g2 => ?_
    cases op <;> first
      | exact ⟨rfl, g1, g2⟩
      | exact absurd (by simp [is_step_operator]) hop

/-- `evaluate_expression` on a tree without increment and decrement returns the same value in
every state that has the table of `s`, and leaves that table as it is. -/
theorem evaluate_expression_agrees (MAX_VARS : Nat) {s : State} {e : ASTNode}
    (h : StepFree s e) (t1 t2 : State) (h1 : resolves_like s t1) (h2 : resolves_like s t2) :
    Res.agrees s (evaluate_expression MAX_VARS e t1) (evaluate_expression MAX_VARS e t2) := by
  unfold evaluate_expression
  refine Res.agrees_bind (is_float_expression_agrees h t1 t2 h1 h2) fun b u1 u2 g1 g2 => ?_
  cases b
  · refine Res.agrees_bind (is_double_expression_agrees h u1 u2 g1 g2) fun b w1 w2 k1 k2 => ?_
    cases b
    · exact evaluate_expression_int_agrees MAX_VARS h w1 w2 k1 k2
    · exact Res.agrees_bind (evaluate_expression_double_agrees MAX_VARS h w1 w2 k1 k2)
        fun v x1 x2 j1 j2 => Res.agrees_ofOption _ j1 j2
  · exact Res.agrees_bind (evaluate_expression_float_agrees MAX_VARS h u1 u2 g1 g2)
      fun v x1 x2 j1 j2 => Res.agrees_ofOption _ j1 j2

/-- C32: evaluation without increment and decrement has no effect on the table and is
deterministic on it. For a tree that contains no increment or decrement node and whose
identifiers are all defined in the table, `evaluate_expression_int` and `evaluate_expression`
never end the process; when they return, the table is the one they started from, entry by
entry, and a further evaluation of the same tree, in the state they leave or in any state
with the same table, returns the same value and leaves the same table. -/
theorem C32_evaluation_without_step_is_pure (MAX_VARS : Nat) (s : State) (e : ASTNode)
    (h : StepFree s e) :
    ((∃ v s1, evaluate_expression_int MAX_VARS e s = .ok v s1)
        ∨ evaluate_expression_int MAX_VARS e s = .undefined)
      ∧ ((∃ v s1, evaluate_expression MAX_VARS e s = .ok v s1)
        ∨ evaluate_expression MAX_VARS e s = .undefined)
      ∧ (∀ (v : Int) (s1 : State), evaluate_expression_int MAX_VARS e s = .ok v s1 →
        s1.symbol_table = s.symbol_table
          ∧ (∃ s2, evaluate_expression_int MAX_VARS e s1 = .ok v s2
              ∧ s2.symbol_table = s.symbol_table)
          ∧ ∀ t, resolves_like s t →
              ∃ t1, evaluate_expression_int MAX_VARS e t = .ok v t1
                ∧ t1.symbol_table = s.symbol_table)
      ∧ (∀ (v : Int) (s1 : State), evaluate_expression MAX_VARS e s = .ok v s1 →
        s1.symbol_table = s.symbol_table
          ∧ (∃ s2, evaluate_expression MAX_VARS e s1 = .ok v s2
              ∧ s2.symbol_table = s.symbol_table)
          ∧ ∀ t, resolves_like s t →
              ∃ t1, evaluate_expression MAX_VARS e t = .ok v t1
                ∧ t1.symbol_table = s.symbol_table) := by
  have h0 := resolves_like_refl s
  refine ⟨Res.agrees_returns (evaluate_expression_int_agrees MAX_VARS h s s h0 h0),
    Res.agrees_returns (evaluate_expression_agrees MAX_VARS h s s h0 h0), ?_, ?_⟩
  · intro v s1 hv
    have hall : ∀ t, resolves_like s t →
        ∃ t1, evaluate_expression_int MAX_VARS e t = .ok v t1
          ∧ t1.symbol_table = s.symbol_table := by
      intro t ht
      obtain ⟨_, t1, ht1, hr⟩ :=
        Res.agrees_value (evaluate_expression_int_agrees MAX_VARS h s t h0 ht) hv
      exact ⟨t1, ht1, hr.1⟩
    obtain ⟨hs1, _⟩ := Res.agrees_value (evaluate_expression_int_agrees MAX_VARS h s s h0 h0) hv
    exact ⟨hs1.1, hall s1 hs1, hall⟩
  · intro v s1 hv
    have hall : ∀ t, resolves_like s t →
        ∃ t1, evaluate_expression MAX_VARS e t = .ok v t1
          ∧ t1.symbol_table = s.symbol_table := by
      intro t ht
      obtain ⟨_, t1, ht1, hr⟩ :=
        Res.agrees_value (evaluate_expression_agrees MAX_VARS h s t h0 ht) hv
      exact ⟨t1, ht1, hr.1⟩
    obtain ⟨hs1, _⟩ := Res.agrees_value (evaluate_expression_agrees MAX_VARS h s s h0 h0) hv
    exact ⟨hs1.1, hall s1 hs1, hall⟩

theorem C32_evaluation_without_step_is_pure_witness :
    (∃ s2, evaluate_expression 100 x_plus_two_times_three_lt_ten
          { state_with_x 1 with checked := [(0, true)] } = .ok 1 s2
        ∧ s2.symbol_table = (state_with_x 1).symbol_table)
      ∧ { state_with_x 1 with checked := [(0, true)] }.symbol_table
          = (state_with_x 1).symbol_table :=
  ⟨((C32_evaluation_without_step_is_pure 100 (state_with_x 1) x_plus_two_times_three_lt_ten
      (.operation _ _ _ _
        (.operation _ _ _ _
          (.operation _ _ _ _
            (.identifier 0 "x" .VAR_INT no_modifiers
              ⟨"x", .VAR_INT, no_modifiers, .ivalue 1⟩ rfl (by unfold node_ok; decide))
            (.leaf _ rfl))
          (.leaf _ rfl))
        (.leaf _ rfl))).2.2.2 1 { state_with_x 1 with checked := [(0, true)] }
      (by decide)).2.1,
   ((C32_evaluation_without_step_is_pure 100 (state_with_x 1) x_plus_two_times_three_lt_ten
      (.operation _ _ _ _
        (.operation _ _ _ _
          (.operation _ _ _ _
            (.identifier 0 "x" .VAR_INT no_modifiers
              ⟨"x", .VAR_INT, no_modifiers, .ivalue 1⟩ rfl (by unfold node_ok; decide))
            (.leaf _ rfl))
          (.leaf _ rfl))
        (.leaf _ rfl))).2.2.2 1 { state_with_x 1 with checked := [(0, true)] }
      (by decide)).1⟩

/-! ## Integer division and remainder -/

theorem tmod_neg_dividend (a b : Int) : (-a).tmod b = -(a.tmod b) := by
  rw [Int.tmod_def, Int.tmod_def, Int.neg_tdiv]
  ring

theorem tmod_abs_divisor (a b : Int) : a.tmod |b| = a.tmod b := by
  rcases abs_choice b with h | h <;> rw [h]
  exact Int.tmod_neg a b

/-- The remainder of the truncating division is smaller than the divisor in magnitude and is
zero or has the sign of the dividend. -/
theorem tmod_bounds (a b : Int) (hb : b ≠ 0) :
    |a.tmod b| < |b| ∧ (0 ≤ a → 0 ≤ a.tmod b) ∧ (a ≤ 0 → a.tmod b ≤ 0) := by
  have hpos : 0 < |b| := abs_pos.mpr hb
  have hnonneg : ∀ c : Int, 0 ≤ c → 0 ≤ c.tmod b ∧ c.tmod b < |b| := by
    intro c hc
    refine ⟨Int.tmod_nonneg b hc, ?_⟩
    rw [← tmod_abs_divisor]
    exact Int.tmod_lt_of_pos c hpos
  rcases le_total 0 a with ha | ha
  · obtain ⟨h1, h2⟩ := hnonneg a ha
    refine ⟨by rw [abs_of_nonneg h1]; exact h2, fun _ => h1, fun ha0 => ?_⟩
    have : a = 0 := le_antisymm ha0 ha
    simp [this]
  · obtain ⟨h1, h2⟩ := hnonneg (-a) (by omega)
    rw [tmod_neg_dividend] at h1 h2
    refine ⟨?_, fun ha0 => ?_, fun _ => by omega⟩
    · rw [abs_of_nonpos (by omega)]; exact h2
    · have : a = 0 := le_antisymm ha ha0
      simp [this]

/-- C33: integer division and remainder are consistent truncating operations. For operands
that evaluate to `a` and `b` with `b` non-zero and `(a, b)` other than `(INT_MIN, -1)`, on
nodes without the unsigned qualifier, `a / b` returns `q` and `a % b` returns `r` with
`q * b + r = a`, `|r| < |b|`, and `r` zero or of the sign of `a`; the quotient is the one
rounded toward zero. -/
theorem C33_division_truncates (MAX_VARS : Nat) (left right : ASTNode) (m : TypeModifiers)
    (a b : Int) (s s1 s2 : State)
    (hl : evaluate_expression_int MAX_VARS left s = .ok a s1)
    (hr : evaluate_expression_int MAX_VARS right s1 = .ok b s2)
    (hb : b ≠ 0) (hab : ¬ (a = INT_MIN ∧ b = -1)) (hu : m.is_unsigned = false) :
    ∃ q r : Int,
      evaluate_expression_int MAX_VARS (.NODE_OPERATION .OP_DIVIDE left right m) s = .ok q s2
        ∧ evaluate_expression_int MAX_VARS (.NODE_OPERATION .OP_MOD left right m) s = .ok r s2
        ∧ q * b + r = a
        ∧ |r| < |b|
        ∧ (r = 0 ∨ (0 < r ∧ 0 < a) ∨ (r < 0 ∧ a < 0))
        ∧ q = Int.tdiv a b
        ∧ |q * b| ≤ |a| := by
  obtain ⟨h1, h2, h3⟩ := tmod_bounds a b hb
  have hsum : a.tdiv b * b + a.tmod b = a := Int.tdiv_add_tmod' a b
  refine ⟨Int.tdiv a b, Int.tmod a b, ?_, ?_, hsum, h1, ?_, rfl, ?_⟩
  · simp [evaluate_expression_int, hl, hr, Res.bind, int_binary_op, hb, int_div, hab,
      Res.ofOption]
  · simp [evaluate_expression_int, hl, hr, Res.bind, int_binary_op, hb, int_mod, hab,
      Res.ofOption, hu]
  · rcases lt_trichotomy a 0 with ha | ha | ha
    · have := h3 (le_of_lt ha)
      rcases eq_or_lt_of_le this with h | h
      · exact Or.inl h
      · exact Or.inr (Or.inr ⟨h, ha⟩)
    · left; simp [ha]
    · have := h2 (le_of_lt ha)
      rcases eq_or_lt_of_le this with h | h
      · exact Or.inl h.symm
      · exact Or.inr (Or.inl ⟨h, ha⟩)
  · have hq : a.tdiv b * b = a - a.tmod b := by omega
    rw [hq]
    rcases le_total 0 a with ha | ha
    · have := h2 ha
      have hlt : a.tmod b ≤ a := by
        by_contra hgt
        have hz : a.tdiv b * b < 0 := by omega
        have hnn : 0 ≤ a.tdiv b * b := by
          rcases le_total 0 b with hb0 | hb0
          · exact Int.mul_nonneg (Int.tdiv_nonneg ha hb0) hb0
          · have : a.tdiv b ≤ 0 := Int.tdiv_nonpos ha hb0
            exact Int.mul_nonneg_of_nonpos_of_nonpos this hb0
        omega
      rw [abs_of_nonneg (by omega), abs_of_nonneg ha]
      omega
    · have := h3 ha
      have hlt : a ≤ a.tmod b := by
        by_contra hgt
        have hz : 0 < a.tdiv b * b := by omega
        have hnp : a.tdiv b * b ≤ 0 := by
          have hneg : (-a).tdiv b * b = -(a.tdiv b * b) := by rw [Int.neg_tdiv]; ring
          have hna : 0 ≤ -a := by omega
          have hnn : 0 ≤ (-a).tdiv b * b := by
            rcases le_total 0 b with hb0 | hb0
            · exact Int.mul_nonneg (Int.tdiv_nonneg hna hb0) hb0
            · have : (-a).tdiv b ≤ 0 := Int.tdiv_nonpos hna hb0
              exact Int.mul_nonneg_of_nonpos_of_nonpos this hb0
          omega
        omega
      rw [abs_of_nonpos (by omega), abs_of_nonpos ha]
      omega

theorem C33_division_truncates_witness :
    ∃ q r : Int,
      evaluate_expression_int 100
          (.NODE_OPERATION .OP_DIVIDE (.NODE_INT (-7) no_modifiers) (.NODE_INT 2 no_modifiers)
            no_modifiers) State.initial = .ok q State.initial
        ∧ evaluate_expression_int 100
          (.NODE_OPERATION .OP_MOD (.NODE_INT (-7) no_modifiers) (.NODE_INT 2 no_modifiers)
            no_modifiers) State.initial = .ok r State.initial
        ∧ q * 2 + r = -7
        ∧ |r| < |(2 : Int)|
        ∧ (r = 0 ∨ (0 < r ∧ 0 < (-7 : Int)) ∨ (r < 0 ∧ (-7 : Int) < 0))
        ∧ q = Int.tdiv (-7) 2
        ∧ |q * 2| ≤ |(-7 : Int)| :=
  C33_division_truncates 100 (.NODE_INT (-7) no_modifiers) (.NODE_INT 2 no_modifiers)
    no_modifiers (-7) 2 State.initial State.initial State.initial rfl rfl (by decide)
    (by decide) rfl
